import Mathlib

/-! # FitTracker (`app.js`): a shallow embedding and its checked properties

The definitions below transcribe the data handling of `src/app.js`: the per-account
storage keys, the in-memory `state` with its four collections, `save` / `loadUserState`,
the login, register, weight, meal, workout and plan forms, the four delete operations,
`usePlan`, `parsePace`, `fmtPace`, `hashPw`, and the aggregates and orderings computed
by `renderDashboard`, `renderWeightHistory`, `getChartData`, `renderMealHistory` and
`renderWorkoutHistory`.

Modelling conventions.

* JavaScript numbers are idealised as rationals (`ℚ`); `NaN` is an absent value
  (`none`) where the forms and aggregates can produce it, and `-Infinity`, which
  `Math.max()` of an empty list produces, is the bottom element of `WithBot ℚ`. The
  forms are modelled on finite numerals.
* `localStorage` is split into its three disjoint parts: the session pointer
  (`ft_session`), the account table (`ft_accounts`, the `Accounts` argument of the
  account handlers) and the per-account data keys `ft_<safeEmail>_<type>`. A data key
  holds a JSON text, kept as its syntax tree; `JSON.stringify` writes a non-finite
  number as `null`. The typed collections of `state` stand for JavaScript values whose
  numbers are finite; values with a non-finite number are treated at the level of
  `JsVal`.
* The object `prs` of `renderWorkoutHistory` is a map that starts with the members
  inherited from `Object.prototype`.
* The week window of the dashboard depends on the user's time zone, which is an input.
* DOM effects (toasts, re-rendering, form reset) do not touch the data and are left
  out; `uid()` is an input of the handlers that call it.
-/

namespace FitTracker

/-! ## Data model -/

/-- An element of `state.weights`: `{ id, date, value, notes }`. -/
structure WeightEntry where
  id : String
  date : String
  value : ℚ
  notes : String
deriving DecidableEq, Repr

/-- An element of a meal plan's `foods`: `{ name, cal, prot, carb, fat }`. -/
structure Food where
  name : String
  cal : ℚ
  prot : ℚ
  carb : ℚ
  fat : ℚ
deriving DecidableEq, Repr

/-- An element of `state.mealPlans`: `{ id, date, name, foods }`. -/
structure MealPlan where
  id : String
  date : String
  name : String
  foods : List Food
deriving DecidableEq, Repr

/-- The `reps` field: `'failure'`, a number, or `null`. -/
inductive Reps where
  | failure : Reps
  | count : ℤ → Reps
  | null : Reps
deriving DecidableEq, Repr

/-- An element of `dropSets`: `{ weight, reps }`. -/
structure DropSet where
  weight : Option ℚ
  reps : Reps
deriving DecidableEq, Repr

/-- An exercise of a session or of a plan:
`{ name, sets, reps, weight, weights, rir, note, dropSets }`; `none` is `null`. -/
structure Exercise where
  name : String
  sets : Option ℤ
  reps : Reps
  weight : Option ℚ
  weights : Option (List ℚ)
  rir : String
  note : String
  dropSets : List DropSet
deriving DecidableEq, Repr

/-- The values of `currentWorkoutType`: `'gym' | 'run' | 'rest'`. -/
inductive SessionType where
  | gym : SessionType
  | run : SessionType
  | rest : SessionType
deriving DecidableEq, Repr

/-- An element of `state.workouts`. `type` is `none` for a stored session without the
field (the source reads `w.type || 'gym'`); `duration`, `pace` and `distance` are
present on run sessions only. -/
structure Workout where
  id : String
  date : String
  name : String
  notes : String
  type : Option SessionType
  exercises : List Exercise
  duration : Option ℚ
  pace : Option ℚ
  distance : Option ℚ
deriving DecidableEq, Repr

/-- An element of `state.wplans`: `{ id, name, desc, exercises }`. -/
structure WorkoutPlan where
  id : String
  name : String
  desc : String
  exercises : List Exercise
deriving DecidableEq, Repr

/-- The global `state` object. -/
structure State where
  weights : List WeightEntry
  mealPlans : List MealPlan
  workouts : List Workout
  wplans : List WorkoutPlan
deriving DecidableEq, Repr

/-! ## JSON (`JSON.stringify`, `JSON.parse`) -/

/-- A JavaScript number: a finite value, idealised as a rational, or one of `Infinity`,
`-Infinity` and `NaN`. -/
inductive JsNum where
  | finite : ℚ → JsNum
  | posInf : JsNum
  | negInf : JsNum
  | nan : JsNum
deriving DecidableEq

/-- A JavaScript value of the kinds the collections are made of: `null`, a boolean, a
number, a string, an array, or a plain object given by its own properties in insertion
order. -/
inductive JsVal where
  | null : JsVal
  | bool : Bool → JsVal
  | num : JsNum → JsVal
  | str : String → JsVal
  | arr : List JsVal → JsVal
  | obj : List (String × JsVal) → JsVal

/-- A JSON text, as its syntax tree. JSON has no notation for a non-finite number. -/
inductive Json where
  | null : Json
  | bool : Bool → Json
  | num : ℚ → Json
  | str : String → Json
  | arr : List Json → Json
  | obj : List (String × Json) → Json

mutual
/-- JavaScript `JSON.stringify(v)`: `Infinity`, `-Infinity` and `NaN` are written as
`null`, everything else as it is. -/
def jsonStringify : JsVal → Json
  | JsVal.null => Json.null
  | JsVal.bool b => Json.bool b
  | JsVal.num (JsNum.finite q) => Json.num q
  | JsVal.num _ => Json.null
  | JsVal.str s => Json.str s
  | JsVal.arr l => Json.arr (stringifyItems l)
  | JsVal.obj fs => Json.obj (stringifyFields fs)
/-- The elements of an array, each written by `jsonStringify`. -/
def stringifyItems : List JsVal → List Json
  | [] => []
  | v :: vs => jsonStringify v :: stringifyItems vs
/-- The properties of an object, each value written by `jsonStringify`. -/
def stringifyFields : List (String × JsVal) → List (String × Json)
  | [] => []
  | (k, v) :: fs => (k, jsonStringify v) :: stringifyFields fs
end

mutual
/-- JavaScript `JSON.parse(text)`. -/
def jsonParse : Json → JsVal
  | Json.null => JsVal.null
  | Json.bool b => JsVal.bool b
  | Json.num q => JsVal.num (JsNum.finite q)
  | Json.str s => JsVal.str s
  | Json.arr l => JsVal.arr (parseItems l)
  | Json.obj fs => JsVal.obj (parseFields fs)
/-- The elements of an array text, each read by `jsonParse`. -/
def parseItems : List Json → List JsVal
  | [] => []
  | v :: vs => jsonParse v :: parseItems vs
/-- The properties of an object text, each value read by `jsonParse`. -/
def parseFields : List (String × Json) → List (String × JsVal)
  | [] => []
  | (k, v) :: fs => (k, jsonParse v) :: parseFields fs
end

mutual
/-- Whether every number inside a value is finite. -/
def allFinite : JsVal → Bool
  | JsVal.num (JsNum.finite _) => true
  | JsVal.num _ => false
  | JsVal.arr l => allFiniteItems l
  | JsVal.obj fs => allFiniteFields fs
  | _ => true
/-- Whether every number inside the elements of an array is finite. -/
def allFiniteItems : List JsVal → Bool
  | [] => true
  | v :: vs => allFinite v && allFiniteItems vs
/-- Whether every number inside the properties of an object is finite. -/
def allFiniteFields : List (String × JsVal) → Bool
  | [] => true
  | (_, v) :: fs => allFinite v && allFiniteFields fs
end

/-! ## The collections as JavaScript values

The object literals that the forms build, property by property in the order of the
source. -/

/-- A finite number as a value. -/
def jsNumber (q : ℚ) : JsVal := JsVal.num (JsNum.finite q)

/-- A number-or-`null` field. -/
def jsNullable : Option ℚ → JsVal
  | some q => jsNumber q
  | none => JsVal.null

/-- An integer-or-`null` field. -/
def jsNullableInt : Option ℤ → JsVal
  | some n => jsNumber (n : ℚ)
  | none => JsVal.null

/-- An array. -/
def jsArray {α : Type} (f : α → JsVal) (l : List α) : JsVal := JsVal.arr (l.map f)

/-- A property that is present on some objects only. -/
def jsOptional (key : String) : Option JsVal → List (String × JsVal)
  | some v => [(key, v)]
  | none => []

/-- The object `{ id, date, value, notes }`. -/
def jsWeightEntry (e : WeightEntry) : JsVal :=
  JsVal.obj [("id", JsVal.str e.id), ("date", JsVal.str e.date), ("value", jsNumber e.value),
    ("notes", JsVal.str e.notes)]

/-- The object `{ name, cal, prot, carb, fat }`. -/
def jsFood (f : Food) : JsVal :=
  JsVal.obj [("name", JsVal.str f.name), ("cal", jsNumber f.cal), ("prot", jsNumber f.prot),
    ("carb", jsNumber f.carb), ("fat", jsNumber f.fat)]

/-- The object `{ id, date, name, foods }`. -/
def jsMealPlan (m : MealPlan) : JsVal :=
  JsVal.obj [("id", JsVal.str m.id), ("date", JsVal.str m.date), ("name", JsVal.str m.name),
    ("foods", jsArray jsFood m.foods)]

/-- The `reps` field: the string `'failure'`, a number or `null`. -/
def jsReps : Reps → JsVal
  | Reps.failure => JsVal.str "failure"
  | Reps.count n => jsNumber (n : ℚ)
  | Reps.null => JsVal.null

/-- The object `{ weight, reps }`. -/
def jsDropSet (d : DropSet) : JsVal :=
  JsVal.obj [("weight", jsNullable d.weight), ("reps", jsReps d.reps)]

/-- The `weights` field: an array of numbers or `null`. -/
def jsWeights : Option (List ℚ) → JsVal
  | some ws => jsArray jsNumber ws
  | none => JsVal.null

/-- The object `{ name, sets, reps, weight, weights, rir, note, dropSets }`. -/
def jsExercise (ex : Exercise) : JsVal :=
  JsVal.obj [("name", JsVal.str ex.name), ("sets", jsNullableInt ex.sets),
    ("reps", jsReps ex.reps), ("weight", jsNullable ex.weight), ("weights", jsWeights ex.weights),
    ("rir", JsVal.str ex.rir), ("note", JsVal.str ex.note),
    ("dropSets", jsArray jsDropSet ex.dropSets)]

/-- The `type` field: `'gym'`, `'run'` or `'rest'`. -/
def jsSessionType : SessionType → JsVal
  | SessionType.gym => JsVal.str "gym"
  | SessionType.run => JsVal.str "run"
  | SessionType.rest => JsVal.str "rest"

/-- A session object: `{ id, date, name, notes, type, exercises }`, with `duration`,
`pace` and `distance` after `type` on a run session. -/
def jsWorkout (w : Workout) : JsVal :=
  JsVal.obj ([("id", JsVal.str w.id), ("date", JsVal.str w.date), ("name", JsVal.str w.name),
      ("notes", JsVal.str w.notes)] ++
    jsOptional "type" (w.type.map jsSessionType) ++
    jsOptional "duration" (w.duration.map jsNumber) ++
    jsOptional "pace" (w.pace.map jsNumber) ++
    jsOptional "distance" (w.distance.map jsNumber) ++
    [("exercises", jsArray jsExercise w.exercises)])

/-- The object `{ id, name, desc, exercises }`. -/
def jsWorkoutPlan (p : WorkoutPlan) : JsVal :=
  JsVal.obj [("id", JsVal.str p.id), ("name", JsVal.str p.name), ("desc", JsVal.str p.desc),
    ("exercises", jsArray jsExercise p.exercises)]

/-! ## Reading the collections back

The typed view of a value that `JSON.parse` returns. A reader gives `none` for a value
that no typed entity stands for. -/

/-- Property access `v[key]`; `none` is `undefined`. -/
def getProp (v : JsVal) (key : String) : Option JsVal :=
  match v with
  | JsVal.obj fs => fs.lookup key
  | _ => none

/-- A string property. -/
def readString : Option JsVal → Option String
  | some (JsVal.str s) => some s
  | _ => none

/-- A numeric property. -/
def readNumber : Option JsVal → Option ℚ
  | some (JsVal.num (JsNum.finite q)) => some q
  | _ => none

/-- A number-or-`null` property; a missing property reads as `null`. -/
def readNullable : Option JsVal → Option (Option ℚ)
  | none => some none
  | some JsVal.null => some none
  | some (JsVal.num (JsNum.finite q)) => some (some q)
  | _ => none

/-- An integer-or-`null` property. -/
def readNullableInt : Option JsVal → Option (Option ℤ)
  | none => some none
  | some JsVal.null => some none
  | some (JsVal.num (JsNum.finite q)) => if q.den = 1 then some (some q.num) else none
  | _ => none

/-- A `reps` property. -/
def readReps : Option JsVal → Option Reps
  | none => some Reps.null
  | some JsVal.null => some Reps.null
  | some (JsVal.str s) => if s = "failure" then some Reps.failure else none
  | some (JsVal.num (JsNum.finite q)) => if q.den = 1 then some (Reps.count q.num) else none
  | _ => none

/-- The elements of an array, each read by `f`. -/
def readAll {α : Type} (f : JsVal → Option α) : List JsVal → Option (List α)
  | [] => some []
  | v :: vs =>
    match f v, readAll f vs with
    | some a, some as => some (a :: as)
    | _, _ => none

/-- An array property; a missing or `null` property reads as the empty array. -/
def readArray {α : Type} (f : JsVal → Option α) : Option JsVal → Option (List α)
  | none => some []
  | some JsVal.null => some []
  | some (JsVal.arr l) => readAll f l
  | _ => none

/-- A `weights` property: an array of numbers or `null`. -/
def readWeights : Option JsVal → Option (Option (List ℚ))
  | none => some none
  | some JsVal.null => some none
  | some (JsVal.arr l) => (readAll (fun v => readNumber (some v)) l).map some
  | _ => none

/-- A `type` property. -/
def readSessionType : Option JsVal → Option (Option SessionType)
  | none => some none
  | some JsVal.null => some none
  | some (JsVal.str s) =>
    if s = "gym" then some (some SessionType.gym)
    else if s = "run" then some (some SessionType.run)
    else if s = "rest" then some (some SessionType.rest)
    else none
  | _ => none

/-- A weight entry. -/
def readWeightEntry (v : JsVal) : Option WeightEntry :=
  match readString (getProp v "id"), readString (getProp v "date"),
    readNumber (getProp v "value"), readString (getProp v "notes") with
  | some id, some date, some value, some notes =>
    some { id := id, date := date, value := value, notes := notes }
  | _, _, _, _ => none

/-- A food. -/
def readFood (v : JsVal) : Option Food :=
  match readString (getProp v "name"), readNumber (getProp v "cal"),
    readNumber (getProp v "prot"), readNumber (getProp v "carb"),
    readNumber (getProp v "fat") with
  | some name, some cal, some prot, some carb, some fat =>
    some { name := name, cal := cal, prot := prot, carb := carb, fat := fat }
  | _, _, _, _, _ => none

/-- A meal plan. -/
def readMealPlan (v : JsVal) : Option MealPlan :=
  match readString (getProp v "id"), readString (getProp v "date"),
    readString (getProp v "name"), readArray readFood (getProp v "foods") with
  | some id, some date, some name, some foods =>
    some { id := id, date := date, name := name, foods := foods }
  | _, _, _, _ => none

/-- A drop set. -/
def readDropSet (v : JsVal) : Option DropSet :=
  match readNullable (getProp v "weight"), readReps (getProp v "reps") with
  | some weight, some reps => some { weight := weight, reps := reps }
  | _, _ => none

/-- An exercise. -/
def readExercise (v : JsVal) : Option Exercise :=
  match readString (getProp v "name"), readNullableInt (getProp v "sets"),
    readReps (getProp v "reps"), readNullable (getProp v "weight"),
    readWeights (getProp v "weights"), readString (getProp v "rir"),
    readString (getProp v "note"), readArray readDropSet (getProp v "dropSets") with
  | some name, some sets, some reps, some weight, some weights, some rir, some note,
      some dropSets =>
    some { name := name, sets := sets, reps := reps, weight := weight, weights := weights,
           rir := rir, note := note, dropSets := dropSets }
  | _, _, _, _, _, _, _, _ => none

/-- A session. -/
def readWorkout (v : JsVal) : Option Workout :=
  match readString (getProp v "id"), readString (getProp v "date"),
    readString (getProp v "name"), readString (getProp v "notes"),
    readSessionType (getProp v "type"), readArray readExercise (getProp v "exercises"),
    readNullable (getProp v "duration"), readNullable (getProp v "pace"),
    readNullable (getProp v "distance") with
  | some id, some date, some name, some notes, some type, some exercises, some duration,
      some pace, some distance =>
    some { id := id, date := date, name := name, notes := notes, type := type,
           exercises := exercises, duration := duration, pace := pace, distance := distance }
  | _, _, _, _, _, _, _, _, _ => none

/-- A workout plan. -/
def readWorkoutPlan (v : JsVal) : Option WorkoutPlan :=
  match readString (getProp v "id"), readString (getProp v "name"),
    readString (getProp v "desc"), readArray readExercise (getProp v "exercises") with
  | some id, some name, some desc, some exercises =>
    some { id := id, name := name, desc := desc, exercises := exercises }
  | _, _, _, _ => none

/-- The JSON object kept under `SESSION_KEY`: `{ email, remember }`. -/
structure SessionRecord where
  email : String
  remember : Bool
deriving DecidableEq, Repr

/-- Everything the data operations read or write: the in-memory `state`, the
per-account data keys of `localStorage` with the JSON text under each, the entry
`localStorage[SESSION_KEY]` and the entry `sessionStorage['ft_session_temp']`. -/
structure World where
  state : State
  storage : String → Option Json
  session : Option SessionRecord
  sessionTemp : Option String

/-! ## Storage keys -/

/-- One character of `email.toLowerCase().replace(/[^a-z0-9]/g, '_')`, as UTF-16 code
units: ASCII letters are lower-cased, the Kelvin sign lower-cases to `k`, `U+0130`
lower-cases to `i` followed by a combining mark, a character outside the basic plane
is two code units, and everything that is not in `a-z0-9` becomes `_`. -/
def safeChar (c : Char) : List Char :=
  let l := c.toLower
  if ('a' ≤ l ∧ l ≤ 'z') ∨ ('0' ≤ l ∧ l ≤ '9') then [l]
  else if c = Char.ofNat 0x212A then ['k']
  else if c = Char.ofNat 0x130 then ['i', '_']
  else if 0x10000 ≤ c.toNat then ['_', '_']
  else ['_']

/-- The local `safeEmail` of `userDataKey`. -/
def safeEmail (email : String) : String :=
  String.mk (email.data.flatMap safeChar)

/-- Source `userDataKey(email, type)`: the template string
`ft_${safeEmail}_${type}`. -/
def userDataKey (email type : String) : String :=
  "ft_" ++ safeEmail email ++ "_" ++ type

/-- Function update of the key-value store: `localStorage.setItem(key, text)`. -/
def setItem (st : String → Option Json) (key : String) (text : Json) : String → Option Json :=
  fun k => if k = key then some text else st k

/-! ## Session, `save` and `loadUserState` -/

/-- Source `getCurrentUser()`: `s ? s.email : null`. -/
def getCurrentUser (w : World) : Option String :=
  match w.session with
  | some s => some s.email
  | none => none

/-- JavaScript truthiness of a string-or-null value. -/
def truthyStr : Option String → Bool
  | some s => s != ""
  | none => false

/-- The local `email` of `save()`:
`getCurrentUser() || sessionStorage.getItem('ft_session_temp')`. -/
def saveEmail (w : World) : Option String :=
  if truthyStr (getCurrentUser w) then getCurrentUser w else w.sessionTemp

/-- The four calls `localStorage.setItem(userDataKey(email, type), JSON.stringify(v))`
of `save()`, in the order of the source, for the four in-memory collections as
JavaScript values. -/
def writeCollections (st : String → Option Json) (email : String)
    (weights mealPlans workouts wplans : JsVal) : String → Option Json :=
  let s1 := setItem st (userDataKey email "weights") (jsonStringify weights)
  let s2 := setItem s1 (userDataKey email "meals") (jsonStringify mealPlans)
  let s3 := setItem s2 (userDataKey email "workouts") (jsonStringify workouts)
  setItem s3 (userDataKey email "wplans") (jsonStringify wplans)

/-- Source `save()`: returns at once when no e-mail is found (`if (!email) return`),
otherwise writes the four collections under the four keys of that e-mail. -/
def save (w : World) : World :=
  match saveEmail w with
  | some email =>
    if email = "" then w
    else
      let written := writeCollections w.storage email
        (jsArray jsWeightEntry w.state.weights) (jsArray jsMealPlan w.state.mealPlans)
        (jsArray jsWorkout w.state.workouts) (jsArray jsWorkoutPlan w.state.wplans)
      { w with storage := written }
  | none => w

/-- The expression `JSON.parse(localStorage.getItem(key)) || []`: `getItem` gives
`null` for a missing key, `JSON.parse(null)` is `null`, and a falsy result (`null`,
`false`, 0, the empty string) is replaced by the empty array. -/
def parseItemOrEmpty (st : String → Option Json) (key : String) : JsVal :=
  match st key with
  | none => JsVal.arr []
  | some text =>
    match jsonParse text with
    | JsVal.null => JsVal.arr []
    | JsVal.bool false => JsVal.arr []
    | JsVal.num (JsNum.finite q) => if q = 0 then JsVal.arr [] else JsVal.num (JsNum.finite q)
    | JsVal.num JsNum.nan => JsVal.arr []
    | JsVal.str s => if s = "" then JsVal.arr [] else JsVal.str s
    | v => v

/-- The typed view of a collection read from storage. A value that is not an array of
entities of the collection (`save()` writes none from a typed state) has no typed view;
the typed state then holds no entry. -/
def typedCollection {α : Type} (f : JsVal → Option α) (v : JsVal) : List α :=
  match v with
  | JsVal.arr l => (readAll f l).getD []
  | _ => []

/-- The assignment `state.weights = JSON.parse(localStorage.getItem(key)) || []` of
`loadUserState`. -/
def loadWeights (st : String → Option Json) (email : String) : List WeightEntry :=
  typedCollection readWeightEntry (parseItemOrEmpty st (userDataKey email "weights"))

/-- The same assignment for `state.mealPlans`. -/
def loadMeals (st : String → Option Json) (email : String) : List MealPlan :=
  typedCollection readMealPlan (parseItemOrEmpty st (userDataKey email "meals"))

/-- The same assignment for `state.workouts`. -/
def loadWorkouts (st : String → Option Json) (email : String) : List Workout :=
  typedCollection readWorkout (parseItemOrEmpty st (userDataKey email "workouts"))

/-- The same assignment for `state.wplans`. -/
def loadWplans (st : String → Option Json) (email : String) : List WorkoutPlan :=
  typedCollection readWorkoutPlan (parseItemOrEmpty st (userDataKey email "wplans"))

/-- Source `loadUserState(email)`. -/
def loadUserState (w : World) (email : String) : World :=
  { w with state :=
      { weights := loadWeights w.storage email
        mealPlans := loadMeals w.storage email
        workouts := loadWorkouts w.storage email
        wplans := loadWplans w.storage email } }

/-- Source `doLogin(email, remember)`, after the credential check of the login or the
register form has passed. -/
def doLogin (w : World) (email : String) (remember : Bool) : World :=
  let w1 : World :=
    if remember then { w with session := some { email := email, remember := true } }
    else { w with sessionTemp := some email, session := none }
  loadUserState w1 email

/-- Source `doLogout()`. -/
def doLogout (w : World) : World :=
  { w with
    session := none
    sessionTemp := none
    state := { weights := [], mealPlans := [], workouts := [], wplans := [] } }

/-! ## Weight form and the delete operations -/

/-- Replaces by `f a` the first element `a` that satisfies `p`: the effect of
`const dup = arr.find(p)` followed by assignments to fields of `dup`. -/
def updateFirst {α : Type} (p : α → Bool) (f : α → α) : List α → List α
  | [] => []
  | a :: as => if p a then f a :: as else a :: updateFirst p f as

/-- Lines 569-578 of the weight-form handler on the collection: look for an entry with
the submitted date, overwrite its `value` and `notes`, or push a new entry. -/
def weightUpsert (ws : List WeightEntry) (newId date : String) (value : ℚ)
    (notes : String) : List WeightEntry :=
  match ws.find? (fun e => e.date == date) with
  | some _ =>
    updateFirst (fun e => e.date == date) (fun dup => { dup with value := value, notes := notes }) ws
  | none => ws ++ [{ id := newId, date := date, value := value, notes := notes }]

/-- The submit handler of `weight-form`. The arguments are the handler's locals: `date`,
`value` (the result of `parseFloat`, `none` for `NaN`) and `notes` (already trimmed);
`newId` is what `uid()` returns if it is called. -/
def weightFormSubmit (w : World) (newId date : String) (value : Option ℚ)
    (notes : String) : World :=
  if date = "" then w
  else
    match value with
    | none => w
    | some v =>
      save { w with state := { w.state with weights := weightUpsert w.state.weights newId date v notes } }

/-- Source `deleteWeight(id)`. -/
def deleteWeight (w : World) (id : String) : World :=
  save { w with state := { w.state with weights := w.state.weights.filter (fun e => e.id != id) } }

/-- Source `deleteMeal(id)`. -/
def deleteMeal (w : World) (id : String) : World :=
  save { w with state := { w.state with mealPlans := w.state.mealPlans.filter (fun m => m.id != id) } }

/-- Source `deleteWorkout(id)`. -/
def deleteWorkout (w : World) (id : String) : World :=
  save { w with state := { w.state with workouts := w.state.workouts.filter (fun x => x.id != id) } }

/-- Source `deleteWplan(id)`. -/
def deleteWplan (w : World) (id : String) : World :=
  save { w with state := { w.state with wplans := w.state.wplans.filter (fun p => p.id != id) } }


/-! ## Personal records and total volume (`renderWorkoutHistory`) -/

/-- JavaScript `Math.max(...xs)`: starts from `-Infinity` (the bottom element) and keeps
the larger value. -/
def mathMax (xs : List ℚ) : WithBot ℚ :=
  List.foldl (fun (m : WithBot ℚ) (x : ℚ) => max m (x : WithBot ℚ)) ⊥ xs

/-- The local `maxW` of `renderWorkoutHistory`:
`ex.weights ? Math.max(...ex.weights) : ex.weight`; `none` is `null`. -/
def maxW (ex : Exercise) : Option (WithBot ℚ) :=
  match ex.weights with
  | some ws => some (mathMax ws)
  | none => Option.map (fun (q : ℚ) => (q : WithBot ℚ)) ex.weight

/-- The test `w.type === 'gym' || !w.type` that guards the personal-record loop. -/
def prsGym (w : Workout) : Bool :=
  w.type == some SessionType.gym || w.type == none

/-- The sessions drawn with the gym card: `wtype = w.type || 'gym'` is neither `'rest'`
nor `'run'`. -/
def gymCard (w : Workout) : Bool :=
  match w.type with
  | some SessionType.rest => false
  | some SessionType.run => false
  | _ => true

/-- What the lookup `prs[name]` can give besides `undefined`: a number that the loop
has stored, or a member that the object literal `{}` inherits from `Object.prototype`
(a function, or the prototype object itself for `__proto__`). -/
inductive PrValue where
  | num : WithBot ℚ → PrValue
  | inherited : PrValue
deriving DecidableEq

/-- The table `prs`, an object used as a map from exercise names to numbers; `none` is
`undefined`. -/
abbrev PrTable := String → Option PrValue

/-- The property names that every object literal inherits from `Object.prototype`. -/
def objectPrototypeKeys : List String :=
  ["constructor", "hasOwnProperty", "isPrototypeOf", "propertyIsEnumerable",
   "toLocaleString", "toString", "valueOf", "__proto__", "__defineGetter__",
   "__defineSetter__", "__lookupGetter__", "__lookupSetter__"]

/-- The initial value of the table, `const prs = {}`: no own property, the inherited
members under their names. -/
def emptyObject : PrTable :=
  fun k => if k ∈ objectPrototypeKeys then some PrValue.inherited else none

/-- The body of the inner `forEach`:
`if (maxW && (!prs[ex.name] || maxW > prs[ex.name])) prs[ex.name] = maxW`.
An inherited member is truthy and compares as `NaN` with a number, so both tests fail
for it and nothing is assigned. -/
def prsStep (prs : PrTable) (ex : Exercise) : PrTable :=
  match maxW ex with
  | none => prs
  | some m =>
    if m = 0 then prs
    else
      match prs ex.name with
      | none => fun k => if k = ex.name then some (PrValue.num m) else prs k
      | some (PrValue.num cur) =>
        if cur = 0 ∨ cur < m then fun k => if k = ex.name then some (PrValue.num m) else prs k
        else prs
      | some PrValue.inherited => prs

/-- The table `prs` after the loop over `state.workouts` (lines 1110-1118). -/
def prsTable (ws : List Workout) : PrTable :=
  ws.foldl (fun prs w => if prsGym w then w.exercises.foldl prsStep prs else prs)
    emptyObject

/-- The local `isPR`: `maxW && prs[ex.name] === maxW`, read as a condition. -/
def isPR (prs : PrTable) (ex : Exercise) : Bool :=
  match maxW ex with
  | none => false
  | some m => m != 0 && prs ex.name == some (PrValue.num m)

/-- The value that the guard `maxW && ...` lets through for an exercise: its `maxW`
when that is truthy (present and not 0). -/
def truthyMaxW (ex : Exercise) : Option (WithBot ℚ) :=
  match maxW ex with
  | some m => if m = 0 then none else some m
  | none => none

/-- The factor `ex.reps || 1` inside a product: a number, or `none` (`NaN`) for the
string `'failure'`. -/
def repsFactor : Reps → Option ℚ
  | Reps.failure => none
  | Reps.count n => if n = 0 then some 1 else some (n : ℚ)
  | Reps.null => some 1

/-- The factor `ex.sets || 1`. -/
def setsFactor : Option ℤ → ℚ
  | some n => if n = 0 then 1 else (n : ℚ)
  | none => 1

/-- The factor `ex.weight || 0`. -/
def weightFactor : Option ℚ → ℚ
  | some q => q
  | none => 0

/-- What one exercise adds to `totalVolume` (lines 1176-1179); `none` is `NaN`. -/
def exerciseVolume (ex : Exercise) : Option ℚ :=
  match ex.weights with
  | some ws =>
    if ws.length ≠ 0 then
      ws.foldl (fun acc wt => (fun a r => a + wt * r) <$> acc <*> repsFactor ex.reps) (some 0)
    else
      (fun r => setsFactor ex.sets * r * weightFactor ex.weight) <$> repsFactor ex.reps
  | none => (fun r => setsFactor ex.sets * r * weightFactor ex.weight) <$> repsFactor ex.reps

/-- The local `totalVolume` of a gym card: the `reduce` over `w.exercises` from 0. -/
def totalVolume (w : Workout) : Option ℚ :=
  w.exercises.foldl (fun s ex => (fun a v => a + v) <$> s <*> exerciseVolume ex) (some 0)

/-- Spec-side gym session: a session that is neither a run nor a rest day. -/
def specGymSession (w : Workout) : Bool :=
  w.type != some SessionType.run && w.type != some SessionType.rest

/-- Spec-side load of an exercise, in the words of the specification: the greatest of
the per-set weights when per-set weights are present, otherwise the single weight. -/
def specLoad (ex : Exercise) : Option ℚ :=
  match ex.weights with
  | some ws => ws.max?
  | none => ex.weight

/-- Spec-side data point of an exercise: its load when that is present and non-zero. -/
def dataPoint (ex : Exercise) : Option ℚ :=
  (specLoad ex).filter (fun m => decide (m ≠ 0))

/-- Spec-side list of the data points recorded for `name` over all gym sessions. -/
def dataPoints (ws : List Workout) (name : String) : List ℚ :=
  ((ws.filter specGymSession).flatMap Workout.exercises).filterMap
    (fun ex => if ex.name = name then dataPoint ex else none)

/-- Spec-side number of repetitions: the stored count, a missing `reps` counting as 1. -/
def specReps : Reps → ℚ
  | Reps.count n => (n : ℚ)
  | _ => 1

/-- Spec-side contribution of one exercise to the total volume, in the words of the
specification: (sum of the per-set weights) × reps when a non-empty per-set list is
present, sets × reps × weight otherwise, a missing `sets`, `reps`, `weight` counting as
1, 1, 0. -/
def specVolume (ex : Exercise) : ℚ :=
  match ex.weights with
  | some (wt :: wts) => (wt :: wts).sum * specReps ex.reps
  | _ => ((ex.sets.getD 1 : ℤ) : ℚ) * specReps ex.reps * ex.weight.getD 0

/-! ## Weekly average (`renderDashboard`) -/

/-- The decimal that `x.toFixed(1)` writes: the multiple of 1/10 nearest to `x`, a tie
going away from zero. -/
def toFixed1 (x : ℚ) : ℚ :=
  if 0 ≤ x then (⌊x * 10 + 1 / 2⌋ : ℚ) / 10 else -((⌊-x * 10 + 1 / 2⌋ : ℚ) / 10)

/-- The local `weekWeights`: `state.weights.filter(w => w.date >= monStr && w.date <= sunStr)`;
the dates are compared as strings. -/
def weekWeights (ws : List WeightEntry) (monStr sunStr : String) : List WeightEntry :=
  ws.filter (fun w => decide (monStr ≤ w.date ∧ w.date ≤ sunStr))

/-! ## Week boundaries (`renderDashboard`)

A `Date` is represented by its local calendar day, counted in days from 1970-01-01;
`setDate(getDate() + k)` moves it by `k` days and `setHours` keeps the day. The strings
`monStr` and `sunStr` that `toISOString()` derives from the two dates are defined
further down, with `weekAvg`. -/

/-- JavaScript `getDay()` of a calendar day: 0 is Sunday; 1970-01-01 was a Thursday. -/
def getDay (day : ℤ) : ℤ := (day + 4) % 7

/-- The local `diffToMon`: `dayOfWeek === 0 ? -6 : 1 - dayOfWeek`. -/
def diffToMon (dayOfWeek : ℤ) : ℤ :=
  if dayOfWeek = 0 then -6 else 1 - dayOfWeek

/-- The calendar day of the local `monday`: `nowDate.getDate() + diffToMon`. -/
def weekMonday (nowDate : ℤ) : ℤ := nowDate + diffToMon (getDay nowDate)

/-- The calendar day of the local `sunday`: `monday.getDate() + 6`. -/
def weekSunday (nowDate : ℤ) : ℤ := weekMonday nowDate + 6

/-! ## String helpers of the platform: `trim`, `split`, `parseInt`, `parseFloat`

These follow the ECMAScript definitions on the characters of the string. Two things are
outside the model, as numbers are rationals: the literal `Infinity`, which `parseFloat`
here reads as not a number, and the rounding of long numerals to a double. -/

/-- White space and line terminators, the characters that `trim`, `parseInt` and
`parseFloat` skip. -/
def isJsSpace (c : Char) : Bool :=
  c.toNat ∈ [0x9, 0xA, 0xB, 0xC, 0xD, 0x20, 0xA0, 0x1680, 0x2000, 0x2001, 0x2002, 0x2003,
    0x2004, 0x2005, 0x2006, 0x2007, 0x2008, 0x2009, 0x200A, 0x2028, 0x2029, 0x202F, 0x205F,
    0x3000, 0xFEFF]

/-- JavaScript `s.trim()`. -/
def jsTrim (s : String) : String :=
  String.mk ((s.data.dropWhile isJsSpace).reverse.dropWhile isJsSpace).reverse

/-- JavaScript `s.split(sep)` for a one-character separator, on character lists. -/
def splitOnChar (sep : Char) : List Char → List (List Char)
  | [] => [[]]
  | c :: cs =>
    if c = sep then [] :: splitOnChar sep cs
    else
      match splitOnChar sep cs with
      | [] => [[c]]
      | p :: ps => (c :: p) :: ps

/-- Value of a decimal digit character. -/
def digitVal (c : Char) : Option ℕ :=
  if '0' ≤ c ∧ c ≤ '9' then some (c.toNat - '0'.toNat) else none

/-- Value of a hexadecimal digit character. -/
def hexVal (c : Char) : Option ℕ :=
  if '0' ≤ c ∧ c ≤ '9' then some (c.toNat - '0'.toNat)
  else if 'a' ≤ c ∧ c ≤ 'f' then some (c.toNat - 'a'.toNat + 10)
  else if 'A' ≤ c ∧ c ≤ 'F' then some (c.toNat - 'A'.toNat + 10)
  else none

/-- The values of the longest prefix of digits, for the digit reader `val`. -/
def digitPrefix (val : Char → Option ℕ) : List Char → List ℕ
  | [] => []
  | c :: cs =>
    match val c with
    | some d => d :: digitPrefix val cs
    | none => []

/-- The number written by a list of digit values in the given radix. -/
def ofDigitList (radix : ℕ) (ds : List ℕ) : ℕ :=
  ds.foldl (fun acc d => acc * radix + d) 0

/-- JavaScript `parseInt(s)` without a radix: leading white space, an optional sign, an
optional `0x` / `0X` prefix, then the longest run of digits; `none` is `NaN`. -/
def parseInt (s : String) : Option ℤ :=
  let t := s.data.dropWhile isJsSpace
  let neg : Bool := match t with
    | '-' :: _ => true
    | _ => false
  let t1 := match t with
    | '-' :: r => r
    | '+' :: r => r
    | _ => t
  let hex : Bool := match t1 with
    | '0' :: 'x' :: _ => true
    | '0' :: 'X' :: _ => true
    | _ => false
  let ds := if hex then digitPrefix hexVal (t1.drop 2) else digitPrefix digitVal t1
  let radix := if hex then 16 else 10
  if ds.length = 0 then none
  else some (if neg then -(ofDigitList radix ds : ℤ) else (ofDigitList radix ds : ℤ))

/-- The exponent part of a decimal literal: `e` or `E`, an optional sign and at least one
digit; 0 when the text does not start with such a part. -/
def exponentPart (t : List Char) : ℤ :=
  match t with
  | c :: r =>
    if c = 'e' ∨ c = 'E' then
      match r with
      | '-' :: r2 => -(ofDigitList 10 (digitPrefix digitVal r2) : ℤ)
      | '+' :: r2 => (ofDigitList 10 (digitPrefix digitVal r2) : ℤ)
      | _ => (ofDigitList 10 (digitPrefix digitVal r) : ℤ)
    else 0
  | [] => 0

/-- JavaScript `parseFloat(s)`: leading white space, an optional sign, then the longest
prefix that is a decimal literal (digits, an optional fraction, an optional exponent);
`none` is `NaN`. -/
def parseFloat (s : String) : Option ℚ :=
  let t := s.data.dropWhile isJsSpace
  let neg : Bool := match t with
    | '-' :: _ => true
    | _ => false
  let t1 := match t with
    | '-' :: r => r
    | '+' :: r => r
    | _ => t
  let ip := digitPrefix digitVal t1
  let rest1 := t1.drop ip.length
  let fp := match rest1 with
    | '.' :: r => digitPrefix digitVal r
    | _ => []
  let rest2 := match rest1 with
    | '.' :: r => r.drop fp.length
    | _ => rest1
  if ip.length = 0 ∧ fp.length = 0 then none
  else
    let mant : ℚ := (ofDigitList 10 ip : ℚ) + (ofDigitList 10 fp : ℚ) / (10 : ℚ) ^ fp.length
    let v : ℚ := mant * (10 : ℚ) ^ (exponentPart rest2)
    some (if neg then -v else v)

/-! ## Pace (`parsePace`) and the decimals of `toFixed(2)` -/

/-- The value `parseInt(x) || 0`. -/
def parseIntOr0 (s : String) : ℤ :=
  (parseInt s).getD 0

/-- Source `parsePace(val)`; `none` is `null`. -/
def parsePace (val : String) : Option ℚ :=
  if val = "" then none
  else
    match splitOnChar ':' (jsTrim val).data with
    | [p0, p1] =>
      let m := parseIntOr0 (String.mk p0)
      let s := parseIntOr0 (String.mk p1)
      if m ≤ 0 ∧ s ≤ 0 then none else some ((m : ℚ) + (s : ℚ) / 60)
    | _ =>
      match parseFloat val with
      | none => none
      | some n => if n ≤ 0 then none else some n

/-- The decimal that `x.toFixed(2)` writes: the multiple of 1/100 nearest to `x`, a tie
going away from zero. -/
def toFixed2 (x : ℚ) : ℚ :=
  if 0 ≤ x then (⌊x * 100 + 1 / 2⌋ : ℚ) / 100 else -((⌊-x * 100 + 1 / 2⌋ : ℚ) / 100)

/-- Spec-side value of a decimal numeral: the number that a list of digit characters
writes. -/
def numeralValue (ds : List Char) : ℕ :=
  ds.foldl (fun acc c => acc * 10 + (c.toNat - '0'.toNat)) 0

/-- Source `updateRunPreview()`: the distance shown in the preview, `none` when the
preview is hidden (`dur > 0 && paceMin` fails). -/
def updateRunPreview (runDuration runSpeed : String) : Option ℚ :=
  match parseFloat runDuration, parsePace runSpeed with
  | some dur, some paceMin =>
    if 0 < dur ∧ paceMin ≠ 0 then some (toFixed2 (dur / paceMin)) else none
  | _, _ => none

/-! ## Sorting, weight history and chart data

`Array.prototype.sort` is stable, and every stable sort returns the same list for a
total preorder, so the sort is written as an insertion sort. Dates are compared as
strings; on `YYYY-MM-DD` dates `localeCompare` and `>=` both give the calendar order. -/

/-- Source `sortByDate(arr)`: `[...arr].sort((a, b) => a.date.localeCompare(b.date))`. -/
def sortByDate (arr : List WeightEntry) : List WeightEntry :=
  arr.insertionSort (fun a b => a.date ≤ b.date)

/-- The three labels of a history row: `up` (arrow up), `down` (arrow down) and the
unchanged one (empty class, arrow right). -/
inductive DiffLabel where
  | up : DiffLabel
  | down : DiffLabel
  | same : DiffLabel
deriving DecidableEq, Repr

/-- The tests `diff > 0 ? 'up' : diff < 0 ? 'down' : ''` on the number that the string
`diff` denotes. -/
def diffLabel (diff : ℚ) : DiffLabel :=
  if diff > 0 then DiffLabel.up else if diff < 0 then DiffLabel.down else DiffLabel.same

/-- What `renderWeightHistory` shows for one entry: the entry and, when there is a
`prev`, the decimal of `(w.value - prev.value).toFixed(1)` with its label. -/
structure HistoryRow where
  entry : WeightEntry
  diff : Option (ℚ × DiffLabel)
deriving DecidableEq, Repr

/-- The `map` of `renderWeightHistory` over `sorted`: `prev` is `sorted[idx + 1]`, the
element that follows `w`. -/
def historyRows : List WeightEntry → List HistoryRow
  | [] => []
  | w :: rest =>
    { entry := w
      diff := rest.head?.map (fun prev =>
        (toFixed1 (w.value - prev.value), diffLabel (toFixed1 (w.value - prev.value)))) }
      :: historyRows rest

/-- Source `renderWeightHistory()`: the rows over `sortByDate(state.weights).reverse()`. -/
def renderWeightHistory (ws : List WeightEntry) : List HistoryRow :=
  historyRows (sortByDate ws).reverse

/-- Source `getChartData(days)`. `days` is `none` for `null` / `NaN`; `cutStr` is the
date string of today minus `days` days that the source takes from `toISOString()`. -/
def getChartData (ws : List WeightEntry) (days : Option ℤ) (cutStr : String) :
    List WeightEntry :=
  match days with
  | none => sortByDate ws
  | some d =>
    if d = 0 then sortByDate ws
    else (sortByDate ws).filter (fun w => decide (cutStr ≤ w.date))

/-- The local `sorted` of `renderWorkoutHistory`:
`[...state.workouts].sort((a, b) => b.date.localeCompare(a.date))`. -/
def sortWorkoutsDesc (ws : List Workout) : List Workout :=
  ws.insertionSort (fun a b => b.date ≤ a.date)

/-! ## Workout form and plan form -/

/-- The inputs of one `.dropset-row`: the two field values and whether its failure
button is active. -/
structure DropSetRow where
  weight : String
  reps : String
  failure : Bool
deriving DecidableEq, Repr

/-- The inputs of one `.exercise-row` of the workout form or of the plan form: the field
values as typed, the state of the failure and per-set buttons, and the drop-set rows. -/
structure ExerciseRow where
  name : String
  sets : String
  reps : String
  weight : String
  weightsCsv : String
  rir : String
  note : String
  failure : Bool
  perSets : Bool
  dropSets : List DropSetRow
deriving DecidableEq, Repr

/-- The value `parseFloat(x) || null`. -/
def parseFloatOrNull (s : String) : Option ℚ :=
  match parseFloat s with
  | some q => if q = 0 then none else some q
  | none => none

/-- The value `parseInt(x) || null`. -/
def parseIntOrNull (s : String) : Option ℤ :=
  match parseInt s with
  | some n => if n = 0 then none else some n
  | none => none

/-- The value `isFailure ? 'failure' : (parseInt(x) || null)`. -/
def repsOf (failure : Bool) (input : String) : Reps :=
  if failure then Reps.failure
  else
    match parseIntOrNull input with
    | some n => Reps.count n
    | none => Reps.null

/-- The object pushed to `dropSets` for one drop-set row. -/
def buildDropSet (dr : DropSetRow) : DropSet :=
  { weight := parseFloatOrNull dr.weight, reps := repsOf dr.failure dr.reps }

/-- The per-set list:
`csv.split(',').map(v => parseFloat(v.trim())).filter(v => !isNaN(v) && v > 0)`. -/
def perSetWeights (csv : String) : List ℚ :=
  (splitOnChar ',' csv.data).filterMap (fun v =>
    match parseFloat (jsTrim (String.mk v)) with
    | some q => if q > 0 then some q else none
    | none => none)

/-- The exercise that the `rows.forEach` body pushes for one row, `none` when the
trimmed name is empty. The workout form (lines 1040-1069) and the plan form (lines
1396-1424) run the same code on their rows. -/
def buildExercise (r : ExerciseRow) : Option Exercise :=
  if jsTrim r.name = "" then none
  else
    let weightsArr : Option (List ℚ) :=
      if r.perSets then some (perSetWeights r.weightsCsv) else none
    some
      { name := jsTrim r.name
        sets := parseIntOrNull r.sets
        reps := repsOf r.failure r.reps
        weight := if r.perSets then none else parseFloatOrNull r.weight
        weights :=
          match weightsArr with
          | some l => if l.length ≠ 0 then some l else none
          | none => none
        rir := jsTrim r.rir
        note := jsTrim r.note
        dropSets := r.dropSets.map buildDropSet }

/-- The session pushed by the run branch. -/
def runSession (newId date name notes : String) (duration paceMin : ℚ) : Workout :=
  { id := newId, date := date, name := if name = "" then "Corsa" else name, notes := notes,
    type := some SessionType.run, exercises := [], duration := some duration,
    pace := some paceMin, distance := some (toFixed2 (duration / paceMin)) }

/-- Appends a session to `state.workouts` and calls `save()`. -/
def pushWorkout (w : World) (x : Workout) : World :=
  save { w with state := { w.state with workouts := w.state.workouts ++ [x] } }

/-- The submit handler of `workout-form`. The string arguments are the field values as
typed; `rows` are the exercise rows of the form; `newId` is what `uid()` returns if it
is called. A rejected submission returns the world as it was. -/
def workoutFormSubmit (w : World) (currentWorkoutType : SessionType)
    (newId dateInput nameInput notesInput runDuration runSpeed : String)
    (rows : List ExerciseRow) : World :=
  let name := jsTrim nameInput
  let notes := jsTrim notesInput
  if dateInput = "" then w
  else
    match currentWorkoutType with
    | SessionType.rest =>
      pushWorkout w
        { id := newId, date := dateInput, name := if name = "" then "Rest Day" else name,
          notes := notes, type := some SessionType.rest, exercises := [], duration := none,
          pace := none, distance := none }
    | SessionType.run =>
      match parseFloat runDuration, parsePace runSpeed with
      | some duration, some paceMin =>
        if duration = 0 ∨ paceMin = 0 then w
        else pushWorkout w (runSession newId dateInput name notes duration paceMin)
      | _, _ => w
    | SessionType.gym =>
      let exercises := rows.filterMap buildExercise
      if name = "" ∨ exercises.length = 0 then w
      else
        pushWorkout w
          { id := newId, date := dateInput, name := name, notes := notes,
            type := some SessionType.gym, exercises := exercises, duration := none,
            pace := none, distance := none }

/-- The submit handler of `wplan-form`. `editingPlanId` is the global of that name
(`none` for `null`); the result holds the world and the new value of the global. -/
def wplanFormSubmit (w : World) (editingPlanId : Option String)
    (newId nameInput descInput : String) (rows : List ExerciseRow) :
    World × Option String :=
  let name := jsTrim nameInput
  let desc := jsTrim descInput
  let exercises := rows.filterMap buildExercise
  if name = "" ∨ exercises.length = 0 then (w, editingPlanId)
  else
    if truthyStr editingPlanId then
      match editingPlanId with
      | some pid =>
        let updated := updateFirst (fun p => p.id == pid)
          (fun p => { p with name := name, desc := desc, exercises := exercises }) w.state.wplans
        (save { w with state := { w.state with wplans := updated } }, none)
      | none => (w, none)
    else
      let created : WorkoutPlan :=
        { id := newId, name := name, desc := desc, exercises := exercises }
      (save { w with state := { w.state with wplans := w.state.wplans ++ [created] } },
        editingPlanId)

/-! ## Accounts: `hashPw` and the register form -/

/-- The UTF-16 code units of a string: what `length` counts and `charCodeAt` reads. -/
def utf16Units (s : String) : List ℕ :=
  s.data.flatMap (fun c =>
    if c.toNat < 0x10000 then [c.toNat]
    else [0xD800 + (c.toNat - 0x10000) / 0x400, 0xDC00 + (c.toNat - 0x10000) % 0x400])

/-- JavaScript `x | 0`: the signed 32-bit integer congruent to `x`. -/
def toInt32 (x : ℤ) : ℤ :=
  (x + 2 ^ 31) % 2 ^ 32 - 2 ^ 31

/-- The number `h` at the end of the loop of `hashPw`:
`h = (Math.imul(31, h) + pw.charCodeAt(i)) | 0`. -/
def hashPwInt (pw : String) : ℤ :=
  (utf16Units pw).foldl (fun h c => toInt32 (toInt32 (31 * h) + (c : ℤ))) 0

/-- JavaScript `h.toString(16)` of an integer. -/
def toString16 (h : ℤ) : String :=
  if h < 0 then "-" ++ String.mk (Nat.toDigits 16 (-h).toNat)
  else String.mk (Nat.toDigits 16 h.toNat)

/-- Source `hashPw(pw)`. -/
def hashPw (pw : String) : String :=
  toString16 (hashPwInt pw)

/-- The object under `ft_accounts`: e-mail to stored hash. -/
abbrev Accounts := String → Option String

/-- One character of `s.toLowerCase()`. ASCII letters are lower-cased, the Kelvin sign
gives `k` and `U+0130` gives `i` with a combining dot; the case pairs outside ASCII,
which do not occur in an e-mail address, are left as they are. -/
def lowerChar (c : Char) : List Char :=
  if c = Char.ofNat 0x212A then ['k']
  else if c = Char.ofNat 0x130 then ['i', Char.ofNat 0x307]
  else [c.toLower]

/-- JavaScript `s.toLowerCase()`. -/
def toLowerCase (s : String) : String :=
  String.mk (s.data.flatMap lowerChar)

/-- The messages of the login and register forms. -/
inductive AuthError where
  | weakPassword : AuthError
  | emailTaken : AuthError
  | emailNotFound : AuthError
  | wrongPassword : AuthError
deriving DecidableEq, Repr

/-- The result of a login or register submission: the account table, the world and the
error shown, if any. -/
structure AuthOutcome where
  accounts : Accounts
  world : World
  error : Option AuthError

/-- The submit handler of `register-form`; `emailInput` and `pw` are the field values as
typed. -/
def registerFormSubmit (accounts : Accounts) (w : World) (emailInput pw : String)
    (remember : Bool) : AuthOutcome :=
  let email := toLowerCase (jsTrim emailInput)
  if (utf16Units pw).length < 6 then
    { accounts := accounts, world := w, error := some AuthError.weakPassword }
  else if truthyStr (accounts email) then
    { accounts := accounts, world := w, error := some AuthError.emailTaken }
  else
    { accounts := (fun k => if k = email then some (hashPw pw) else accounts k),
      world := doLogin w email remember,
      error := none }

/-! ## Login form -/

/-- The submit handler of `login-form`; `emailInput` and `pw` are the field values as
typed. -/
def loginFormSubmit (accounts : Accounts) (w : World) (emailInput pw : String)
    (remember : Bool) : AuthOutcome :=
  let email := toLowerCase (jsTrim emailInput)
  if truthyStr (accounts email) = false then
    { accounts := accounts, world := w, error := some AuthError.emailNotFound }
  else if accounts email ≠ some (hashPw pw) then
    { accounts := accounts, world := w, error := some AuthError.wrongPassword }
  else
    { accounts := accounts, world := doLogin w email remember, error := none }

/-! ## Using a plan (`usePlan`) -/

/-- What `usePlan` writes into the tracker form: the session name, the date and, in
order, the copies `{ ...ex }` of the plan's exercises that it hands to `addExercise`. -/
structure TrackerPrefill where
  name : String
  date : String
  exercises : List Exercise
deriving DecidableEq, Repr

/-- Source `usePlan(planId)`: looks the plan up and returns when it is missing;
otherwise it fills the tracker form. It assigns nothing to `state` and does not call
`save()`, so the world is handed back as it was. `today` is the value of `today()`. -/
def usePlan (w : World) (planId today : String) : World × Option TrackerPrefill :=
  match w.state.wplans.find? (fun p => p.id == planId) with
  | none => (w, none)
  | some plan => (w, some { name := plan.name, date := today, exercises := plan.exercises })

/-! ## Meal form and macro totals -/

/-- The inputs of one `.food-item-row`, as typed. -/
structure FoodRow where
  name : String
  cal : String
  prot : String
  carb : String
  fat : String
deriving DecidableEq, Repr

/-- The value `parseFloat(x) || 0`. -/
def parseFloatOr0 (s : String) : ℚ :=
  match parseFloat s with
  | some q => if q = 0 then 0 else q
  | none => 0

/-- The food pushed for one row, `none` when the trimmed food name is empty. -/
def buildFood (r : FoodRow) : Option Food :=
  if jsTrim r.name = "" then none
  else
    some
      { name := jsTrim r.name, cal := parseFloatOr0 r.cal, prot := parseFloatOr0 r.prot,
        carb := parseFloatOr0 r.carb, fat := parseFloatOr0 r.fat }

/-- The submit handler of `meal-form`. `dateInput` and `nameInput` are the field values
as typed, `rows` the food rows of the form, `newId` what `uid()` returns if it is
called. A rejected submission returns the world as it was. -/
def mealFormSubmit (w : World) (newId dateInput nameInput : String) (rows : List FoodRow) :
    World :=
  let name := jsTrim nameInput
  let foods := rows.filterMap buildFood
  if dateInput = "" ∨ name = "" then w
  else
    let plan : MealPlan := { id := newId, date := dateInput, name := name, foods := foods }
    save { w with state := { w.state with mealPlans := w.state.mealPlans ++ [plan] } }

/-- The value `x || 0` of a number. -/
def numOr0 (x : ℚ) : ℚ :=
  if x = 0 then 0 else x

/-- JavaScript `Math.round(x)`: the nearest integer, a tie going up. -/
def mathRound (x : ℚ) : ℤ :=
  ⌊x + 1 / 2⌋

/-- The four numbers that `renderMealHistory` shows for a plan: `Math.round(totalCal)`
and the decimals of `totalProt.toFixed(1)`, `totalCarb.toFixed(1)`,
`totalFat.toFixed(1)`. -/
structure MacroTotals where
  cal : ℤ
  prot : ℚ
  carb : ℚ
  fat : ℚ
deriving DecidableEq, Repr

/-- The totals of `renderMealHistory` (lines 711-714 and 743-746): four `reduce` calls
from 0 over `m.foods`. -/
def mealTotals (m : MealPlan) : MacroTotals :=
  { cal := mathRound (m.foods.foldl (fun s f => s + numOr0 f.cal) 0)
    prot := toFixed1 (m.foods.foldl (fun s f => s + numOr0 f.prot) 0)
    carb := toFixed1 (m.foods.foldl (fun s f => s + numOr0 f.carb) 0)
    fat := toFixed1 (m.foods.foldl (fun s f => s + numOr0 f.fat) 0) }

/-- The calorie figure of the dashboard (lines 357 and 365):
`Math.round` of the `reduce` with `parseFloat(f.cal) || 0`. `parseFloat` of a number
reads the numeral that writes it, so it gives the number back. -/
def dashTotalCal (m : MealPlan) : ℤ :=
  mathRound (m.foods.foldl (fun s f => s + numOr0 f.cal) 0)

/-! ## Pace formatting (`fmtPace`) -/

/-- JavaScript `String(s).padStart(2, '0')` of an integer. -/
def padStart2 (s : ℤ) : String :=
  if (toString s).length < 2 then "0" ++ toString s else toString s

/-- Source `fmtPace(paceMinPerKm)`. -/
def fmtPace (paceMinPerKm : ℚ) : String :=
  let m : ℤ := ⌊paceMinPerKm⌋
  let s : ℤ := mathRound ((paceMinPerKm - (m : ℚ)) * 60)
  toString m ++ ":" ++ padStart2 s

/-! ## The week window as date strings and the weekly average (`renderDashboard`)

`toISOString()` writes the calendar date of an instant in UTC, while `monday` and
`sunday` are set to local times of day (`setHours`). The user's time zone is therefore
an input: the number of minutes the local clock is ahead of UTC (the negated
`getTimezoneOffset()`), which may depend on the local day and time of day. -/

/-- Year, month and day of a day counted from 1970-01-01, in the proleptic Gregorian
calendar that `Date` uses. -/
def civilDate (day : ℤ) : ℤ × ℤ × ℤ :=
  let z := day + 719468
  let era := z / 146097
  let doe := z - era * 146097
  let yoe := (doe - doe / 1460 + doe / 36524 - doe / 146096) / 365
  let doy := doe - (365 * yoe + yoe / 4 - yoe / 100)
  let mp := (5 * doy + 2) / 153
  let d := doy - (153 * mp + 2) / 5 + 1
  let m := if mp < 10 then mp + 3 else mp - 9
  (yoe + era * 400 + (if m ≤ 2 then 1 else 0), m, d)

/-- A natural number written with at least `width` digits, zeros in front. -/
def padZeros (width : ℕ) (n : ℕ) : String :=
  String.mk (List.replicate (width - (toString n).length) '0') ++ toString n

/-- The year field of `toISOString()`: four digits for the years 0 to 9999, a sign and
six digits otherwise. -/
def isoYear (y : ℤ) : String :=
  if 0 ≤ y ∧ y ≤ 9999 then padZeros 4 y.toNat
  else if y < 0 then "-" ++ padZeros 6 (-y).toNat
  else "+" ++ padZeros 6 y.toNat

/-- The text before `T` in `toISOString()` for an instant that falls on the day
`utcDay` (counted from 1970-01-01) in UTC: `YYYY-MM-DD`. -/
def isoDate (utcDay : ℤ) : String :=
  isoYear (civilDate utcDay).1 ++ "-" ++ padZeros 2 (civilDate utcDay).2.1.toNat ++ "-" ++
    padZeros 2 (civilDate utcDay).2.2.toNat

/-- The user's time zone: minutes ahead of UTC at a local day and local time of day (in
milliseconds after midnight). -/
abbrev Zone := ℤ → ℤ → ℤ

/-- The expression `d.toISOString().split('T')[0]` for the `Date` `d` whose local
calendar day is `day` and whose local time of day is `ms` milliseconds after midnight:
the UTC date of the instant `day * 86400000 + ms - offset * 60000`. -/
def toISODate (zone : Zone) (day ms : ℤ) : String :=
  isoDate ((day * 86400000 + ms - zone day ms * 60000) / 86400000)

/-- The local `monStr` (line 279): `monday` is the Monday of `nowDate` at the local time
00:00:00.000. -/
def monStr (zone : Zone) (nowDate : ℤ) : String :=
  toISODate zone (weekMonday nowDate) 0

/-- The local `sunStr` (line 280): `sunday` is the day six days after `monday` at the
local time 23:59:59.999. -/
def sunStr (zone : Zone) (nowDate : ℤ) : String :=
  toISODate zone (weekSunday nowDate) 86399999

/-- The local `weekAvg` (lines 279-284) for the clock day `nowDate` in the time zone
`zone`: `null` when no entry is dated in `[monStr, sunStr]`, otherwise
`(weekWeights.reduce((s, w) => s + w.value, 0) / weekWeights.length).toFixed(1)`. -/
def weekAvg (ws : List WeightEntry) (zone : Zone) (nowDate : ℤ) : Option ℚ :=
  let week := weekWeights ws (monStr zone nowDate) (sunStr zone nowDate)
  if week.length ≠ 0 then
    some (toFixed1 (week.foldl (fun s w => s + w.value) 0 / (week.length : ℚ)))
  else none

/-! # Theorems -/

/-! ## Helper lemmas: storage keys, `save`, `updateFirst` -/

theorem save_state (w : World) : (save w).state = w.state := by
  unfold save
  split
  · split <;> rfl
  · rfl

theorem save_eq (w : World) (email : String) (h : saveEmail w = some email)
    (hne : email ≠ "") :
    save w = { w with storage := (writeCollections w.storage email
      (jsArray jsWeightEntry w.state.weights) (jsArray jsMealPlan w.state.mealPlans)
      (jsArray jsWorkout w.state.workouts) (jsArray jsWorkoutPlan w.state.wplans)) } := by
  simp [save, h, hne]

theorem string_append_left_cancel (a b c : String) (h : a ++ b = a ++ c) : b = c := by
  have h2 := congrArg String.data h
  rw [String.data_append, String.data_append] at h2
  exact String.ext (List.append_cancel_left h2)

/-- For one e-mail, the key determines the collection type. -/
theorem userDataKey_type_inj (email t t2 : String)
    (h : userDataKey email t = userDataKey email t2) : t = t2 :=
  string_append_left_cancel _ _ _ h

theorem userDataKey_rev_take (email t : String) (ht : 3 ≤ t.data.reverse.length) :
    (userDataKey email t).data.reverse.take 3 = t.data.reverse.take 3 := by
  unfold userDataKey
  rw [String.data_append, List.reverse_append, List.take_append_of_le_length ht]

/-- Keys of different collection types differ, whatever the two e-mails are: the four
type names end in `hts`, `als`, `uts` and `ans`. -/
theorem userDataKey_type_ne (e e2 t t2 : String)
    (ht : t ∈ ["weights", "meals", "workouts", "wplans"])
    (ht2 : t2 ∈ ["weights", "meals", "workouts", "wplans"])
    (h : userDataKey e t = userDataKey e2 t2) : t = t2 := by
  have h3 : ∀ x ∈ ["weights", "meals", "workouts", "wplans"], 3 ≤ x.data.reverse.length := by
    decide
  have key : t.data.reverse.take 3 = t2.data.reverse.take 3 := by
    rw [← userDataKey_rev_take e t (h3 t ht), ← userDataKey_rev_take e2 t2 (h3 t2 ht2), h]
  revert key
  simp only [List.mem_cons, List.mem_singleton, List.not_mem_nil, or_false] at ht ht2
  rcases ht with rfl | rfl | rfl | rfl <;> rcases ht2 with rfl | rfl | rfl | rfl <;> decide

/-! ## Helper lemmas: JSON -/

mutual
/-- Writing a value and reading it back gives the same value exactly when every number
inside it is finite. -/
theorem jsonParse_stringify_iff : ∀ v : JsVal,
    jsonParse (jsonStringify v) = v ↔ allFinite v = true
  | JsVal.null => by simp [jsonStringify, jsonParse, allFinite]
  | JsVal.bool b => by simp [jsonStringify, jsonParse, allFinite]
  | JsVal.num (JsNum.finite q) => by simp [jsonStringify, jsonParse, allFinite]
  | JsVal.num JsNum.posInf => by simp [jsonStringify, jsonParse, allFinite]
  | JsVal.num JsNum.negInf => by simp [jsonStringify, jsonParse, allFinite]
  | JsVal.num JsNum.nan => by simp [jsonStringify, jsonParse, allFinite]
  | JsVal.str s => by simp [jsonStringify, jsonParse, allFinite]
  | JsVal.arr l => by
    simp only [jsonStringify, jsonParse, allFinite, JsVal.arr.injEq]
    exact parseItems_stringify_iff l
  | JsVal.obj fs => by
    simp only [jsonStringify, jsonParse, allFinite, JsVal.obj.injEq]
    exact parseFields_stringify_iff fs
theorem parseItems_stringify_iff : ∀ l : List JsVal,
    parseItems (stringifyItems l) = l ↔ allFiniteItems l = true
  | [] => by simp [stringifyItems, parseItems, allFiniteItems]
  | v :: vs => by
    simp only [stringifyItems, parseItems, allFiniteItems, List.cons.injEq, Bool.and_eq_true]
    rw [jsonParse_stringify_iff v, parseItems_stringify_iff vs]
theorem parseFields_stringify_iff : ∀ fs : List (String × JsVal),
    parseFields (stringifyFields fs) = fs ↔ allFiniteFields fs = true
  | [] => by simp [stringifyFields, parseFields, allFiniteFields]
  | (k, v) :: fs => by
    simp only [stringifyFields, parseFields, allFiniteFields, List.cons.injEq,
      Bool.and_eq_true, Prod.mk.injEq, true_and]
    rw [jsonParse_stringify_iff v, parseFields_stringify_iff fs]
end

theorem allFiniteItems_map {α : Type} (g : α → JsVal) (h : ∀ x, allFinite (g x) = true)
    (l : List α) : allFiniteItems (l.map g) = true := by
  induction l with
  | nil => rfl
  | cons a as ih => simp [allFiniteItems, h a, ih]

theorem allFinite_jsArray {α : Type} (g : α → JsVal) (h : ∀ x, allFinite (g x) = true)
    (l : List α) : allFinite (jsArray g l) = true := by
  unfold jsArray
  simp only [allFinite]
  exact allFiniteItems_map g h l

theorem readAll_map {α : Type} (f : JsVal → Option α) (g : α → JsVal)
    (h : ∀ x, f (g x) = some x) (l : List α) : readAll f (l.map g) = some l := by
  induction l with
  | nil => rfl
  | cons a as ih => simp [readAll, h a, ih]

theorem readArray_jsArray {α : Type} (f : JsVal → Option α) (g : α → JsVal)
    (h : ∀ x, f (g x) = some x) (l : List α) : readArray f (some (jsArray g l)) = some l := by
  simp [readArray, jsArray, readAll_map f g h]

theorem allFinite_jsNullable (x : Option ℚ) : allFinite (jsNullable x) = true := by
  cases x <;> rfl

theorem allFinite_jsNullableInt (x : Option ℤ) : allFinite (jsNullableInt x) = true := by
  cases x <;> rfl

theorem allFinite_jsReps (r : Reps) : allFinite (jsReps r) = true := by
  cases r <;> rfl

theorem allFinite_jsWeights (x : Option (List ℚ)) : allFinite (jsWeights x) = true := by
  cases x with
  | none => rfl
  | some ws => exact allFinite_jsArray jsNumber (fun _ => rfl) ws

theorem allFinite_jsWeightEntry (e : WeightEntry) : allFinite (jsWeightEntry e) = true := by
  simp [jsWeightEntry, jsNumber, allFinite, allFiniteFields]

theorem allFinite_jsFood (f : Food) : allFinite (jsFood f) = true := by
  simp [jsFood, jsNumber, allFinite, allFiniteFields]

theorem allFinite_jsMealPlan (m : MealPlan) : allFinite (jsMealPlan m) = true := by
  have h := allFiniteItems_map jsFood allFinite_jsFood m.foods
  simp [jsMealPlan, jsArray, allFinite, allFiniteFields, h]

theorem allFinite_jsDropSet (d : DropSet) : allFinite (jsDropSet d) = true := by
  simp [jsDropSet, allFinite, allFiniteFields, allFinite_jsNullable, allFinite_jsReps]

theorem allFinite_jsExercise (ex : Exercise) : allFinite (jsExercise ex) = true := by
  have h := allFiniteItems_map jsDropSet allFinite_jsDropSet ex.dropSets
  simp [jsExercise, jsArray, allFinite, allFiniteFields, allFinite_jsNullable,
    allFinite_jsNullableInt, allFinite_jsReps, allFinite_jsWeights, h]

theorem allFinite_jsWorkout (w : Workout) : allFinite (jsWorkout w) = true := by
  have h := allFiniteItems_map jsExercise allFinite_jsExercise w.exercises
  obtain ⟨id, date, name, notes, type, exercises, duration, pace, distance⟩ := w
  cases type with
  | none =>
    cases duration <;> cases pace <;> cases distance <;>
      simp [jsWorkout, jsOptional, jsNumber, jsArray, allFinite, allFiniteFields, h]
  | some t =>
    cases t <;> cases duration <;> cases pace <;> cases distance <;>
      simp [jsWorkout, jsOptional, jsSessionType, jsNumber, jsArray, allFinite,
        allFiniteFields, h]

theorem allFinite_jsWorkoutPlan (p : WorkoutPlan) : allFinite (jsWorkoutPlan p) = true := by
  have h := allFiniteItems_map jsExercise allFinite_jsExercise p.exercises
  simp [jsWorkoutPlan, jsArray, allFinite, allFiniteFields, h]

theorem readWeightEntry_js (e : WeightEntry) : readWeightEntry (jsWeightEntry e) = some e := by
  simp [readWeightEntry, jsWeightEntry, getProp, List.lookup, readString, readNumber, jsNumber]

theorem readFood_js (f : Food) : readFood (jsFood f) = some f := by
  simp [readFood, jsFood, getProp, List.lookup, readString, readNumber, jsNumber]

theorem readMealPlan_js (m : MealPlan) : readMealPlan (jsMealPlan m) = some m := by
  simp [readMealPlan, jsMealPlan, getProp, List.lookup, readString,
    readArray_jsArray readFood jsFood readFood_js]

theorem readNullable_js (x : Option ℚ) : readNullable (some (jsNullable x)) = some x := by
  cases x <;> rfl

theorem readNullableInt_js (x : Option ℤ) : readNullableInt (some (jsNullableInt x)) = some x := by
  cases x with
  | none => rfl
  | some n => simp [readNullableInt, jsNullableInt, jsNumber]

theorem readReps_js (r : Reps) : readReps (some (jsReps r)) = some r := by
  cases r with
  | failure => simp [readReps, jsReps]
  | count n => simp [readReps, jsReps, jsNumber]
  | null => rfl

theorem readWeights_js (x : Option (List ℚ)) : readWeights (some (jsWeights x)) = some x := by
  cases x with
  | none => rfl
  | some ws =>
    have h := readAll_map (fun v => readNumber (some v)) jsNumber (fun _ => rfl) ws
    simp [readWeights, jsWeights, jsArray, h]

theorem readDropSet_js (d : DropSet) : readDropSet (jsDropSet d) = some d := by
  simp [readDropSet, jsDropSet, getProp, List.lookup, readNullable_js, readReps_js]

theorem readExercise_js (ex : Exercise) : readExercise (jsExercise ex) = some ex := by
  simp [readExercise, jsExercise, getProp, List.lookup, readString, readNullable_js,
    readNullableInt_js, readReps_js, readWeights_js,
    readArray_jsArray readDropSet jsDropSet readDropSet_js]

theorem readWorkout_js (w : Workout) : readWorkout (jsWorkout w) = some w := by
  have h := readArray_jsArray readExercise jsExercise readExercise_js w.exercises
  obtain ⟨id, date, name, notes, type, exercises, duration, pace, distance⟩ := w
  cases type with
  | none =>
    cases duration <;> cases pace <;> cases distance <;>
      simp [readWorkout, jsWorkout, jsOptional, jsNumber, getProp, List.lookup, readString,
        readNullable, readSessionType, h]
  | some t =>
    cases t <;> cases duration <;> cases pace <;> cases distance <;>
      simp [readWorkout, jsWorkout, jsOptional, jsSessionType, jsNumber, getProp, List.lookup,
        readString, readNullable, readSessionType, h]

theorem readWorkoutPlan_js (p : WorkoutPlan) : readWorkoutPlan (jsWorkoutPlan p) = some p := by
  simp [readWorkoutPlan, jsWorkoutPlan, getProp, List.lookup, readString,
    readArray_jsArray readExercise jsExercise readExercise_js]

/-! ## Helper lemmas: `save` and `loadUserState` -/

theorem writeCollections_idem (st : String → Option Json) (email : String)
    (ws ms xs ps : JsVal) :
    writeCollections (writeCollections st email ws ms xs ps) email ws ms xs ps
      = writeCollections st email ws ms xs ps := by
  funext k
  simp only [writeCollections, setItem]
  split_ifs <;> rfl

/-- What `JSON.parse(localStorage.getItem(key)) || []` gives under the four keys of an
e-mail after the four writes of `save()`, for arrays: each array as `JSON.parse` reads
its own text. -/
theorem parseItemOrEmpty_writeCollections (st : String → Option Json) (email : String)
    (ws ms xs ps : List JsVal) :
    parseItemOrEmpty (writeCollections st email (JsVal.arr ws) (JsVal.arr ms) (JsVal.arr xs)
        (JsVal.arr ps)) (userDataKey email "weights")
      = JsVal.arr (parseItems (stringifyItems ws)) ∧
    parseItemOrEmpty (writeCollections st email (JsVal.arr ws) (JsVal.arr ms) (JsVal.arr xs)
        (JsVal.arr ps)) (userDataKey email "meals")
      = JsVal.arr (parseItems (stringifyItems ms)) ∧
    parseItemOrEmpty (writeCollections st email (JsVal.arr ws) (JsVal.arr ms) (JsVal.arr xs)
        (JsVal.arr ps)) (userDataKey email "workouts")
      = JsVal.arr (parseItems (stringifyItems xs)) ∧
    parseItemOrEmpty (writeCollections st email (JsVal.arr ws) (JsVal.arr ms) (JsVal.arr xs)
        (JsVal.arr ps)) (userDataKey email "wplans")
      = JsVal.arr (parseItems (stringifyItems ps)) := by
  have n1 : userDataKey email "weights" ≠ userDataKey email "meals" :=
    fun h => absurd (userDataKey_type_inj _ _ _ h) (by decide)
  have n2 : userDataKey email "weights" ≠ userDataKey email "workouts" :=
    fun h => absurd (userDataKey_type_inj _ _ _ h) (by decide)
  have n3 : userDataKey email "weights" ≠ userDataKey email "wplans" :=
    fun h => absurd (userDataKey_type_inj _ _ _ h) (by decide)
  have n4 : userDataKey email "meals" ≠ userDataKey email "workouts" :=
    fun h => absurd (userDataKey_type_inj _ _ _ h) (by decide)
  have n5 : userDataKey email "meals" ≠ userDataKey email "wplans" :=
    fun h => absurd (userDataKey_type_inj _ _ _ h) (by decide)
  have n6 : userDataKey email "workouts" ≠ userDataKey email "wplans" :=
    fun h => absurd (userDataKey_type_inj _ _ _ h) (by decide)
  simp [parseItemOrEmpty, writeCollections, setItem, jsonStringify, jsonParse,
    n1, n2, n3, n4, n5, n6]

theorem typedCollection_roundtrip {α : Type} (f : JsVal → Option α) (g : α → JsVal)
    (hf : ∀ x, f (g x) = some x) (hg : ∀ x, allFinite (g x) = true) (l : List α) :
    typedCollection f (JsVal.arr (parseItems (stringifyItems (l.map g)))) = l := by
  rw [(parseItems_stringify_iff (l.map g)).mpr (allFiniteItems_map g hg l)]
  simp [typedCollection, readAll_map f g hf]

/-- The typed collections that `loadUserState` reads after the writes of `save()`. -/
theorem load_writeCollections (st : String → Option Json) (email : String) (s : State) :
    loadWeights (writeCollections st email (jsArray jsWeightEntry s.weights)
      (jsArray jsMealPlan s.mealPlans) (jsArray jsWorkout s.workouts)
      (jsArray jsWorkoutPlan s.wplans)) email = s.weights ∧
    loadMeals (writeCollections st email (jsArray jsWeightEntry s.weights)
      (jsArray jsMealPlan s.mealPlans) (jsArray jsWorkout s.workouts)
      (jsArray jsWorkoutPlan s.wplans)) email = s.mealPlans ∧
    loadWorkouts (writeCollections st email (jsArray jsWeightEntry s.weights)
      (jsArray jsMealPlan s.mealPlans) (jsArray jsWorkout s.workouts)
      (jsArray jsWorkoutPlan s.wplans)) email = s.workouts ∧
    loadWplans (writeCollections st email (jsArray jsWeightEntry s.weights)
      (jsArray jsMealPlan s.mealPlans) (jsArray jsWorkout s.workouts)
      (jsArray jsWorkoutPlan s.wplans)) email = s.wplans := by
  obtain ⟨h1, h2, h3, h4⟩ := parseItemOrEmpty_writeCollections st email
    (s.weights.map jsWeightEntry) (s.mealPlans.map jsMealPlan) (s.workouts.map jsWorkout)
    (s.wplans.map jsWorkoutPlan)
  unfold loadWeights loadMeals loadWorkouts loadWplans jsArray
  rw [h1, h2, h3, h4]
  exact ⟨typedCollection_roundtrip _ _ readWeightEntry_js allFinite_jsWeightEntry _,
    typedCollection_roundtrip _ _ readMealPlan_js allFinite_jsMealPlan _,
    typedCollection_roundtrip _ _ readWorkout_js allFinite_jsWorkout _,
    typedCollection_roundtrip _ _ readWorkoutPlan_js allFinite_jsWorkoutPlan _⟩

theorem save_save (w : World) : save (save w) = save w := by
  cases h : saveEmail w with
  | none => simp [save, h]
  | some email =>
    by_cases hne : email = ""
    · simp [save, h, hne]
    · have h2 : saveEmail (save w) = some email := by
        rw [save_eq w email h hne]; exact h
      rw [save_eq (save w) email h2 hne, save_eq w email h hne]
      simp only [writeCollections_idem]

theorem updateFirst_map_of_preserved {α β : Type} (p : α → Bool) (f : α → α) (g : α → β)
    (hg : ∀ a, g (f a) = g a) (l : List α) : (updateFirst p f l).map g = l.map g := by
  induction l with
  | nil => rfl
  | cons a as ih =>
    simp only [updateFirst]
    split
    · simp [hg]
    · simp [ih]

theorem updateFirst_split {α : Type} (p : α → Bool) (f : α → α) (l : List α) (x : α)
    (h : l.find? p = some x) :
    ∃ pre post, l = pre ++ x :: post ∧ (∀ e ∈ pre, p e = false) ∧ p x = true ∧
      updateFirst p f l = pre ++ f x :: post := by
  induction l with
  | nil => simp at h
  | cons a as ih =>
    by_cases hpa : p a = true
    · rw [List.find?_cons_of_pos _ hpa] at h
      cases h
      exact ⟨[], as, rfl, by simp, hpa, by simp [updateFirst, hpa]⟩
    · rw [List.find?_cons_of_neg _ hpa] at h
      obtain ⟨pre, post, h1, h2, h3, h4⟩ := ih h
      refine ⟨a :: pre, post, by simp [h1], ?_, h3, by simp [updateFirst, hpa, h4]⟩
      intro e he
      rcases List.mem_cons.mp he with rfl | he
      · simpa using hpa
      · exact h2 e he

theorem find?_none_of_forall_ne (ws : List WeightEntry) (d : String)
    (h : ∀ e ∈ ws, e.date ≠ d) : ws.find? (fun e => e.date == d) = none := by
  rw [List.find?_eq_none]
  intro e he
  simpa using h e he

theorem filter_date_eq_nil (ws : List WeightEntry) (d : String)
    (h : ∀ e ∈ ws, e.date ≠ d) : ws.filter (fun e => e.date == d) = [] := by
  rw [List.filter_eq_nil_iff]
  intro e he
  simpa using h e he

theorem weightUpsert_dates_nodup (ws : List WeightEntry) (newId d : String) (v : ℚ)
    (n : String) (hnd : (ws.map WeightEntry.date).Nodup) :
    ((weightUpsert ws newId d v n).map WeightEntry.date).Nodup := by
  unfold weightUpsert
  cases hf : ws.find? (fun e => e.date == d) with
  | some x =>
    simp only
    rw [updateFirst_map_of_preserved (fun e => e.date == d)
      (fun dup => { dup with value := v, notes := n }) WeightEntry.date (fun _ => rfl)]
    exact hnd
  | none =>
    simp only [List.map_append, List.map_cons, List.map_nil]
    rw [List.find?_eq_none] at hf
    refine List.Nodup.append hnd (List.nodup_singleton d) ?_
    intro x hx hx2
    rw [List.mem_singleton] at hx2
    subst hx2
    obtain ⟨e, he, hed⟩ := List.mem_map.mp hx
    have := hf e he
    simp [hed] at this

theorem weightUpsert_filter (ws : List WeightEntry) (newId d : String) (v : ℚ)
    (n : String) (hnd : (ws.map WeightEntry.date).Nodup) :
    ∃ e, (weightUpsert ws newId d v n).filter (fun e => e.date == d) = [e] ∧
      e.date = d ∧ e.value = v ∧ e.notes = n := by
  unfold weightUpsert
  cases hf : ws.find? (fun e => e.date == d) with
  | some x =>
    simp only
    obtain ⟨pre, post, h1, h2, h3, h4⟩ :=
      updateFirst_split (fun e => e.date == d)
        (fun dup => { dup with value := v, notes := n }) ws x hf
    have hxd : x.date = d := by simpa using h3
    rw [h4]
    subst h1
    rw [List.map_append, List.map_cons] at hnd
    have hpost : ∀ e ∈ post, e.date ≠ d := by
      intro e he hed
      have h5 := (List.nodup_append.mp hnd).2.1
      rw [List.nodup_cons] at h5
      exact h5.1 (by rw [hxd, ← hed]; exact List.mem_map_of_mem _ he)
    have hpre : ∀ e ∈ pre, e.date ≠ d := by
      intro e he hed
      have := h2 e he
      simp [hed] at this
    refine ⟨{ x with value := v, notes := n }, ?_, hxd, rfl, rfl⟩
    rw [List.filter_append, List.filter_cons, filter_date_eq_nil pre d hpre,
      filter_date_eq_nil post d hpost]
    simp [hxd]
  | none =>
    simp only
    rw [List.find?_eq_none] at hf
    refine ⟨{ id := newId, date := d, value := v, notes := n }, ?_, rfl, rfl, rfl⟩
    rw [List.filter_append, filter_date_eq_nil ws d (fun e he => by simpa using hf e he)]
    simp

theorem weightFormSubmit_weights (w : World) (newId d : String) (v : ℚ) (n : String)
    (hd : d ≠ "") :
    (weightFormSubmit w newId d (some v) n).state.weights
      = weightUpsert w.state.weights newId d v n := by
  simp [weightFormSubmit, hd, save_state]

theorem weightFormSubmit_others (w : World) (newId d : String) (v : Option ℚ) (n : String) :
    (weightFormSubmit w newId d v n).state.mealPlans = w.state.mealPlans ∧
    (weightFormSubmit w newId d v n).state.workouts = w.state.workouts ∧
    (weightFormSubmit w newId d v n).state.wplans = w.state.wplans := by
  unfold weightFormSubmit
  split
  · exact ⟨rfl, rfl, rfl⟩
  · split
    · exact ⟨rfl, rfl, rfl⟩
    · simp [save_state]

/-! ## Helper lemmas: the personal-record table -/

theorem prsGym_eq_gymCard (w : Workout) : prsGym w = gymCard w := by
  unfold prsGym gymCard
  rcases w.type with _ | t
  · rfl
  · cases t <;> rfl

theorem prsGym_eq_specGymSession (w : Workout) : prsGym w = specGymSession w := by
  unfold prsGym specGymSession
  rcases w.type with _ | t
  · rfl
  · cases t <;> rfl

theorem prsTable_foldl (ws : List Workout) (init : PrTable) :
    ws.foldl (fun prs w => if prsGym w then w.exercises.foldl prsStep prs else prs) init
      = ((ws.filter prsGym).flatMap Workout.exercises).foldl prsStep init := by
  induction ws generalizing init with
  | nil => rfl
  | cons w ws ih =>
    rw [List.foldl_cons, ih]
    by_cases h : prsGym w = true
    · simp [h, List.filter_cons, List.foldl_append]
    · simp [h, List.filter_cons]

/-- The value of `Math.max(...xs)` on a non-empty list is its greatest element. -/
theorem mathMax_foldl (xs : List ℚ) (init : WithBot ℚ) :
    init ≤ List.foldl (fun (m : WithBot ℚ) (x : ℚ) => max m (x : WithBot ℚ)) init xs ∧
    (∀ x ∈ xs, (x : WithBot ℚ) ≤ List.foldl (fun (m : WithBot ℚ) (x : ℚ) => max m (x : WithBot ℚ)) init xs) ∧
    (List.foldl (fun (m : WithBot ℚ) (x : ℚ) => max m (x : WithBot ℚ)) init xs = init ∨
      ∃ q ∈ xs, List.foldl (fun (m : WithBot ℚ) (x : ℚ) => max m (x : WithBot ℚ)) init xs = (q : WithBot ℚ)) := by
  induction xs generalizing init with
  | nil => simp
  | cons a as ih =>
    obtain ⟨h1, h2, h3⟩ := ih (max init (a : WithBot ℚ))
    simp only [List.foldl_cons]
    refine ⟨le_trans (le_max_left _ _) h1, ?_, ?_⟩
    · intro x hx
      rcases List.mem_cons.mp hx with rfl | hx
      · exact le_trans (le_max_right _ _) h1
      · exact h2 x hx
    · rcases h3 with h3 | ⟨q, hq, h3⟩
      · rcases max_choice init (a : WithBot ℚ) with hm | hm
        · left; rw [h3, hm]
        · right; exact ⟨a, by simp, by rw [h3, hm]⟩
      · right; exact ⟨q, List.mem_cons_of_mem _ hq, h3⟩

theorem mathMax_spec (xs : List ℚ) (h : xs ≠ []) :
    ∃ q ∈ xs, mathMax xs = (q : WithBot ℚ) ∧ ∀ x ∈ xs, x ≤ q := by
  obtain ⟨_, h2, h3⟩ := mathMax_foldl xs ⊥
  rcases h3 with h3 | ⟨q, hq, h3⟩
  · obtain ⟨a, as, rfl⟩ := List.exists_cons_of_ne_nil h
    have := h2 a (by simp)
    rw [h3] at this
    exact absurd this (WithBot.bot_lt_coe a).not_le
  · refine ⟨q, hq, h3, ?_⟩
    intro x hx
    have := h2 x hx
    rw [h3] at this
    exact WithBot.coe_le_coe.mp this

/-- The greatest element of a list of rationals. -/
theorem max?_eq_some_iff_rat (xs : List ℚ) (m : ℚ) :
    xs.max? = some m ↔ m ∈ xs ∧ ∀ x ∈ xs, x ≤ m :=
  @List.max?_eq_some_iff ℚ m _ _ ⟨fun h1 h2 => le_antisymm h1 h2⟩ (fun a => le_refl a)
    (fun a b => max_choice a b) (fun _ _ _ => max_le_iff) xs

/-- On an exercise whose per-set list is not the empty array, the `maxW` of the code is
the load of the specification. -/
theorem maxW_eq_specLoad (ex : Exercise) (h : ex.weights ≠ some []) :
    maxW ex = Option.map (fun (q : ℚ) => (q : WithBot ℚ)) (specLoad ex) := by
  unfold maxW specLoad
  cases hw : ex.weights with
  | none => rfl
  | some ws =>
    have hne : ws ≠ [] := fun e => h (by rw [hw, e])
    obtain ⟨q, hq, hm, hub⟩ := mathMax_spec ws hne
    have : ws.max? = some q := (max?_eq_some_iff_rat ws q).mpr ⟨hq, hub⟩
    simp only [this, hm, Option.map_some']

theorem truthyMaxW_eq_dataPoint (ex : Exercise) (h : ex.weights ≠ some []) :
    truthyMaxW ex = Option.map (fun (q : ℚ) => (q : WithBot ℚ)) (dataPoint ex) := by
  unfold truthyMaxW dataPoint
  rw [maxW_eq_specLoad ex h]
  cases specLoad ex with
  | none => rfl
  | some q =>
    by_cases h0 : q = 0
    · simp [h0, Option.filter]
    · have : (q : WithBot ℚ) ≠ 0 := by exact_mod_cast h0
      simp [h0, this, Option.filter]

theorem truthyMaxW_ne_zero (ex : Exercise) (m : WithBot ℚ) (h : truthyMaxW ex = some m) :
    m ≠ 0 := by
  unfold truthyMaxW at h
  cases hm : maxW ex with
  | none => simp [hm] at h
  | some x =>
    simp only [hm] at h
    split_ifs at h with h0
    cases h
    exact h0

theorem truthyMaxW_eq_some_iff (ex : Exercise) (m : WithBot ℚ) :
    truthyMaxW ex = some m ↔ maxW ex = some m ∧ m ≠ 0 := by
  unfold truthyMaxW
  cases hm : maxW ex with
  | none => simp
  | some x =>
    by_cases h0 : x = 0
    · simp only [h0, if_true, Option.some.injEq]
      constructor
      · intro h; cases h
      · rintro ⟨rfl, h⟩; exact absurd rfl h
    · simp only [h0, if_false, Option.some.injEq]
      constructor
      · rintro rfl; exact ⟨rfl, h0⟩
      · rintro ⟨rfl, _⟩; rfl

theorem prsStep_other (prs : PrTable) (ex : Exercise) (name : String) (h : ex.name ≠ name) :
    prsStep prs ex name = prs name := by
  have h2 : ¬ name = ex.name := fun e => h e.symm
  unfold prsStep
  cases maxW ex with
  | none => rfl
  | some m =>
    simp only
    by_cases h0 : m = 0
    · simp [h0]
    · simp only [h0, if_false]
      cases prs ex.name with
      | none => simp [h2]
      | some v =>
        cases v with
        | inherited => rfl
        | num cur =>
          simp only
          split_ifs
          · simp [h2]
          · rfl

theorem prsStep_no_point (prs : PrTable) (ex : Exercise) (h : truthyMaxW ex = none) :
    prsStep prs ex = prs := by
  unfold truthyMaxW at h
  unfold prsStep
  cases hm : maxW ex with
  | none => rfl
  | some m =>
    simp only [hm] at h ⊢
    split_ifs at h with h0
    simp [h0]

theorem prsStep_point (prs : PrTable) (ex : Exercise) (m : WithBot ℚ)
    (h : truthyMaxW ex = some m) :
    prsStep prs ex ex.name =
      match prs ex.name with
      | none => some (PrValue.num m)
      | some (PrValue.num cur) =>
        if cur = 0 ∨ cur < m then some (PrValue.num m) else some (PrValue.num cur)
      | some PrValue.inherited => some PrValue.inherited := by
  obtain ⟨hm, h0⟩ := (truthyMaxW_eq_some_iff ex m).mp h
  unfold prsStep
  simp only [hm, h0, if_false]
  cases hp : prs ex.name with
  | none => simp
  | some v =>
    cases v with
    | inherited => exact hp
    | num cur =>
      simp only
      split_ifs with hc
      · simp
      · exact hp

/-- A name that the table inherits keeps the inherited member through the loop. -/
theorem prs_fold_inherited (name : String) (exs : List Exercise) (init : PrTable)
    (h : init name = some PrValue.inherited) :
    exs.foldl prsStep init name = some PrValue.inherited := by
  induction exs generalizing init with
  | nil => exact h
  | cons a as ih =>
    rw [List.foldl_cons]
    apply ih
    by_cases hn : a.name = name
    · cases hd : truthyMaxW a with
      | none => rw [prsStep_no_point _ _ hd]; exact h
      | some m =>
        have hstep := prsStep_point init a m hd
        rw [hn] at hstep
        rw [hstep, h]
    · rw [prsStep_other _ _ _ hn]; exact h

/-- For a name that the table does not inherit, the fold holds the greatest of the
values let through for that name, and nothing when there is none. -/
theorem prs_fold_spec (name : String) (init : PrTable) (hinit : init name = none)
    (exs : List Exercise) :
    ((exs.filterMap (fun ex => if ex.name = name then truthyMaxW ex else none) = [] ∧
        exs.foldl prsStep init name = none) ∨
      ∃ m, exs.foldl prsStep init name = some (PrValue.num m) ∧
        m ∈ exs.filterMap (fun ex => if ex.name = name then truthyMaxW ex else none) ∧
        ∀ x ∈ exs.filterMap (fun ex => if ex.name = name then truthyMaxW ex else none), x ≤ m) ∧
    ∀ x ∈ exs.filterMap (fun ex => if ex.name = name then truthyMaxW ex else none), x ≠ 0 := by
  induction exs using List.reverseRecOn with
  | nil => simp [hinit]
  | append_singleton l a ih =>
    obtain ⟨ih1, ih0⟩ := ih
    rw [List.foldl_append, List.filterMap_append]
    simp only [List.foldl_cons, List.foldl_nil]
    by_cases hn : a.name = name
    · cases hd : truthyMaxW a with
      | none =>
        rw [prsStep_no_point _ _ hd]
        have hpt : List.filterMap (fun ex => if ex.name = name then truthyMaxW ex else none) [a]
            = [] := by simp [hn, hd]
        rw [hpt, List.append_nil]
        exact ⟨ih1, ih0⟩
      | some m =>
        have hm0 : m ≠ 0 := truthyMaxW_ne_zero a m hd
        have hstep := prsStep_point (l.foldl prsStep init) a m hd
        rw [hn] at hstep
        have hpt : List.filterMap (fun ex => if ex.name = name then truthyMaxW ex else none) [a]
            = [m] := by simp [hn, hd]
        rw [hpt]
        refine ⟨Or.inr ?_, ?_⟩
        · rcases ih1 with ⟨hnil, hnone⟩ | ⟨cur, hcur, hmem, hub⟩
          · rw [hnone] at hstep
            exact ⟨m, hstep, by simp, by simp [hnil]⟩
          · rw [hcur] at hstep
            have hc0 : cur ≠ 0 := ih0 cur hmem
            by_cases hlt : cur < m
            · refine ⟨m, by simpa [hlt] using hstep, by simp, ?_⟩
              intro x hx
              rcases List.mem_append.mp hx with hx | hx
              · exact le_trans (hub x hx) (le_of_lt hlt)
              · simp at hx; exact le_of_eq hx
            · refine ⟨cur, by simpa [hlt, hc0] using hstep, by simp [hmem], ?_⟩
              intro x hx
              rcases List.mem_append.mp hx with hx | hx
              · exact hub x hx
              · simp at hx; rw [hx]; exact le_of_not_lt hlt
        · intro x hx
          rcases List.mem_append.mp hx with hx | hx
          · exact ih0 x hx
          · simp at hx; rw [hx]; exact hm0
    · rw [prsStep_other _ _ _ hn]
      have hpt : List.filterMap (fun ex => if ex.name = name then truthyMaxW ex else none) [a]
          = [] := by simp [hn]
      rw [hpt, List.append_nil]
      exact ⟨ih1, ih0⟩

/-- The values let through for a name are the data points of the specification, when no
per-set list is the empty array. -/
theorem truthy_points_eq (name : String) (exs : List Exercise)
    (h : ∀ ex ∈ exs, ex.weights ≠ some []) :
    exs.filterMap (fun ex => if ex.name = name then truthyMaxW ex else none)
      = List.map (fun (q : ℚ) => (q : WithBot ℚ))
          (exs.filterMap (fun ex => if ex.name = name then dataPoint ex else none)) := by
  induction exs with
  | nil => rfl
  | cons a as ih =>
    have ha := truthyMaxW_eq_dataPoint a (h a (by simp))
    have ih2 := ih (fun ex hex => h ex (List.mem_cons_of_mem _ hex))
    by_cases hn : a.name = name
    · cases hd : dataPoint a with
      | none =>
        rw [hd] at ha
        simp only [List.filterMap_cons, hn, if_true, ha, hd, Option.map_none']
        exact ih2
      | some q =>
        rw [hd] at ha
        simp only [List.filterMap_cons, hn, if_true, ha, hd, Option.map_some', List.map_cons]
        rw [ih2]
    · simp only [List.filterMap_cons, hn, if_false]
      exact ih2

/-- The table of the code against the specification: for a name that is not an
inherited member, in sessions without an empty per-set array, the entry is the greatest
data point of that name, and there is no entry when the name has no data point. -/
theorem prsTable_own_name (ws : List Workout) (name : String)
    (hname : name ∉ objectPrototypeKeys)
    (hws : ∀ w ∈ ws, ∀ ex ∈ w.exercises, ex.weights ≠ some []) :
    prsTable ws name
      = Option.map (fun (m : ℚ) => PrValue.num (m : WithBot ℚ)) (dataPoints ws name).max? := by
  have hinit : emptyObject name = none := by simp [emptyObject, hname]
  have hex : ∀ ex ∈ (ws.filter prsGym).flatMap Workout.exercises, ex.weights ≠ some [] := by
    intro ex hex
    rw [List.mem_flatMap] at hex
    obtain ⟨w, hw, hexw⟩ := hex
    exact hws w (List.mem_filter.mp hw).1 ex hexw
  have hfilter : ws.filter specGymSession = ws.filter prsGym := by
    apply List.filter_congr
    intro w _
    exact (prsGym_eq_specGymSession w).symm
  unfold prsTable dataPoints
  rw [prsTable_foldl, hfilter]
  have hpts := truthy_points_eq name _ hex
  obtain ⟨h1, _⟩ := prs_fold_spec name emptyObject hinit
    ((ws.filter prsGym).flatMap Workout.exercises)
  rw [hpts] at h1
  rcases h1 with ⟨hnil, hnone⟩ | ⟨m, hm, hmem, hub⟩
  · rw [hnone]
    have : List.filterMap (fun ex => if ex.name = name then dataPoint ex else none)
        ((ws.filter prsGym).flatMap Workout.exercises) = [] := by
      simpa using hnil
    rw [this]
    rfl
  · rw [hm]
    rw [List.mem_map] at hmem
    obtain ⟨q, hq, rfl⟩ := hmem
    have hmax : (List.filterMap (fun ex => if ex.name = name then dataPoint ex else none)
        ((ws.filter prsGym).flatMap Workout.exercises)).max? = some q := by
      rw [max?_eq_some_iff_rat]
      refine ⟨hq, ?_⟩
      intro x hx
      exact WithBot.coe_le_coe.mp (hub _ (List.mem_map.mpr ⟨x, hx, rfl⟩))
    rw [hmax]
    rfl

/-- For an inherited name the loop stores nothing: the lookup keeps giving the
inherited member, whatever the sessions are. -/
theorem prsTable_inherited_name (ws : List Workout) (name : String)
    (hname : name ∈ objectPrototypeKeys) :
    prsTable ws name = some PrValue.inherited := by
  unfold prsTable
  rw [prsTable_foldl]
  apply prs_fold_inherited
  simp [emptyObject, hname]

/-- Run and rest sessions contribute nothing to the table. -/
theorem prsTable_gym_only (ws : List Workout) :
    prsTable ws = prsTable (ws.filter specGymSession) := by
  unfold prsTable
  rw [prsTable_foldl, prsTable_foldl, List.filter_filter]
  congr 2
  apply List.filter_congr
  intro w _
  rw [← prsGym_eq_specGymSession]
  simp

/-- The flag of the code against the specification: for an exercise whose name is not
an inherited member, in sessions without an empty per-set array, the instance is
flagged exactly when it has a data point and that data point is the greatest one of
its name. -/
theorem isPR_own_name (ws : List Workout) (ex : Exercise)
    (hname : ex.name ∉ objectPrototypeKeys)
    (hws : ∀ w ∈ ws, ∀ e ∈ w.exercises, e.weights ≠ some [])
    (hex : ex.weights ≠ some []) :
    isPR (prsTable ws) ex = true ↔
      ∃ m, dataPoint ex = some m ∧ (dataPoints ws ex.name).max? = some m := by
  have ht := truthyMaxW_eq_dataPoint ex hex
  unfold isPR
  rw [prsTable_own_name ws ex.name hname hws]
  cases hd : dataPoint ex with
  | none =>
    rw [hd] at ht
    have hno : ¬ ∃ m, (none : Option ℚ) = some m ∧ (dataPoints ws ex.name).max? = some m := by
      rintro ⟨m, hm, _⟩; cases hm
    simp only [hno, iff_false]
    unfold truthyMaxW at ht
    cases hm : maxW ex with
    | none => simp
    | some x =>
      simp only [hm] at ht
      split_ifs at ht with h0
      · simp [h0]
      · cases ht
  | some q =>
    rw [hd] at ht
    obtain ⟨hm, h0⟩ := (truthyMaxW_eq_some_iff ex _).mp ht
    simp only [hm]
    cases hmax : (dataPoints ws ex.name).max? with
    | none => simp
    | some M =>
      simp only [Option.map_some', Option.some.injEq, exists_eq_left']
      constructor
      · intro h
        simp only [Bool.and_eq_true, bne_iff_ne, ne_eq, beq_iff_eq, Option.some.injEq,
          PrValue.num.injEq] at h
        exact (WithBot.coe_injective h.2).symm ▸ rfl
      · intro h
        cases h
        simp [h0]

/-- An exercise whose name is an inherited member is never flagged. -/
theorem isPR_inherited_name (ws : List Workout) (ex : Exercise)
    (hname : ex.name ∈ objectPrototypeKeys) : isPR (prsTable ws) ex = false := by
  unfold isPR
  rw [prsTable_inherited_name ws ex.name hname]
  cases maxW ex with
  | none => rfl
  | some m => simp

/-! ## Weight form: upsert by date -/

/-- C2. On a weight collection whose dates are pairwise distinct, a weight-form
submission with a non-empty date `d`, a numeric value `v` and notes `n` leaves exactly
one entry dated `d`, carrying `v` and `n`, and the dates stay pairwise distinct; a
second submission `(d, v2, n2)` again leaves exactly one entry for `d`, now carrying
`v2` and `n2`. -/
theorem weight_upsert_by_date (w : World) (id1 id2 d : String) (v v2 : ℚ) (n n2 : String)
    (hnd : (w.state.weights.map WeightEntry.date).Nodup) (hd : d ≠ "") :
    (∃ e, (weightFormSubmit w id1 d (some v) n).state.weights.filter (fun x => x.date == d) = [e]
        ∧ e.date = d ∧ e.value = v ∧ e.notes = n) ∧
    ((weightFormSubmit w id1 d (some v) n).state.weights.map WeightEntry.date).Nodup ∧
    (∃ e, (weightFormSubmit (weightFormSubmit w id1 d (some v) n) id2 d (some v2) n2).state.weights.filter
          (fun x => x.date == d) = [e]
        ∧ e.date = d ∧ e.value = v2 ∧ e.notes = n2) ∧
    ((weightFormSubmit (weightFormSubmit w id1 d (some v) n) id2 d (some v2) n2).state.weights.map
        WeightEntry.date).Nodup := by
  have h1 := weightUpsert_dates_nodup w.state.weights id1 d v n hnd
  simp only [weightFormSubmit_weights _ _ _ _ _ hd]
  exact ⟨weightUpsert_filter _ id1 d v n hnd, h1, weightUpsert_filter _ id2 d v2 n2 h1,
    weightUpsert_dates_nodup _ id2 d v2 n2 h1⟩

/-- Witness for C2: two entries dated 2024-01-01 and 2024-01-02, then two submissions
for 2024-01-02. -/
theorem weight_upsert_by_date_witness :
    ∃ e, (weightFormSubmit (weightFormSubmit
            { state := { weights := [⟨"a", "2024-01-01", 80, ""⟩, ⟨"b", "2024-01-02", 81, "x"⟩],
                         mealPlans := [], workouts := [], wplans := [] },
              storage := fun _ => none, session := none, sessionTemp := some "u@x.it" }
            "c" "2024-01-02" (some 79) "y") "d" "2024-01-02" (some 78) "z").state.weights.filter
          (fun x => x.date == "2024-01-02") = [e]
        ∧ e.date = "2024-01-02" ∧ e.value = 78 ∧ e.notes = "z" :=
  (weight_upsert_by_date
    { state := { weights := [⟨"a", "2024-01-01", 80, ""⟩, ⟨"b", "2024-01-02", 81, "x"⟩],
                 mealPlans := [], workouts := [], wplans := [] },
      storage := fun _ => none, session := none, sessionTemp := some "u@x.it" }
    "c" "d" "2024-01-02" 79 78 "y" "z" (by decide) (by decide)).2.2.1

/-- C3. The weight-form submission for a date `d` that already has an entry rewrites
only `value` and `notes` of the first entry dated `d`: that entry keeps its `id` and
`date`, the collection keeps its length and order and every other entry is unchanged.
When no entry is dated `d`, exactly one new entry is appended at the end and the
existing entries are unchanged. The other three collections are not touched. -/
theorem weight_upsert_frame (w : World) (newId d : String) (v : ℚ) (n : String)
    (hd : d ≠ "") :
    ((∃ e ∈ w.state.weights, e.date = d) →
      ∃ pre dup post, w.state.weights = pre ++ dup :: post ∧ (∀ e ∈ pre, e.date ≠ d) ∧
        dup.date = d ∧
        (weightFormSubmit w newId d (some v) n).state.weights
          = pre ++ { id := dup.id, date := dup.date, value := v, notes := n } :: post) ∧
    ((∀ e ∈ w.state.weights, e.date ≠ d) →
      (weightFormSubmit w newId d (some v) n).state.weights
        = w.state.weights ++ [{ id := newId, date := d, value := v, notes := n }]) ∧
    (weightFormSubmit w newId d (some v) n).state.mealPlans = w.state.mealPlans ∧
    (weightFormSubmit w newId d (some v) n).state.workouts = w.state.workouts ∧
    (weightFormSubmit w newId d (some v) n).state.wplans = w.state.wplans := by
  refine ⟨?_, ?_, weightFormSubmit_others w newId d (some v) n⟩
  · rintro ⟨e, he, hed⟩
    rw [weightFormSubmit_weights _ _ _ _ _ hd]
    cases hf : w.state.weights.find? (fun e => e.date == d) with
    | none =>
      rw [List.find?_eq_none] at hf
      have := hf e he
      simp [hed] at this
    | some x =>
      obtain ⟨pre, post, h1, h2, h3, h4⟩ :=
        updateFirst_split (fun e => e.date == d)
          (fun dup => { dup with value := v, notes := n }) w.state.weights x hf
      refine ⟨pre, x, post, h1, ?_, by simpa using h3, ?_⟩
      · intro e he hed
        have := h2 e he
        simp [hed] at this
      · simp only [weightUpsert, hf]
        exact h4
  · intro h
    rw [weightFormSubmit_weights _ _ _ _ _ hd]
    simp only [weightUpsert, find?_none_of_forall_ne _ _ h]

/-- Witness for C3: the submission for 2024-01-02 on a collection that holds an entry
for that date; the entry keeps its id `b`. -/
theorem weight_upsert_frame_witness :
    ∃ pre dup post,
      [(⟨"a", "2024-01-01", 80, ""⟩ : WeightEntry), ⟨"b", "2024-01-02", 81, "x"⟩]
        = pre ++ dup :: post ∧ (∀ e ∈ pre, e.date ≠ "2024-01-02") ∧ dup.date = "2024-01-02" ∧
      (weightFormSubmit
          { state := { weights := [⟨"a", "2024-01-01", 80, ""⟩, ⟨"b", "2024-01-02", 81, "x"⟩],
                       mealPlans := [], workouts := [], wplans := [] },
            storage := fun _ => none, session := none, sessionTemp := some "u@x.it" }
          "c" "2024-01-02" (some 79) "y").state.weights
        = pre ++ { id := dup.id, date := dup.date, value := 79, notes := "y" } :: post :=
  (weight_upsert_frame
    { state := { weights := [⟨"a", "2024-01-01", 80, ""⟩, ⟨"b", "2024-01-02", 81, "x"⟩],
                 mealPlans := [], workouts := [], wplans := [] },
      storage := fun _ => none, session := none, sessionTemp := some "u@x.it" }
    "c" "2024-01-02" 79 "y" (by decide)).1 ⟨⟨"b", "2024-01-02", 81, "x"⟩, by simp, rfl⟩

/-! ## Delete operations -/

theorem filter_id_ne_self {α : Type} (ident : α → String) (l : List α) (id : String)
    (h : ∀ e ∈ l, ident e ≠ id) : l.filter (fun e => ident e != id) = l := by
  rw [List.filter_eq_self]
  intro e he
  simpa using h e he

theorem save_with_same_state (w : World) (s : State) (h : s = (save w).state) :
    save { save w with state := s } = save w := by
  subst h
  exact save_save w

/-- C4. Each of `deleteWeight`, `deleteMeal`, `deleteWorkout` and `deleteWplan`, called
with an id that no entry of its collection carries, leaves all four in-memory
collections as they were (same entries, same order); the operations are total
functions, so nothing is raised; and calling a delete a second time with the same id
gives the same state, storage included, as calling it once. -/
theorem delete_missing_id_noop (w : World) (id : String) :
    ((∀ e ∈ w.state.weights, e.id ≠ id) → (deleteWeight w id).state = w.state) ∧
    ((∀ m ∈ w.state.mealPlans, m.id ≠ id) → (deleteMeal w id).state = w.state) ∧
    ((∀ x ∈ w.state.workouts, x.id ≠ id) → (deleteWorkout w id).state = w.state) ∧
    ((∀ p ∈ w.state.wplans, p.id ≠ id) → (deleteWplan w id).state = w.state) ∧
    deleteWeight (deleteWeight w id) id = deleteWeight w id ∧
    deleteMeal (deleteMeal w id) id = deleteMeal w id ∧
    deleteWorkout (deleteWorkout w id) id = deleteWorkout w id ∧
    deleteWplan (deleteWplan w id) id = deleteWplan w id := by
  refine ⟨?_, ?_, ?_, ?_, ?_, ?_, ?_, ?_⟩
  · intro h
    simp only [deleteWeight, save_state, filter_id_ne_self WeightEntry.id _ id h]
  · intro h
    simp only [deleteMeal, save_state, filter_id_ne_self MealPlan.id _ id h]
  · intro h
    simp only [deleteWorkout, save_state, filter_id_ne_self Workout.id _ id h]
  · intro h
    simp only [deleteWplan, save_state, filter_id_ne_self WorkoutPlan.id _ id h]
  · unfold deleteWeight
    apply save_with_same_state
    simp [save_state]
  · unfold deleteMeal
    apply save_with_same_state
    simp [save_state]
  · unfold deleteWorkout
    apply save_with_same_state
    simp [save_state]
  · unfold deleteWplan
    apply save_with_same_state
    simp [save_state]

/-- Witness for C4: deleting the id `zz`, which the only weight entry does not carry. -/
theorem delete_missing_id_noop_witness :
    (deleteWeight
      { state := { weights := [⟨"a", "2024-01-01", 80, ""⟩], mealPlans := [], workouts := [],
                   wplans := [] },
        storage := fun _ => none, session := none, sessionTemp := some "u@x.it" } "zz").state
      = { weights := [⟨"a", "2024-01-01", 80, ""⟩], mealPlans := [], workouts := [],
          wplans := [] } :=
  (delete_missing_id_noop
    { state := { weights := [⟨"a", "2024-01-01", 80, ""⟩], mealPlans := [], workouts := [],
                 wplans := [] },
      storage := fun _ => none, session := none, sessionTemp := some "u@x.it" } "zz").1
    (by decide)

/-! ## Persistence -/

/-- C5 (counterexample to the claim as stated). A gym session as the workout form
builds it from a row whose per-set field reads `Infinity`: `parseFloat` gives
`Infinity`, the filter `!isNaN(v) && v > 0` keeps it, and the session is stored in
memory with `weights: [Infinity]`. `save()` writes the number as `null`, so what
`JSON.parse(localStorage.getItem(key)) || []` gives back holds `weights: [null]` and is
not the collection that was saved. -/
theorem save_reload_nonfinite_counterexample :
    parseItemOrEmpty
        (writeCollections (fun _ => none) "u@x.it" (JsVal.arr []) (JsVal.arr [])
          (JsVal.arr [JsVal.obj [("id", JsVal.str "1"), ("date", JsVal.str "2024-01-01"),
            ("name", JsVal.str "Push"), ("notes", JsVal.str ""), ("type", JsVal.str "gym"),
            ("exercises", JsVal.arr [JsVal.obj [("name", JsVal.str "Row"),
              ("sets", JsVal.num (JsNum.finite 3)), ("reps", JsVal.num (JsNum.finite 8)),
              ("weight", JsVal.null), ("weights", JsVal.arr [JsVal.num JsNum.posInf]),
              ("rir", JsVal.str ""), ("note", JsVal.str ""), ("dropSets", JsVal.arr [])]])]])
          (JsVal.arr []))
        (userDataKey "u@x.it" "workouts")
      = JsVal.arr [JsVal.obj [("id", JsVal.str "1"), ("date", JsVal.str "2024-01-01"),
          ("name", JsVal.str "Push"), ("notes", JsVal.str ""), ("type", JsVal.str "gym"),
          ("exercises", JsVal.arr [JsVal.obj [("name", JsVal.str "Row"),
            ("sets", JsVal.num (JsNum.finite 3)), ("reps", JsVal.num (JsNum.finite 8)),
            ("weight", JsVal.null), ("weights", JsVal.arr [JsVal.null]),
            ("rir", JsVal.str ""), ("note", JsVal.str ""), ("dropSets", JsVal.arr [])]])]] ∧
    parseItemOrEmpty
        (writeCollections (fun _ => none) "u@x.it" (JsVal.arr []) (JsVal.arr [])
          (JsVal.arr [JsVal.obj [("id", JsVal.str "1"), ("date", JsVal.str "2024-01-01"),
            ("name", JsVal.str "Push"), ("notes", JsVal.str ""), ("type", JsVal.str "gym"),
            ("exercises", JsVal.arr [JsVal.obj [("name", JsVal.str "Row"),
              ("sets", JsVal.num (JsNum.finite 3)), ("reps", JsVal.num (JsNum.finite 8)),
              ("weight", JsVal.null), ("weights", JsVal.arr [JsVal.num JsNum.posInf]),
              ("rir", JsVal.str ""), ("note", JsVal.str ""), ("dropSets", JsVal.arr [])]])]])
          (JsVal.arr []))
        (userDataKey "u@x.it" "workouts")
      ≠ JsVal.arr [JsVal.obj [("id", JsVal.str "1"), ("date", JsVal.str "2024-01-01"),
          ("name", JsVal.str "Push"), ("notes", JsVal.str ""), ("type", JsVal.str "gym"),
          ("exercises", JsVal.arr [JsVal.obj [("name", JsVal.str "Row"),
            ("sets", JsVal.num (JsNum.finite 3)), ("reps", JsVal.num (JsNum.finite 8)),
            ("weight", JsVal.null), ("weights", JsVal.arr [JsVal.num JsNum.posInf]),
            ("rir", JsVal.str ""), ("note", JsVal.str ""), ("dropSets", JsVal.arr [])]])]] := by
  have h := (parseItemOrEmpty_writeCollections (fun _ => none) "u@x.it" [] []
    [JsVal.obj [("id", JsVal.str "1"), ("date", JsVal.str "2024-01-01"),
      ("name", JsVal.str "Push"), ("notes", JsVal.str ""), ("type", JsVal.str "gym"),
      ("exercises", JsVal.arr [JsVal.obj [("name", JsVal.str "Row"),
        ("sets", JsVal.num (JsNum.finite 3)), ("reps", JsVal.num (JsNum.finite 8)),
        ("weight", JsVal.null), ("weights", JsVal.arr [JsVal.num JsNum.posInf]),
        ("rir", JsVal.str ""), ("note", JsVal.str ""), ("dropSets", JsVal.arr [])]])]] []).2.2.1
  rw [h]
  constructor
  · simp [jsonStringify, jsonParse, stringifyItems, stringifyFields, parseItems, parseFields]
  · simp [jsonStringify, jsonParse, stringifyItems, stringifyFields, parseItems, parseFields]

/-- C5 (as amended). When `save()` finds the e-mail `email` of the active account (a
non-empty string under `ft_session` or, failing that, under `ft_session_temp`), then
whatever is in memory when the data is loaded again (nothing after a restart),
`loadUserState(email)` after `save()` puts into `state` the four collections that were
saved: same entities, same order, same ids and field values. This is for collections
whose numbers are all finite, which is what the typed `state` holds. In general, for
every four arrays of JavaScript values, what is read back under a key is the array that
was saved exactly when every number inside that array is finite. -/
theorem save_reload_roundtrip (w : World) (email : String) (h : saveEmail w = some email)
    (hne : email ≠ "") :
    (∀ inMemory : State,
      (loadUserState { save w with state := inMemory } email).state = w.state) ∧
    (∀ (st : String → Option Json) (ws ms xs ps : List JsVal),
      (parseItemOrEmpty (writeCollections st email (JsVal.arr ws) (JsVal.arr ms)
          (JsVal.arr xs) (JsVal.arr ps)) (userDataKey email "weights") = JsVal.arr ws
        ↔ allFinite (JsVal.arr ws) = true) ∧
      (parseItemOrEmpty (writeCollections st email (JsVal.arr ws) (JsVal.arr ms)
          (JsVal.arr xs) (JsVal.arr ps)) (userDataKey email "meals") = JsVal.arr ms
        ↔ allFinite (JsVal.arr ms) = true) ∧
      (parseItemOrEmpty (writeCollections st email (JsVal.arr ws) (JsVal.arr ms)
          (JsVal.arr xs) (JsVal.arr ps)) (userDataKey email "workouts") = JsVal.arr xs
        ↔ allFinite (JsVal.arr xs) = true) ∧
      (parseItemOrEmpty (writeCollections st email (JsVal.arr ws) (JsVal.arr ms)
          (JsVal.arr xs) (JsVal.arr ps)) (userDataKey email "wplans") = JsVal.arr ps
        ↔ allFinite (JsVal.arr ps) = true)) := by
  constructor
  · intro inMemory
    rw [save_eq w email h hne]
    obtain ⟨h1, h2, h3, h4⟩ := load_writeCollections w.storage email w.state
    simp only [loadUserState, h1, h2, h3, h4]
  · intro st ws ms xs ps
    obtain ⟨h1, h2, h3, h4⟩ := parseItemOrEmpty_writeCollections st email ws ms xs ps
    rw [h1, h2, h3, h4]
    simp only [JsVal.arr.injEq, allFinite]
    exact ⟨parseItems_stringify_iff ws, parseItems_stringify_iff ms,
      parseItems_stringify_iff xs, parseItems_stringify_iff ps⟩

/-- Witness for C5: a remembered session of `u@x.it` with one weight entry and one gym
session in memory; after `save()` the memory is emptied and the data is loaded again. -/
theorem save_reload_roundtrip_witness :
    (loadUserState
      { save
          { state :=
              { weights := [⟨"a", "2024-01-01", 80, ""⟩], mealPlans := [],
                workouts := [⟨"1", "2024-01-01", "Push", "", some SessionType.gym,
                  [⟨"Row", some 3, Reps.count 8, none, some [50, 55, 60], "", "", []⟩],
                  none, none, none⟩],
                wplans := [] },
            storage := fun _ => none, session := some ⟨"u@x.it", true⟩, sessionTemp := none }
        with state := { weights := [], mealPlans := [], workouts := [], wplans := [] } }
      "u@x.it").state
      = { weights := [⟨"a", "2024-01-01", 80, ""⟩], mealPlans := [],
          workouts := [⟨"1", "2024-01-01", "Push", "", some SessionType.gym,
            [⟨"Row", some 3, Reps.count 8, none, some [50, 55, 60], "", "", []⟩],
            none, none, none⟩],
          wplans := [] } :=
  (save_reload_roundtrip
    { state :=
        { weights := [⟨"a", "2024-01-01", 80, ""⟩], mealPlans := [],
          workouts := [⟨"1", "2024-01-01", "Push", "", some SessionType.gym,
            [⟨"Row", some 3, Reps.count 8, none, some [50, 55, 60], "", "", []⟩],
            none, none, none⟩],
          wplans := [] },
      storage := fun _ => none, session := some ⟨"u@x.it", true⟩, sessionTemp := none }
    "u@x.it" (by decide) (by decide)).1
    { weights := [], mealPlans := [], workouts := [], wplans := [] }

/-! ## Account isolation -/

/-- C1 (the code at a failing input). The two different lower-cased e-mails
`john.doe@x.com` and `john_doe@x.com` get the same storage key for every collection
type, and a weight entry logged under the first is what `loadUserState` puts into
`state.weights` after logout and login as the second. -/
theorem account_keys_collide :
    "john.doe@x.com" ≠ "john_doe@x.com" ∧
    (∀ t : String, userDataKey "john.doe@x.com" t = userDataKey "john_doe@x.com" t) ∧
    (doLogin (doLogout (weightFormSubmit
        (doLogin
          { state := { weights := [], mealPlans := [], workouts := [], wplans := [] },
            storage := fun _ => none, session := none, sessionTemp := none }
          "john.doe@x.com" false)
        "id1" "2024-01-01" (some 80) "")) "john_doe@x.com" false).state.weights
      = [⟨"id1", "2024-01-01", 80, ""⟩] := by
  refine ⟨by decide, ?_, ?_⟩
  · intro t
    have h : safeEmail "john.doe@x.com" = safeEmail "john_doe@x.com" := by decide
    simp only [userDataKey, h]
  · decide!

/-! ## Personal records -/

/-- Every name that is not an inherited member and has a data point has a flagged
instance on a gym card, in sessions without an empty per-set array. -/
theorem own_name_has_flagged_instance (ws : List Workout) (name : String)
    (hname : name ∉ objectPrototypeKeys)
    (hws : ∀ w ∈ ws, ∀ e ∈ w.exercises, e.weights ≠ some [])
    (hne : dataPoints ws name ≠ []) :
    ∃ w ∈ ws, gymCard w = true ∧ ∃ ex ∈ w.exercises, ex.name = name ∧
      isPR (prsTable ws) ex = true := by
  cases hmax : (dataPoints ws name).max? with
  | none => exact absurd (List.max?_eq_none_iff.mp hmax) hne
  | some M =>
    have hmem : M ∈ dataPoints ws name := ((max?_eq_some_iff_rat _ M).mp hmax).1
    unfold dataPoints at hmem
    rw [List.mem_filterMap] at hmem
    obtain ⟨ex, hex, hexd⟩ := hmem
    rw [List.mem_flatMap] at hex
    obtain ⟨w, hw, hexw⟩ := hex
    rw [List.mem_filter] at hw
    split_ifs at hexd with hn
    subst hn
    refine ⟨w, hw.1, ?_, ex, hexw, rfl, ?_⟩
    · rw [← prsGym_eq_gymCard, prsGym_eq_specGymSession]; exact hw.2
    · exact (isPR_own_name ws ex hname hws (hws w hw.1 ex hexw)).mpr ⟨M, hexd, hmax⟩

/-- C6 (the code at a failing input). One gym session holds an exercise named
`constructor` with the single weight 100 and an exercise named `Squat` with the per-set
weights 95, 100, 90. Both names have the data point 100. The table maps `Squat` to 100,
but for `constructor` the lookup `prs[ex.name]` gives the member that `{}` inherits
from `Object.prototype`, the guard fails and no record is stored: the table does not
map the name to 100. This is so for every list of sessions. -/
theorem prs_inherited_name_unrecorded :
    dataPoints
        [⟨"1", "2024-01-01", "Full body", "", some SessionType.gym,
            [⟨"constructor", some 3, Reps.count 5, some 100, none, "", "", []⟩,
             ⟨"Squat", some 3, Reps.count 5, none, some [95, 100, 90], "", "", []⟩],
            none, none, none⟩]
        "constructor" = [100] ∧
    prsTable
        [⟨"1", "2024-01-01", "Full body", "", some SessionType.gym,
            [⟨"constructor", some 3, Reps.count 5, some 100, none, "", "", []⟩,
             ⟨"Squat", some 3, Reps.count 5, none, some [95, 100, 90], "", "", []⟩],
            none, none, none⟩]
        "constructor" = some PrValue.inherited ∧
    prsTable
        [⟨"1", "2024-01-01", "Full body", "", some SessionType.gym,
            [⟨"constructor", some 3, Reps.count 5, some 100, none, "", "", []⟩,
             ⟨"Squat", some 3, Reps.count 5, none, some [95, 100, 90], "", "", []⟩],
            none, none, none⟩]
        "constructor" ≠ some (PrValue.num 100) ∧
    dataPoints
        [⟨"1", "2024-01-01", "Full body", "", some SessionType.gym,
            [⟨"constructor", some 3, Reps.count 5, some 100, none, "", "", []⟩,
             ⟨"Squat", some 3, Reps.count 5, none, some [95, 100, 90], "", "", []⟩],
            none, none, none⟩]
        "Squat" = [100] ∧
    prsTable
        [⟨"1", "2024-01-01", "Full body", "", some SessionType.gym,
            [⟨"constructor", some 3, Reps.count 5, some 100, none, "", "", []⟩,
             ⟨"Squat", some 3, Reps.count 5, none, some [95, 100, 90], "", "", []⟩],
            none, none, none⟩]
        "Squat" = some (PrValue.num 100) ∧
    (∀ ws : List Workout, prsTable ws "constructor" = some PrValue.inherited) := by
  refine ⟨by decide!, by decide!, by decide!, by decide!, by decide!, ?_⟩
  intro ws
  exact prsTable_inherited_name ws "constructor" (by decide)

/-- C7 (the code at a failing input). Session 1 holds `constructor` at 100 kg and
`Squat` with the per-set weights 95, 100, 90; the later session 2 holds `Squat` at
90 kg. The `constructor` instance has the data point 100, which is the greatest data
point of its name, but it is not flagged, so a name with a data point has no flagged
instance; no exercise of that name is flagged in any list of sessions. The example of
the specification holds: the `Squat` instance with 100 is flagged and the one with 90
is not. -/
theorem pr_flag_inherited_name_missing :
    dataPoint ⟨"constructor", some 3, Reps.count 5, some 100, none, "", "", []⟩ = some 100 ∧
    (dataPoints
        [⟨"1", "2024-01-01", "Full body", "", some SessionType.gym,
            [⟨"constructor", some 3, Reps.count 5, some 100, none, "", "", []⟩,
             ⟨"Squat", some 3, Reps.count 5, none, some [95, 100, 90], "", "", []⟩],
            none, none, none⟩,
         ⟨"2", "2024-01-02", "Legs", "", some SessionType.gym,
            [⟨"Squat", some 3, Reps.count 5, some 90, none, "", "", []⟩], none, none, none⟩]
        "constructor").max? = some 100 ∧
    isPR (prsTable
        [⟨"1", "2024-01-01", "Full body", "", some SessionType.gym,
            [⟨"constructor", some 3, Reps.count 5, some 100, none, "", "", []⟩,
             ⟨"Squat", some 3, Reps.count 5, none, some [95, 100, 90], "", "", []⟩],
            none, none, none⟩,
         ⟨"2", "2024-01-02", "Legs", "", some SessionType.gym,
            [⟨"Squat", some 3, Reps.count 5, some 90, none, "", "", []⟩], none, none, none⟩])
      ⟨"constructor", some 3, Reps.count 5, some 100, none, "", "", []⟩ = false ∧
    (∀ (ws : List Workout) (ex : Exercise),
      isPR (prsTable ws) { ex with name := "constructor" } = false) ∧
    isPR (prsTable
        [⟨"1", "2024-01-01", "Full body", "", some SessionType.gym,
            [⟨"constructor", some 3, Reps.count 5, some 100, none, "", "", []⟩,
             ⟨"Squat", some 3, Reps.count 5, none, some [95, 100, 90], "", "", []⟩],
            none, none, none⟩,
         ⟨"2", "2024-01-02", "Legs", "", some SessionType.gym,
            [⟨"Squat", some 3, Reps.count 5, some 90, none, "", "", []⟩], none, none, none⟩])
      ⟨"Squat", some 3, Reps.count 5, none, some [95, 100, 90], "", "", []⟩ = true ∧
    isPR (prsTable
        [⟨"1", "2024-01-01", "Full body", "", some SessionType.gym,
            [⟨"constructor", some 3, Reps.count 5, some 100, none, "", "", []⟩,
             ⟨"Squat", some 3, Reps.count 5, none, some [95, 100, 90], "", "", []⟩],
            none, none, none⟩,
         ⟨"2", "2024-01-02", "Legs", "", some SessionType.gym,
            [⟨"Squat", some 3, Reps.count 5, some 90, none, "", "", []⟩], none, none, none⟩])
      ⟨"Squat", some 3, Reps.count 5, some 90, none, "", "", []⟩ = false := by
  refine ⟨by decide!, by decide!, by decide!, ?_, by decide!, by decide!⟩
  intro ws ex
  have hkey : "constructor" ∈ objectPrototypeKeys := by decide
  exact isPR_inherited_name ws _ hkey

/-! ## Total volume -/

theorem perSet_foldl (ws : List ℚ) (r a : ℚ) :
    List.foldl (fun (acc : Option ℚ) (wt : ℚ) => (fun a r => a + wt * r) <$> acc <*> some r)
      (some a) ws = some (a + ws.sum * r) := by
  induction ws generalizing a with
  | nil => simp
  | cons x xs ih =>
    simp only [List.foldl_cons, List.sum_cons]
    have : ((fun a r => a + x * r) <$> some a <*> some r) = some (a + x * r) := rfl
    rw [this, ih]
    congr 1
    ring

theorem exerciseVolume_eq_spec (ex : Exercise) (h1 : ex.reps ≠ Reps.failure)
    (h2 : ex.reps ≠ Reps.count 0) (h3 : ex.sets ≠ some 0) :
    exerciseVolume ex = some (specVolume ex) := by
  obtain ⟨name, sets, reps, weight, weights, rir, note, dropSets⟩ := ex
  simp only at h1 h2 h3
  have hr : repsFactor reps = some (specReps reps) := by
    cases reps with
    | failure => exact absurd rfl h1
    | count n =>
      have hn : n ≠ 0 := fun h => h2 (by rw [h])
      simp [repsFactor, specReps, hn]
    | null => rfl
  have hs : setsFactor sets = ((sets.getD 1 : ℤ) : ℚ) := by
    cases sets with
    | none => simp [setsFactor]
    | some n =>
      have hn : n ≠ 0 := fun h => h3 (by rw [h])
      simp [setsFactor, hn]
  have hw : weightFactor weight = weight.getD 0 := by
    cases weight <;> rfl
  unfold exerciseVolume specVolume
  simp only [hr, hs, hw]
  cases weights with
  | none => rfl
  | some ws =>
    cases ws with
    | nil => rfl
    | cons x xs =>
      simp only [List.length_cons, ne_eq, Nat.add_one_ne_zero, not_false_eq_true, if_true]
      rw [perSet_foldl]
      simp

theorem totalVolume_foldl (exs : List Exercise) (a : ℚ)
    (h : ∀ ex ∈ exs, exerciseVolume ex = some (specVolume ex)) :
    exs.foldl (fun s ex => (fun a v => a + v) <$> s <*> exerciseVolume ex) (some a)
      = some (a + (exs.map specVolume).sum) := by
  induction exs generalizing a with
  | nil => simp
  | cons x xs ih =>
    simp only [List.foldl_cons, List.map_cons, List.sum_cons]
    rw [h x (by simp)]
    have : ((fun a v => a + v) <$> some a <*> some (specVolume x)) = some (a + specVolume x) := rfl
    rw [this, ih _ (fun ex hex => h ex (List.mem_cons_of_mem _ hex))]
    congr 1
    ring

/-- C8. For a gym session whose exercises have a numeric or missing `reps` (not the
string `'failure'`) and no stored zero in `sets` or `reps` (the forms store
`parseInt(..) || null`, so a zero is never stored), the total volume is the sum over the
exercises of (sum of the per-set weights) × reps when a non-empty per-set list is
present and of sets × reps × weight otherwise, a missing `sets`, `reps`, `weight`
counting as 1, 1, 0. The per-set branch does not depend on `sets`, and an exercise with
`weights = [50, 55, 60]` and `reps = 8` contributes 1320. -/
theorem total_volume_formula (w : Workout)
    (hreps : ∀ ex ∈ w.exercises, ex.reps ≠ Reps.failure ∧ ex.reps ≠ Reps.count 0)
    (hsets : ∀ ex ∈ w.exercises, ex.sets ≠ some 0) :
    totalVolume w = some ((w.exercises.map specVolume).sum) ∧
    (∀ (ex : Exercise) (s : Option ℤ) (wt : ℚ) (wts : List ℚ), ex.weights = some (wt :: wts) →
      exerciseVolume { ex with sets := s } = exerciseVolume ex) ∧
    (∀ (name rir note : String) (sets : Option ℤ) (weight : Option ℚ) (ds : List DropSet),
      exerciseVolume ⟨name, sets, Reps.count 8, weight, some [50, 55, 60], rir, note, ds⟩
        = some 1320) := by
  refine ⟨?_, ?_, ?_⟩
  · unfold totalVolume
    rw [totalVolume_foldl _ 0
      (fun ex hex => exerciseVolume_eq_spec ex (hreps ex hex).1 (hreps ex hex).2 (hsets ex hex))]
    simp
  · intro ex s wt wts h
    simp [exerciseVolume, h]
  · intro name rir note sets weight ds
    norm_num [exerciseVolume, repsFactor]

/-- Witness for C8: a session with one per-set exercise and one single-weight exercise:
(50 + 55 + 60) × 8 + 3 × 5 × 100 = 2820. -/
theorem total_volume_formula_witness :
    totalVolume ⟨"1", "2024-01-01", "Push", "", some SessionType.gym,
        [⟨"Row", some 3, Reps.count 8, none, some [50, 55, 60], "", "", []⟩,
         ⟨"Squat", some 3, Reps.count 5, some 100, none, "", "", []⟩], none, none, none⟩
      = some ((List.map specVolume
          [⟨"Row", some 3, Reps.count 8, none, some [50, 55, 60], "", "", []⟩,
           ⟨"Squat", some 3, Reps.count 5, some 100, none, "", "", []⟩]).sum) :=
  (total_volume_formula
    ⟨"1", "2024-01-01", "Push", "", some SessionType.gym,
        [⟨"Row", some 3, Reps.count 8, none, some [50, 55, 60], "", "", []⟩,
         ⟨"Squat", some 3, Reps.count 5, some 100, none, "", "", []⟩], none, none, none⟩
    (by decide) (by decide)).1

/-! ## Weekly average -/

theorem toFixed1_spec (x : ℚ) : (∃ k : ℤ, toFixed1 x = (k : ℚ) / 10) ∧ |toFixed1 x - x| ≤ 1 / 20 := by
  unfold toFixed1
  split_ifs with h
  · refine ⟨⟨⌊x * 10 + 1 / 2⌋, rfl⟩, ?_⟩
    have h1 := Int.floor_le (x * 10 + 1 / 2)
    have h2 := Int.lt_floor_add_one (x * 10 + 1 / 2)
    rw [abs_le]
    constructor <;> linarith
  · refine ⟨⟨-⌊-x * 10 + 1 / 2⌋, by push_cast; ring⟩, ?_⟩
    have h1 := Int.floor_le (-x * 10 + 1 / 2)
    have h2 := Int.lt_floor_add_one (-x * 10 + 1 / 2)
    rw [abs_le]
    constructor <;> linarith

theorem value_foldl (l : List WeightEntry) (a : ℚ) :
    l.foldl (fun s w => s + w.value) a = a + (l.map WeightEntry.value).sum := by
  induction l generalizing a with
  | nil => simp
  | cons x xs ih =>
    simp only [List.foldl_cons, List.map_cons, List.sum_cons]
    rw [ih]
    ring

theorem weekAvg_of_week (ws : List WeightEntry) (zone : Zone) (nowDate : ℤ) :
    weekAvg ws zone nowDate =
      if (weekWeights ws (monStr zone nowDate) (sunStr zone nowDate)).length ≠ 0 then
        some (toFixed1
          (((weekWeights ws (monStr zone nowDate) (sunStr zone nowDate)).map
              WeightEntry.value).sum /
            ((weekWeights ws (monStr zone nowDate) (sunStr zone nowDate)).length : ℚ)))
      else none := by
  unfold weekAvg
  simp only [value_foldl, zero_add]

/-- What `weekAvg` computes from the two strings: `null` exactly when no weight entry is
dated in `[monStr, sunStr]`; otherwise a multiple of 1/10 within 1/20 of the arithmetic
mean of the `value` fields of exactly the entries dated in that interval; an entry
dated outside `[monStr, sunStr]` changes nothing. -/
theorem weekAvg_of_strings (ws : List WeightEntry) (zone : Zone) (nowDate : ℤ) :
    (weekAvg ws zone nowDate = none ↔
      ∀ w ∈ ws, ¬ (monStr zone nowDate ≤ w.date ∧ w.date ≤ sunStr zone nowDate)) ∧
    (∀ r, weekAvg ws zone nowDate = some r →
      (∃ k : ℤ, r = (k : ℚ) / 10) ∧
      |r - ((ws.filter (fun w =>
                decide (monStr zone nowDate ≤ w.date ∧ w.date ≤ sunStr zone nowDate))).map
              WeightEntry.value).sum /
            ((ws.filter (fun w =>
                decide (monStr zone nowDate ≤ w.date ∧ w.date ≤ sunStr zone nowDate))).length : ℚ)|
        ≤ 1 / 20) ∧
    (∀ (pre post : List WeightEntry) (e : WeightEntry),
      ¬ (monStr zone nowDate ≤ e.date ∧ e.date ≤ sunStr zone nowDate) →
      ws = pre ++ e :: post → weekAvg ws zone nowDate = weekAvg (pre ++ post) zone nowDate) := by
  refine ⟨?_, ?_, ?_⟩
  · rw [weekAvg_of_week]
    constructor
    · intro h
      split_ifs at h with hl
      have hnil : weekWeights ws (monStr zone nowDate) (sunStr zone nowDate) = [] := by
        rw [← List.length_eq_zero]
        exact not_not.mp hl
      intro w hw hin
      have : w ∈ weekWeights ws (monStr zone nowDate) (sunStr zone nowDate) := by
        unfold weekWeights
        rw [List.mem_filter]
        exact ⟨hw, by simpa using hin⟩
      rw [hnil] at this
      simp at this
    · intro h
      have hnil : weekWeights ws (monStr zone nowDate) (sunStr zone nowDate) = [] := by
        unfold weekWeights
        rw [List.filter_eq_nil_iff]
        intro w hw
        simpa using h w hw
      simp [hnil]
  · intro r hr
    rw [weekAvg_of_week] at hr
    split_ifs at hr with hl
    simp only [Option.some.injEq] at hr
    subst hr
    exact toFixed1_spec _
  · intro pre post e he hws
    subst hws
    have : weekWeights (pre ++ e :: post) (monStr zone nowDate) (sunStr zone nowDate)
        = weekWeights (pre ++ post) (monStr zone nowDate) (sunStr zone nowDate) := by
      unfold weekWeights
      rw [List.filter_append, List.filter_append, List.filter_cons_of_neg (by simpa using he)]
    unfold weekAvg
    rw [this]

/-- The window `[monStr, sunStr]` against the calendar week of the user. When the local
clock is on UTC at both ends of the week, the two strings are the dates of the Monday
and of the Sunday. When the local clock is ahead of UTC (by at most a day) at the
Monday midnight, `monStr` is the date of the day before that Monday. When the local
clock is behind UTC (by at most a day) at the end of the Sunday, `sunStr` is the date
of the day after that Sunday. -/
theorem week_strings_by_zone (zone : Zone) (nowDate : ℤ) :
    (zone (weekMonday nowDate) 0 = 0 → monStr zone nowDate = isoDate (weekMonday nowDate)) ∧
    (zone (weekSunday nowDate) 86399999 = 0 →
      sunStr zone nowDate = isoDate (weekSunday nowDate)) ∧
    (0 < zone (weekMonday nowDate) 0 → zone (weekMonday nowDate) 0 ≤ 1440 →
      monStr zone nowDate = isoDate (weekMonday nowDate - 1)) ∧
    (zone (weekSunday nowDate) 86399999 < 0 → -1440 ≤ zone (weekSunday nowDate) 86399999 →
      sunStr zone nowDate = isoDate (weekSunday nowDate + 1)) := by
  refine ⟨?_, ?_, ?_, ?_⟩
  · intro h
    unfold monStr toISODate
    rw [h]
    congr 1
    omega
  · intro h
    unfold sunStr toISODate
    rw [h]
    congr 1
    omega
  · intro h1 h2
    unfold monStr toISODate
    congr 1
    omega
  · intro h1 h2
    unfold sunStr toISODate
    congr 1
    omega

/-- C9 (the code at a failing input). In a time zone one hour ahead of UTC
(Europe/Rome in winter) on Wednesday 2024-01-10, which is day 19732 from 1970-01-01,
the calendar week runs from Monday 2024-01-08 to Sunday 2024-01-14, but `monStr` is
`2024-01-07`, the Sunday before. With weight entries on 2024-01-07 (70), 2024-01-08
(80), 2024-01-10 (81) and 2024-01-15 (90) the dashboard value is 77.0, the mean of
three entries, one of them dated outside the week; the mean of the entries dated from
the Monday to the Sunday is 80.5, which is what the same code gives on a UTC clock. -/
theorem weekly_average_utc_shift :
    isoDate 19732 = "2024-01-10" ∧
    getDay 19732 = 3 ∧
    isoDate (weekMonday 19732) = "2024-01-08" ∧
    isoDate (weekSunday 19732) = "2024-01-14" ∧
    monStr (fun _ _ => 60) 19732 = "2024-01-07" ∧
    sunStr (fun _ _ => 60) 19732 = "2024-01-14" ∧
    weekWeights [⟨"z", "2024-01-07", 70, ""⟩, ⟨"a", "2024-01-08", 80, ""⟩,
        ⟨"b", "2024-01-10", 81, ""⟩, ⟨"c", "2024-01-15", 90, ""⟩]
        (monStr (fun _ _ => 60) 19732) (sunStr (fun _ _ => 60) 19732)
      = [⟨"z", "2024-01-07", 70, ""⟩, ⟨"a", "2024-01-08", 80, ""⟩,
          ⟨"b", "2024-01-10", 81, ""⟩] ∧
    weekAvg [⟨"z", "2024-01-07", 70, ""⟩, ⟨"a", "2024-01-08", 80, ""⟩,
        ⟨"b", "2024-01-10", 81, ""⟩, ⟨"c", "2024-01-15", 90, ""⟩] (fun _ _ => 60) 19732
      = some 77 ∧
    weekAvg [⟨"z", "2024-01-07", 70, ""⟩, ⟨"a", "2024-01-08", 80, ""⟩,
        ⟨"b", "2024-01-10", 81, ""⟩, ⟨"c", "2024-01-15", 90, ""⟩] (fun _ _ => 0) 19732
      = some (161 / 2) := by
  refine ⟨?_, by decide, ?_, ?_, ?_, ?_, ?_, ?_, ?_⟩ <;> decide!

/-! ## Week boundaries -/

/-- C10. For every reference day, the computed start of the week is a Monday, 0 to 6
days before the reference day (6 days before a Sunday, 0 days before a Monday); the
computed end of the week is the Sunday 6 days after that Monday; the reference day lies
between the two; and for every day of the week `d` in 0..6 the offset satisfies
`-6 ≤ diffToMon d ≤ 0` and `(d + diffToMon d) mod 7 = 1`. -/
theorem week_boundaries (nowDate : ℤ) :
    getDay (weekMonday nowDate) = 1 ∧
    0 ≤ nowDate - weekMonday nowDate ∧ nowDate - weekMonday nowDate ≤ 6 ∧
    (getDay nowDate = 0 → nowDate - weekMonday nowDate = 6) ∧
    (getDay nowDate = 1 → weekMonday nowDate = nowDate) ∧
    weekSunday nowDate = weekMonday nowDate + 6 ∧
    getDay (weekSunday nowDate) = 0 ∧
    weekMonday nowDate ≤ nowDate ∧ nowDate ≤ weekSunday nowDate ∧
    (∀ d : ℤ, 0 ≤ d → d ≤ 6 →
      -6 ≤ diffToMon d ∧ diffToMon d ≤ 0 ∧ (d + diffToMon d) % 7 = 1) := by
  unfold weekSunday weekMonday diffToMon getDay
  refine ⟨?_, ?_, ?_, ?_, ?_, rfl, ?_, ?_, ?_, ?_⟩
  · split_ifs <;> omega
  · split_ifs <;> omega
  · split_ifs <;> omega
  · intro h; simp [h]
  · intro h; simp [h]
  · split_ifs <;> omega
  · split_ifs <;> omega
  · split_ifs <;> omega
  · intro d h0 h6
    split_ifs <;> omega

/-- Witness for C10: 2024-01-14, day 19736 from 1970-01-01, is a Sunday; its week starts
on day 19730, the Monday 2024-01-08. -/
theorem week_boundaries_witness :
    getDay 19736 = 0 ∧ weekMonday 19736 = 19730 ∧ 19736 - weekMonday 19736 = 6 :=
  ⟨by decide, by decide, (week_boundaries 19736).2.2.2.1 (by decide)⟩

/-! ## Helper lemmas: stable sorting -/

theorem insertionSort_filter_stable {α : Type} (r : α → α → Prop) [DecidableRel r]
    (p : α → Bool) (l : List α) (hp : ∀ a b, p a = true → p b = true → r a b) :
    (l.insertionSort r).filter p = l.filter p := by
  have hpw : (l.filter p).Pairwise r := by
    apply List.pairwise_of_forall_mem_list
    intro a ha b hb
    exact hp a b (List.mem_filter.mp ha).2 (List.mem_filter.mp hb).2
  have hsub : List.Sublist (l.filter p) (l.insertionSort r) :=
    List.sublist_insertionSort hpw (List.filter_sublist l)
  have hsub2 : List.Sublist (l.filter p) ((l.insertionSort r).filter p) := by
    have := hsub.filter p
    rwa [List.filter_filter, show (fun a => p a && p a) = p from by funext a; simp] at this
  have hlen : ((l.insertionSort r).filter p).length = (l.filter p).length :=
    ((List.perm_insertionSort r l).filter p).length_eq
  exact (hsub2.eq_of_length hlen.symm).symm

theorem sortByDate_perm (ws : List WeightEntry) : (sortByDate ws).Perm ws :=
  List.perm_insertionSort _ ws

theorem sortByDate_sorted (ws : List WeightEntry) :
    (sortByDate ws).Pairwise (fun a b => a.date ≤ b.date) := by
  haveI : IsTotal WeightEntry (fun a b => a.date ≤ b.date) := ⟨fun a b => le_total a.date b.date⟩
  haveI : IsTrans WeightEntry (fun a b => a.date ≤ b.date) :=
    ⟨fun a b c h1 h2 => le_trans h1 h2⟩
  exact List.sorted_insertionSort (fun a b : WeightEntry => a.date ≤ b.date) ws

theorem filter_ge_suffix (cut : String) (l : List WeightEntry)
    (hs : l.Pairwise (fun a b => a.date ≤ b.date)) :
    List.IsSuffix (l.filter (fun w => decide (cut ≤ w.date))) l := by
  induction l with
  | nil => simp
  | cons a as ih =>
    rw [List.pairwise_cons] at hs
    by_cases h : cut ≤ a.date
    · have hall : (a :: as).filter (fun w => decide (cut ≤ w.date)) = a :: as := by
        rw [List.filter_eq_self]
        intro x hx
        rcases List.mem_cons.mp hx with rfl | hx
        · simpa using h
        · simpa using le_trans h (hs.1 x hx)
      rw [hall]
    · rw [List.filter_cons_of_neg (by simpa using h)]
      exact (ih hs.2).trans (List.suffix_cons a as)

theorem historyRows_entry (l : List WeightEntry) :
    (historyRows l).map HistoryRow.entry = l := by
  induction l with
  | nil => rfl
  | cons w rest ih => simp [historyRows, ih]

theorem historyRows_getElem? (l : List WeightEntry) (i : ℕ) :
    (historyRows l)[i]? = (l[i]?).map (fun a =>
      { entry := a
        diff := (l[i + 1]?).map (fun prev =>
          (toFixed1 (a.value - prev.value), diffLabel (toFixed1 (a.value - prev.value)))) }) := by
  induction l generalizing i with
  | nil => simp [historyRows]
  | cons w rest ih =>
    cases i with
    | zero =>
      cases rest <;> simp [historyRows]
    | succ j =>
      simp only [historyRows, List.getElem?_cons_succ]
      exact ih j

/-! ## Helper lemmas: parsing decimal numerals -/

theorem digit_toNat (c : Char) (h : '0' ≤ c ∧ c ≤ '9') : 48 ≤ c.toNat ∧ c.toNat ≤ 57 := by
  obtain ⟨h1, h2⟩ := h
  have e1 : ('0' : Char).toNat = 48 := rfl
  have e2 : ('9' : Char).toNat = 57 := rfl
  have a1 : ('0' : Char).toNat ≤ c.toNat := h1
  have a2 : c.toNat ≤ ('9' : Char).toNat := h2
  omega

theorem digit_not_space (c : Char) (h : '0' ≤ c ∧ c ≤ '9') : isJsSpace c = false := by
  have hn := digit_toNat c h
  unfold isJsSpace
  simp only [List.mem_cons, List.mem_singleton, List.not_mem_nil, or_false, decide_eq_false_iff_not]
  omega

theorem digit_ne_of_toNat (c d : Char) (h : '0' ≤ c ∧ c ≤ '9')
    (hd : d.toNat < 48 ∨ 57 < d.toNat) : c ≠ d := by
  intro e
  have hn := digit_toNat c h
  rw [e] at hn
  omega

theorem digitVal_digit (c : Char) (h : '0' ≤ c ∧ c ≤ '9') :
    digitVal c = some (c.toNat - '0'.toNat) := by
  simp [digitVal, h]

theorem digitPrefix_digits (ds : List Char) (h : ∀ c ∈ ds, '0' ≤ c ∧ c ≤ '9') :
    digitPrefix digitVal ds = ds.map (fun c => c.toNat - '0'.toNat) := by
  induction ds with
  | nil => rfl
  | cons c cs ih =>
    simp only [digitPrefix, digitVal_digit c (h c (by simp)), List.map_cons]
    rw [ih (fun x hx => h x (List.mem_cons_of_mem _ hx))]

theorem ofDigitList_map (ds : List Char) (a : ℕ) :
    List.foldl (fun acc d => acc * 10 + d) a (ds.map (fun c => c.toNat - '0'.toNat))
      = List.foldl (fun acc c => acc * 10 + (c.toNat - '0'.toNat)) a ds := by
  induction ds generalizing a with
  | nil => rfl
  | cons c cs ih => simp only [List.map_cons, List.foldl_cons, ih]

theorem dropWhile_space_digits (c : Char) (cs : List Char) (h : '0' ≤ c ∧ c ≤ '9') :
    (c :: cs).dropWhile isJsSpace = c :: cs := by
  rw [List.dropWhile_cons_of_neg]
  simp [digit_not_space c h]

/-- Reading a decimal numeral with `parseInt` gives the number it writes. -/
theorem parseInt_numeral (ds : List Char) (hne : ds ≠ []) (h : ∀ c ∈ ds, '0' ≤ c ∧ c ≤ '9') :
    parseInt (String.mk ds) = some (numeralValue ds : ℤ) := by
  obtain ⟨c, cs, rfl⟩ := List.exists_cons_of_ne_nil hne
  have hc := h c (by simp)
  have hminus : c ≠ '-' := digit_ne_of_toNat c '-' hc (by decide)
  have hplus : c ≠ '+' := digit_ne_of_toNat c '+' hc (by decide)
  have hhex : (match c :: cs with
      | '0' :: 'x' :: _ => true
      | '0' :: 'X' :: _ => true
      | _ => false) = false := by
    split
    · rename_i heq
      simp only [List.cons.injEq] at heq
      obtain ⟨_, h2⟩ := heq
      have hx : ('x' : Char) ∈ c :: cs := by rw [h2]; simp
      have := h 'x' hx
      exact absurd this (by decide)
    · rename_i heq
      simp only [List.cons.injEq] at heq
      obtain ⟨_, h2⟩ := heq
      have hx : ('X' : Char) ∈ c :: cs := by rw [h2]; simp
      have := h 'X' hx
      exact absurd this (by decide)
    · rfl
  have hneg : (match c :: cs with
      | '-' :: _ => true
      | _ => false) = false := by
    split
    · rename_i heq
      simp only [List.cons.injEq] at heq
      exact absurd heq.1 hminus
    · rfl
  have ht1 : (match c :: cs with
      | '-' :: r => r
      | '+' :: r => r
      | _ => c :: cs) = c :: cs := by
    split
    · rename_i heq
      simp only [List.cons.injEq] at heq
      exact absurd heq.1 hminus
    · rename_i heq
      simp only [List.cons.injEq] at heq
      exact absurd heq.1 hplus
    · rfl
  unfold parseInt
  simp only [dropWhile_space_digits c cs hc, hneg, ht1, hhex, Bool.false_eq_true, if_false,
    digitPrefix_digits (c :: cs) h, List.length_map, List.length_cons, Nat.add_one_ne_zero]
  simp only [ofDigitList, ofDigitList_map, numeralValue]

theorem splitOnChar_no_sep (sep : Char) (l : List Char) (h : sep ∉ l) :
    splitOnChar sep l = [l] := by
  induction l with
  | nil => rfl
  | cons c cs ih =>
    have hc : c ≠ sep := fun e => h (by simp [e])
    have hcs : sep ∉ cs := fun e => h (List.mem_cons_of_mem _ e)
    simp [splitOnChar, hc, ih hcs]

theorem splitOnChar_append (sep : Char) (l rest : List Char) (h : sep ∉ l) :
    splitOnChar sep (l ++ sep :: rest) = l :: splitOnChar sep rest := by
  induction l with
  | nil => simp [splitOnChar]
  | cons c cs ih =>
    have hc : c ≠ sep := fun e => h (by simp [e])
    have hcs : sep ∉ cs := fun e => h (List.mem_cons_of_mem _ e)
    simp [splitOnChar, hc, ih hcs]

theorem dropWhile_of_head (p : Char → Bool) (l : List Char)
    (h : ∀ c, l.head? = some c → p c = false) : l.dropWhile p = l := by
  cases l with
  | nil => rfl
  | cons c cs =>
    rw [List.dropWhile_cons_of_neg]
    simp [h c rfl]

theorem jsTrim_pair (dm ds : List Char) (hm : dm ≠ []) (hs : ds ≠ [])
    (h1 : ∀ c ∈ dm, '0' ≤ c ∧ c ≤ '9') (h2 : ∀ c ∈ ds, '0' ≤ c ∧ c ≤ '9') :
    jsTrim (String.mk (dm ++ ':' :: ds)) = String.mk (dm ++ ':' :: ds) := by
  unfold jsTrim
  have e1 : (String.mk (dm ++ ':' :: ds)).data.dropWhile isJsSpace = dm ++ ':' :: ds := by
    apply dropWhile_of_head
    intro c hc
    obtain ⟨a, as, rfl⟩ := List.exists_cons_of_ne_nil hm
    simp only [List.cons_append, List.head?_cons, Option.some.injEq] at hc
    subst hc
    exact digit_not_space _ (h1 _ (by simp))
  rw [e1]
  obtain ⟨init, z, rfl⟩ := (List.eq_nil_or_concat ds).resolve_left hs
  simp only [List.concat_eq_append] at h2 e1 ⊢
  have hz : isJsSpace z = false := digit_not_space z (h2 z (by simp))
  have e2 : (dm ++ ':' :: (init ++ [z])).reverse = z :: (dm ++ ':' :: init).reverse := by
    simp
  rw [e2, List.dropWhile_cons_of_neg (by simp [hz]), ← e2, List.reverse_reverse]

/-- On a pair of decimal numerals `dm:ds`, `parsePace` gives minutes + seconds / 60, and
`null` when both numerals are zero. -/
theorem parsePace_numerals (dm ds : List Char) (hm : dm ≠ []) (hs : ds ≠ [])
    (h1 : ∀ c ∈ dm, '0' ≤ c ∧ c ≤ '9') (h2 : ∀ c ∈ ds, '0' ≤ c ∧ c ≤ '9') :
    parsePace (String.mk (dm ++ ':' :: ds)) =
      if numeralValue dm = 0 ∧ numeralValue ds = 0 then none
      else some ((numeralValue dm : ℚ) + (numeralValue ds : ℚ) / 60) := by
  have hcm : ':' ∉ dm := fun hmem => absurd (h1 _ hmem) (by decide)
  have hcs : ':' ∉ ds := fun hmem => absurd (h2 _ hmem) (by decide)
  have hne : String.mk (dm ++ ':' :: ds) ≠ "" := by
    intro e
    have := congrArg String.data e
    simp at this
  unfold parsePace
  rw [if_neg hne, jsTrim_pair dm ds hm hs h1 h2]
  simp only [splitOnChar_append ':' dm ds hcm, splitOnChar_no_sep ':' ds hcs, parseIntOr0,
    parseInt_numeral dm hm h1, parseInt_numeral ds hs h2, Option.getD_some]
  have e1 : ((numeralValue dm : ℤ) ≤ 0 ∧ (numeralValue ds : ℤ) ≤ 0) ↔
      (numeralValue dm = 0 ∧ numeralValue ds = 0) := by
    constructor
    · rintro ⟨a, b⟩; exact ⟨by omega, by omega⟩
    · rintro ⟨a, b⟩; exact ⟨by omega, by omega⟩
  by_cases hz : numeralValue dm = 0 ∧ numeralValue ds = 0
  · rw [if_pos (e1.mpr hz), if_pos hz]
  · rw [if_neg (fun h => hz (e1.mp h)), if_neg hz]
    simp

/-! ## Weight history, chart data and session order -/

/-- C11 (as amended). On a weight collection with pairwise distinct dates,
`renderWeightHistory` lists every entry exactly once in strictly descending date order;
a row that has a following row reports the delta `its value minus the value of the
following entry`, which is the entry with the next-earlier date of the whole
collection, rounded to one decimal, and the label is up, down or unchanged exactly when
that rounded delta is greater than, smaller than or equal to 0; the last row, the
earliest entry, reports no delta. -/
theorem weight_history_rounded (ws : List WeightEntry)
    (hnd : (ws.map WeightEntry.date).Nodup) :
    ((renderWeightHistory ws).map HistoryRow.entry).Perm ws ∧
    ((renderWeightHistory ws).map HistoryRow.entry).Pairwise (fun a b => b.date < a.date) ∧
    (∀ (i : ℕ) (r : HistoryRow), (renderWeightHistory ws)[i]? = some r →
      (∀ prev, (renderWeightHistory ws)[i + 1]? = some prev →
        prev.entry.date < r.entry.date ∧
        (∀ e ∈ ws, e.date < r.entry.date → e.date ≤ prev.entry.date) ∧
        r.diff = some (toFixed1 (r.entry.value - prev.entry.value),
          diffLabel (toFixed1 (r.entry.value - prev.entry.value)))) ∧
      ((renderWeightHistory ws)[i + 1]? = none → r.diff = none)) ∧
    (∀ q : ℚ, (diffLabel q = DiffLabel.up ↔ 0 < q) ∧ (diffLabel q = DiffLabel.down ↔ q < 0) ∧
      (diffLabel q = DiffLabel.same ↔ q = 0)) ∧
    (∀ q : ℚ, (∃ k : ℤ, toFixed1 q = (k : ℚ) / 10) ∧ |toFixed1 q - q| ≤ 1 / 20) := by
  have hperm : ((sortByDate ws).reverse).Perm ws :=
    (List.reverse_perm _).trans (sortByDate_perm ws)
  have hdesc : ((sortByDate ws).reverse).Pairwise (fun a b => b.date ≤ a.date) := by
    rw [List.pairwise_reverse]
    exact sortByDate_sorted ws
  have hne : ((sortByDate ws).reverse).Pairwise (fun a b => a.date ≠ b.date) := by
    have h1 : (((sortByDate ws).reverse).map WeightEntry.date).Nodup :=
      (hperm.map WeightEntry.date).nodup_iff.mpr hnd
    exact List.pairwise_map.mp h1
  have hstrict : ((sortByDate ws).reverse).Pairwise (fun a b => b.date < a.date) :=
    (hdesc.and hne).imp (fun h => lt_of_le_of_ne h.1 (Ne.symm h.2))
  have hentry : (renderWeightHistory ws).map HistoryRow.entry = (sortByDate ws).reverse :=
    historyRows_entry _
  refine ⟨by rw [hentry]; exact hperm, by rw [hentry]; exact hstrict, ?_, ?_, toFixed1_spec⟩
  · intro i r hr
    unfold renderWeightHistory at hr ⊢
    rw [historyRows_getElem?] at hr
    cases ha : ((sortByDate ws).reverse)[i]? with
    | none => simp [ha] at hr
    | some a =>
      simp only [ha, Option.map_some', Option.some.injEq] at hr
      subst hr
      simp only
      constructor
      · intro prev hprev
        rw [historyRows_getElem?] at hprev
        cases hb : ((sortByDate ws).reverse)[i + 1]? with
        | none => simp [hb] at hprev
        | some b =>
          simp only [hb, Option.map_some', Option.some.injEq] at hprev
          subst hprev
          simp only
          obtain ⟨hi, hai⟩ := List.getElem?_eq_some_iff.mp ha
          obtain ⟨hi1, hbi⟩ := List.getElem?_eq_some_iff.mp hb
          have hpw := List.pairwise_iff_getElem.mp hstrict
          refine ⟨?_, ?_, rfl⟩
          · rw [← hai, ← hbi]
            exact hpw i (i + 1) hi hi1 (Nat.lt_succ_self i)
          · intro e he hlt
            have hmem : e ∈ (sortByDate ws).reverse := hperm.mem_iff.mpr he
            obtain ⟨j, hj, hje⟩ := List.getElem_of_mem hmem
            rw [← hje, ← hbi]
            rw [← hje, ← hai] at hlt
            rcases Nat.lt_trichotomy j (i + 1) with h | h | h
            · rcases Nat.lt_or_eq_of_le (Nat.lt_succ_iff.mp h) with h2 | h2
              · exact absurd (hpw j i hj hi h2) (not_lt_of_gt hlt)
              · subst h2
                exact absurd hlt (lt_irrefl _)
            · subst h
              exact le_refl _
            · exact le_of_lt (hpw (i + 1) j hi1 hj h)
      · intro hnone
        rw [historyRows_getElem?] at hnone
        cases hb : ((sortByDate ws).reverse)[i + 1]? with
        | none => rfl
        | some b => simp [hb] at hnone
  · intro q
    unfold diffLabel
    refine ⟨?_, ?_, ?_⟩
    · constructor
      · intro h
        split_ifs at h with h1
        exact h1
      · intro h
        simp [h]
    · constructor
      · intro h
        split_ifs at h with h1 h2
        exact h2
      · intro h
        simp [h, not_lt_of_gt h]
    · constructor
      · intro h
        split_ifs at h with h1 h2
        exact le_antisymm (not_lt.mp h1) (not_lt.mp h2)
      · intro h
        simp [h]

/-- Witness for C11: two entries with distinct dates. -/
theorem weight_history_rounded_witness :
    ((renderWeightHistory [⟨"a", "2024-01-01", 80, ""⟩, ⟨"b", "2024-01-02", 81, ""⟩]).map
      HistoryRow.entry).Perm [⟨"a", "2024-01-01", 80, ""⟩, ⟨"b", "2024-01-02", 81, ""⟩] :=
  (weight_history_rounded [⟨"a", "2024-01-01", 80, ""⟩, ⟨"b", "2024-01-02", 81, ""⟩]
    (by decide)).1

/-- C11 (counterexample to the claim as stated). With 80 on 2024-01-01 and 80.04 on
2024-01-02, the row of 2024-01-02 has a value greater than the previous one, but the
delta it reports is 0.0 and its label is the unchanged one. -/
theorem weight_history_label_counterexample :
    (renderWeightHistory [⟨"a", "2024-01-01", 80, ""⟩, ⟨"b", "2024-01-02", 2001 / 25, ""⟩])[0]?
      = some ⟨⟨"b", "2024-01-02", 2001 / 25, ""⟩, some (0, DiffLabel.same)⟩ ∧
    (80 : ℚ) < 2001 / 25 := by
  have hs : sortByDate [⟨"a", "2024-01-01", 80, ""⟩, ⟨"b", "2024-01-02", 2001 / 25, ""⟩]
      = [⟨"a", "2024-01-01", 80, ""⟩, ⟨"b", "2024-01-02", 2001 / 25, ""⟩] := by
    simp +decide [sortByDate, List.insertionSort, List.orderedInsert]
  have ht : toFixed1 (2001 / 25 - 80) = 0 := by
    norm_num [toFixed1]
  refine ⟨?_, by norm_num⟩
  simp only [renderWeightHistory, hs, List.reverse_cons, List.reverse_nil, List.nil_append,
    List.singleton_append, historyRows, List.head?_cons, Option.map_some', ht]
  simp [diffLabel]

/-- C12. `getChartData(null)` is a permutation of the weight collection sorted by date
ascending (it is computed on a copy, the collection is an unchanged input); for every
positive number of days, `getChartData(n)` is, in ascending date order, exactly the
entries dated on or after the cutoff string, and it is a suffix of
`getChartData(null)`. -/
theorem chart_data_range (ws : List WeightEntry) (cutStr : String) :
    (getChartData ws none cutStr).Perm ws ∧
    (getChartData ws none cutStr).Pairwise (fun a b => a.date ≤ b.date) ∧
    (∀ n : ℤ, 0 < n →
      (getChartData ws (some n) cutStr).Pairwise (fun a b => a.date ≤ b.date) ∧
      (getChartData ws (some n) cutStr).Perm (ws.filter (fun w => decide (cutStr ≤ w.date))) ∧
      (∀ e, e ∈ getChartData ws (some n) cutStr ↔ e ∈ ws ∧ cutStr ≤ e.date) ∧
      List.IsSuffix (getChartData ws (some n) cutStr) (getChartData ws none cutStr)) := by
  refine ⟨sortByDate_perm ws, sortByDate_sorted ws, ?_⟩
  intro n hn
  have h0 : n ≠ 0 := ne_of_gt hn
  have hdef : getChartData ws (some n) cutStr
      = (sortByDate ws).filter (fun w => decide (cutStr ≤ w.date)) := by
    simp [getChartData, h0]
  rw [hdef]
  refine ⟨(sortByDate_sorted ws).filter _, (sortByDate_perm ws).filter _, ?_,
    filter_ge_suffix cutStr _ (sortByDate_sorted ws)⟩
  intro e
  rw [List.mem_filter, (sortByDate_perm ws).mem_iff]
  simp

/-- Witness for C12: a range of 30 days on two entries, one before the cutoff. -/
theorem chart_data_range_witness :
    List.IsSuffix
      (getChartData [⟨"b", "2024-01-02", 81, ""⟩, ⟨"a", "2023-01-01", 80, ""⟩] (some 30)
        "2023-12-15")
      (getChartData [⟨"b", "2024-01-02", 81, ""⟩, ⟨"a", "2023-01-01", 80, ""⟩] none
        "2023-12-15") :=
  ((chart_data_range [⟨"b", "2024-01-02", 81, ""⟩, ⟨"a", "2023-01-01", 80, ""⟩]
    "2023-12-15").2.2 30 (by decide)).2.2.2

/-- C18. The list that `renderWorkoutHistory` renders is a permutation of the workouts
collection with non-increasing dates in which sessions of the same date keep the
relative order they have in the collection; it is computed on a copy, the collection
is an unchanged input. -/
theorem session_history_order (ws : List Workout) :
    (sortWorkoutsDesc ws).Perm ws ∧
    (sortWorkoutsDesc ws).Pairwise (fun a b => b.date ≤ a.date) ∧
    (∀ a b : Workout, a.date = b.date → List.Sublist [a, b] ws →
      List.Sublist [a, b] (sortWorkoutsDesc ws)) ∧
    (∀ d : String, (sortWorkoutsDesc ws).filter (fun x => x.date == d)
      = ws.filter (fun x => x.date == d)) := by
  haveI : IsTotal Workout (fun a b => b.date ≤ a.date) := ⟨fun a b => le_total b.date a.date⟩
  haveI : IsTrans Workout (fun a b => b.date ≤ a.date) :=
    ⟨fun a b c h1 h2 => le_trans h2 h1⟩
  refine ⟨List.perm_insertionSort _ ws,
    List.sorted_insertionSort (fun a b : Workout => b.date ≤ a.date) ws, ?_, ?_⟩
  · intro a b hab hsub
    exact List.pair_sublist_insertionSort (le_of_eq hab.symm) hsub
  · intro d
    apply insertionSort_filter_stable
    intro a b ha hb
    have h1 : a.date = d := by simpa using ha
    have h2 : b.date = d := by simpa using hb
    rw [h1, h2]

/-- Witness for C18: two sessions of the same day stay in insertion order. -/
theorem session_history_order_witness :
    List.Sublist
      [(⟨"1", "2024-01-02", "A", "", some SessionType.rest, [], none, none, none⟩ : Workout),
       ⟨"2", "2024-01-02", "B", "", some SessionType.rest, [], none, none, none⟩]
      (sortWorkoutsDesc
        [⟨"1", "2024-01-02", "A", "", some SessionType.rest, [], none, none, none⟩,
         ⟨"2", "2024-01-02", "B", "", some SessionType.rest, [], none, none, none⟩]) :=
  (session_history_order
    [⟨"1", "2024-01-02", "A", "", some SessionType.rest, [], none, none, none⟩,
     ⟨"2", "2024-01-02", "B", "", some SessionType.rest, [], none, none, none⟩]).2.2.1
    _ _ rfl (List.Sublist.refl _)

/-! ## Run sessions and pace parsing -/

/-- C13 (the code at a failing input). With the date 2024-01-01, the duration `-30` and
the pace `5:00`, the run branch of the workout form stores a run session with duration
-30 and distance -6, while `updateRunPreview`, which tests `dur > 0`, shows nothing for
the same inputs. -/
theorem run_negative_duration_stored :
    (workoutFormSubmit
        { state := { weights := [], mealPlans := [], workouts := [], wplans := [] },
          storage := fun _ => none, session := none, sessionTemp := some "u@x.it" }
        SessionType.run "id1" "2024-01-01" "" "" "-30" "5:00" []).state.workouts
      = [⟨"id1", "2024-01-01", "Corsa", "", some SessionType.run, [], some (-30), some 5,
          some (-6)⟩] ∧
    updateRunPreview "-30" "5:00" = none := by
  constructor <;> decide!

theorem pushWorkout_workouts (w : World) (x : Workout) :
    (pushWorkout w x).state.workouts = w.state.workouts ++ [x] := by
  simp [pushWorkout, save_state]

theorem toFixed2_spec (x : ℚ) :
    (∃ k : ℤ, toFixed2 x = (k : ℚ) / 100) ∧ |toFixed2 x - x| ≤ 1 / 200 := by
  unfold toFixed2
  split_ifs with h
  · refine ⟨⟨⌊x * 100 + 1 / 2⌋, rfl⟩, ?_⟩
    have h1 := Int.floor_le (x * 100 + 1 / 2)
    have h2 := Int.lt_floor_add_one (x * 100 + 1 / 2)
    rw [abs_le]
    constructor <;> linarith
  · refine ⟨⟨-⌊-x * 100 + 1 / 2⌋, by push_cast; ring⟩, ?_⟩
    have h1 := Int.floor_le (-x * 100 + 1 / 2)
    have h2 := Int.lt_floor_add_one (-x * 100 + 1 / 2)
    rw [abs_le]
    constructor <;> linarith

theorem no_colon_jsTrim (s : String) (h : ':' ∉ s.data) : ':' ∉ (jsTrim s).data := by
  unfold jsTrim
  simp only
  intro hmem
  rw [List.mem_reverse] at hmem
  have h1 := (List.dropWhile_sublist isJsSpace).subset hmem
  rw [List.mem_reverse] at h1
  exact h ((List.dropWhile_sublist isJsSpace).subset h1)

theorem parsePace_no_colon (s : String) (h : ':' ∉ s.data) :
    parsePace s =
      if s = "" then none
      else
        match parseFloat s with
        | none => none
        | some n => if n ≤ 0 then none else some n := by
  unfold parsePace
  rw [splitOnChar_no_sep ':' _ (no_colon_jsTrim s h)]

/-- C14 (counterexample to the claim as stated). `5:30:10` and `x:30` are neither a
minutes:seconds pair nor a positive decimal, but `parsePace` does not return `null`
for them: it returns 5 and 0.5. -/
theorem parse_pace_lenient_counterexample :
    parsePace "5:30:10" = some 5 ∧ parsePace "x:30" = some (1 / 2) := by
  constructor <;> decide!

/-- C14 (as amended). For all decimal numerals `dm` and `ds`, `parsePace` of `dm:ds`
is minutes + seconds / 60 unless both are zero, and `null` when both are zero, so
`5:30` gives 5.5; for every string without a colon in which `parseFloat` reads a number
`n > 0`, `parsePace` returns `n`, so `6` gives 6; and `parsePace` returns `null` for the
empty string, for `0:00` and for every string without a colon in which `parseFloat`
reads no number or a number not greater than 0. -/
theorem parse_pace_amended :
    (∀ dm ds : List Char, dm ≠ [] → ds ≠ [] →
      (∀ c ∈ dm, '0' ≤ c ∧ c ≤ '9') → (∀ c ∈ ds, '0' ≤ c ∧ c ≤ '9') →
      parsePace (String.mk (dm ++ ':' :: ds)) =
        if numeralValue dm = 0 ∧ numeralValue ds = 0 then none
        else some ((numeralValue dm : ℚ) + (numeralValue ds : ℚ) / 60)) ∧
    parsePace "5:30" = some (11 / 2) ∧
    (∀ (s : String) (n : ℚ), ':' ∉ s.data → parseFloat s = some n → 0 < n →
      parsePace s = some n) ∧
    parsePace "6" = some 6 ∧
    parsePace "" = none ∧
    parsePace "0:00" = none ∧
    (∀ s : String, ':' ∉ s.data →
      (parseFloat s = none ∨ ∃ n, parseFloat s = some n ∧ n ≤ 0) → parsePace s = none) := by
  refine ⟨?_, by decide!, ?_, by decide!, by decide!, by decide!, ?_⟩
  · intro dm ds hm hs h1 h2
    exact parsePace_numerals dm ds hm hs h1 h2
  · intro s n hc hn hpos
    have hne : s ≠ "" := by
      rintro rfl
      simp [parseFloat, digitPrefix] at hn
    rw [parsePace_no_colon s hc, if_neg hne, hn]
    simp [not_le.mpr hpos]
  · intro s hc h
    rw [parsePace_no_colon s hc]
    split_ifs
    · rfl
    · rcases h with h | ⟨n, hn, hle⟩
      · rw [h]
      · rw [hn]
        simp [hle]

/-- Witness for C14: the numeral pair `12:05` gives 12 + 5/60. -/
theorem parse_pace_amended_witness :
    parsePace "12:05" =
      if numeralValue ['1', '2'] = 0 ∧ numeralValue ['0', '5'] = 0 then none
      else some ((numeralValue ['1', '2'] : ℚ) + (numeralValue ['0', '5'] : ℚ) / 60) :=
  parse_pace_amended.1 ['1', '2'] ['0', '5'] (by decide) (by decide) (by decide) (by decide)

/-- C15. In run mode, whatever the inputs, the workout form either stores nothing or
appends exactly one run session whose `duration` is the number read from the duration
input, whose `pace` is `parsePace` of the pace input and whose `distance` is duration
divided by pace rounded to two decimals (a multiple of 1/100 within 1/200 of the
quotient); with a date, the duration `30` and the pace `5:00` the stored distance is
exactly 6. -/
theorem run_distance (w : World)
    (newId dateInput nameInput notesInput runDuration runSpeed : String)
    (rows : List ExerciseRow) :
    ((workoutFormSubmit w SessionType.run newId dateInput nameInput notesInput runDuration
        runSpeed rows).state.workouts = w.state.workouts ∨
      ∃ (d p : ℚ) (x : Workout), parseFloat runDuration = some d ∧
        parsePace runSpeed = some p ∧ p ≠ 0 ∧
        (workoutFormSubmit w SessionType.run newId dateInput nameInput notesInput runDuration
          runSpeed rows).state.workouts = w.state.workouts ++ [x] ∧
        x.type = some SessionType.run ∧ x.duration = some d ∧ x.pace = some p ∧
        x.distance = some (toFixed2 (d / p)) ∧
        (∃ k : ℤ, toFixed2 (d / p) = (k : ℚ) / 100) ∧ |toFixed2 (d / p) - d / p| ≤ 1 / 200) ∧
    (dateInput ≠ "" →
      ∃ x : Workout,
        (workoutFormSubmit w SessionType.run newId dateInput nameInput notesInput "30" "5:00"
          rows).state.workouts = w.state.workouts ++ [x] ∧
        x.duration = some 30 ∧ x.pace = some 5 ∧ x.distance = some 6) := by
  constructor
  · unfold workoutFormSubmit
    simp only
    split_ifs with hdate
    · exact Or.inl rfl
    · cases hd : parseFloat runDuration with
      | none => exact Or.inl rfl
      | some d =>
        cases hp : parsePace runSpeed with
        | none => exact Or.inl rfl
        | some p =>
          simp only
          split_ifs with h0
          · exact Or.inl rfl
          · have hp0 : p ≠ 0 := fun e => h0 (Or.inr e)
            refine Or.inr ⟨d, p, _, rfl, rfl, hp0, pushWorkout_workouts _ _, rfl, rfl, rfl, rfl,
              (toFixed2_spec _).1, (toFixed2_spec _).2⟩
  · intro hdate
    have hd : parseFloat "30" = some 30 := by decide!
    have hp : parsePace "5:00" = some 5 := by decide!
    have ht : toFixed2 (30 / 5) = 6 := by decide!
    have h0 : ¬ ((30 : ℚ) = 0 ∨ (5 : ℚ) = 0) := by norm_num
    unfold workoutFormSubmit
    simp only [if_neg hdate, hd, hp, if_neg h0]
    exact ⟨_, pushWorkout_workouts _ _, rfl, rfl, by simp [runSession, ht]⟩

/-- Witness for C15: duration `30` and pace `5:00` on 2024-01-01. -/
theorem run_distance_witness :
    ∃ x : Workout,
      (workoutFormSubmit
          { state := { weights := [], mealPlans := [], workouts := [], wplans := [] },
            storage := fun _ => none, session := none, sessionTemp := some "u@x.it" }
          SessionType.run "id1" "2024-01-01" "" "" "30" "5:00" []).state.workouts
        = [] ++ [x] ∧
      x.duration = some 30 ∧ x.pace = some 5 ∧ x.distance = some 6 :=
  (run_distance
    { state := { weights := [], mealPlans := [], workouts := [], wplans := [] },
      storage := fun _ => none, session := none, sessionTemp := some "u@x.it" }
    "id1" "2024-01-01" "" "" "30" "5:00" []).2 (by decide)

/-! ## Gym sessions and exercise construction -/

theorem buildExercise_names (rows : List ExerciseRow) :
    (rows.filterMap buildExercise).map Exercise.name
      = (rows.map (fun r => jsTrim r.name)).filter (fun n => n != "") := by
  induction rows with
  | nil => rfl
  | cons r rs ih =>
    by_cases h : jsTrim r.name = ""
    · have hb : buildExercise r = none := by simp [buildExercise, h]
      simp [List.filterMap_cons, hb, h, ih]
    · have hb : ∃ ex, buildExercise r = some ex ∧ ex.name = jsTrim r.name := by
        simp [buildExercise, h]
      obtain ⟨ex, hex, hn⟩ := hb
      simp [List.filterMap_cons, hex, h, hn, ih]

theorem buildExercise_nil_iff (rows : List ExerciseRow) :
    rows.filterMap buildExercise = [] ↔ ∀ r ∈ rows, jsTrim r.name = "" := by
  rw [List.filterMap_eq_nil_iff]
  constructor
  · intro h r hr
    by_contra hne
    have := h r hr
    simp [buildExercise, hne] at this
  · intro h r hr
    simp [buildExercise, h r hr]

/-- C16. With a date (the gym branch is reached only then), the gym branch of the
workout form rejects the submission and returns the world as it was whenever the
trimmed session name is empty or no exercise row has a non-empty trimmed name;
otherwise it appends exactly one session of type gym, leaving the existing sessions
unchanged, whose exercises are built from the named rows in form order, the rows with
an empty name being dropped. -/
theorem gym_session_validation (w : World)
    (newId dateInput nameInput notesInput runDuration runSpeed : String)
    (rows : List ExerciseRow) (hdate : dateInput ≠ "") :
    ((jsTrim nameInput = "" ∨ ∀ r ∈ rows, jsTrim r.name = "") →
      workoutFormSubmit w SessionType.gym newId dateInput nameInput notesInput runDuration
        runSpeed rows = w) ∧
    (jsTrim nameInput ≠ "" → (∃ r ∈ rows, jsTrim r.name ≠ "") →
      (workoutFormSubmit w SessionType.gym newId dateInput nameInput notesInput runDuration
        runSpeed rows).state.workouts
        = w.state.workouts ++
          [{ id := newId, date := dateInput, name := jsTrim nameInput,
             notes := jsTrim notesInput, type := some SessionType.gym,
             exercises := rows.filterMap buildExercise, duration := none, pace := none,
             distance := none }]) ∧
    (rows.filterMap buildExercise).map Exercise.name
      = (rows.map (fun r => jsTrim r.name)).filter (fun n => n != "") := by
  refine ⟨?_, ?_, buildExercise_names rows⟩
  · intro h
    have h2 : jsTrim nameInput = "" ∨ (rows.filterMap buildExercise).length = 0 := by
      rcases h with h | h
      · exact Or.inl h
      · exact Or.inr (by rw [List.length_eq_zero]; exact (buildExercise_nil_iff rows).mpr h)
    unfold workoutFormSubmit
    simp only [if_neg hdate, if_pos h2]
  · intro hname hrow
    have h2 : ¬ (jsTrim nameInput = "" ∨ (rows.filterMap buildExercise).length = 0) := by
      rintro (h | h)
      · exact hname h
      · obtain ⟨r, hr, hne⟩ := hrow
        rw [List.length_eq_zero] at h
        exact hne ((buildExercise_nil_iff rows).mp h r hr)
    unfold workoutFormSubmit
    simp only [if_neg hdate, if_neg h2]
    exact pushWorkout_workouts _ _

/-- Witness for C16: one named row and one empty row under the session name `Push`. -/
theorem gym_session_validation_witness :
    (workoutFormSubmit
        { state := { weights := [], mealPlans := [], workouts := [], wplans := [] },
          storage := fun _ => none, session := none, sessionTemp := some "u@x.it" }
        SessionType.gym "id1" "2024-01-01" "Push" "" "" ""
        [⟨"Panca", "4", "8", "80", "", "", "", false, false, []⟩,
         ⟨"", "3", "10", "20", "", "", "", false, false, []⟩]).state.workouts
      = [] ++
        [{ id := "id1", date := "2024-01-01", name := jsTrim "Push", notes := jsTrim "",
           type := some SessionType.gym,
           exercises := List.filterMap buildExercise
             [⟨"Panca", "4", "8", "80", "", "", "", false, false, []⟩,
              ⟨"", "3", "10", "20", "", "", "", false, false, []⟩],
           duration := none, pace := none, distance := none }] :=
  (gym_session_validation
    { state := { weights := [], mealPlans := [], workouts := [], wplans := [] },
      storage := fun _ => none, session := none, sessionTemp := some "u@x.it" }
    "id1" "2024-01-01" "Push" "" "" ""
    [⟨"Panca", "4", "8", "80", "", "", "", false, false, []⟩,
     ⟨"", "3", "10", "20", "", "", "", false, false, []⟩] (by decide)).2.1
    (by decide) ⟨_, List.mem_cons_self _ _, by decide⟩

theorem perSetWeights_pos (csv : String) : ∀ x ∈ perSetWeights csv, 0 < x := by
  intro x hx
  unfold perSetWeights at hx
  rw [List.mem_filterMap] at hx
  obtain ⟨v, _, hv⟩ := hx
  cases hp : parseFloat (jsTrim (String.mk v)) with
  | none => simp [hp] at hv
  | some q =>
    simp only [hp] at hv
    split_ifs at hv with hq
    cases hv
    exact hq

theorem buildExercise_load (r : ExerciseRow) (ex : Exercise) (h : buildExercise r = some ex) :
    ¬ (ex.weight.isSome = true ∧ ex.weights.isSome = true) ∧
    (∀ l, ex.weights = some l → l ≠ [] ∧ ∀ x ∈ l, 0 < x) ∧
    (r.perSets = true → ex.weight = none) ∧
    (r.perSets = true → perSetWeights r.weightsCsv = [] → ex.weights = none) ∧
    (r.perSets = false → ex.weights = none) := by
  by_cases hn : jsTrim r.name = ""
  · simp [buildExercise, hn] at h
  · unfold buildExercise at h
    rw [if_neg hn] at h
    cases hps : r.perSets with
    | false =>
      simp only [hps, Bool.false_eq_true, if_false, Option.some.injEq] at h
      subst h
      simp
    | true =>
      simp only [hps, if_true, Option.some.injEq] at h
      subst h
      refine ⟨by simp, ?_, fun _ => rfl, ?_, by simp⟩
      · intro l hl
        simp only at hl
        split_ifs at hl with hlen
        simp only [Option.some.injEq] at hl
        subst hl
        exact ⟨fun e => hlen (by rw [e]; rfl), perSetWeights_pos _⟩
      · intro _ hnil
        simp [hnil]

theorem mem_updateFirst {α : Type} (p : α → Bool) (f : α → α) (l : List α) (x : α)
    (h : x ∈ updateFirst p f l) : x ∈ l ∨ ∃ y ∈ l, x = f y := by
  induction l with
  | nil => simp [updateFirst] at h
  | cons a as ih =>
    unfold updateFirst at h
    split_ifs at h
    · rcases List.mem_cons.mp h with rfl | h
      · exact Or.inr ⟨a, by simp, rfl⟩
      · exact Or.inl (List.mem_cons_of_mem _ h)
    · rcases List.mem_cons.mp h with rfl | h
      · exact Or.inl (by simp)
      · rcases ih h with h | ⟨y, hy, hxy⟩
        · exact Or.inl (List.mem_cons_of_mem _ h)
        · exact Or.inr ⟨y, List.mem_cons_of_mem _ hy, hxy⟩

/-- C17. Every exercise built from a form row, by the workout form or by the plan form,
never has `weight` and `weights` both present; a present `weights` is a non-empty list
of numbers greater than 0; in per-set mode the single `weight` is absent, and a per-set
input that yields no valid entry is stored as absent. This holds for every exercise of
a session that the workout form adds and of a plan that the plan form adds or
rewrites. -/
theorem exercise_load_invariant (w : World) (rows : List ExerciseRow) :
    (∀ r ex, buildExercise r = some ex →
      ¬ (ex.weight.isSome = true ∧ ex.weights.isSome = true) ∧
      (∀ l, ex.weights = some l → l ≠ [] ∧ ∀ x ∈ l, 0 < x) ∧
      (r.perSets = true → ex.weight = none) ∧
      (r.perSets = true → perSetWeights r.weightsCsv = [] → ex.weights = none)) ∧
    (∀ (t : SessionType) (newId dateInput nameInput notesInput runDuration runSpeed : String),
      ∀ x ∈ (workoutFormSubmit w t newId dateInput nameInput notesInput runDuration runSpeed
          rows).state.workouts, x ∉ w.state.workouts →
        ∀ ex ∈ x.exercises,
          ¬ (ex.weight.isSome = true ∧ ex.weights.isSome = true) ∧
          (∀ l, ex.weights = some l → l ≠ [] ∧ ∀ y ∈ l, 0 < y)) ∧
    (∀ (editingPlanId : Option String) (newId nameInput descInput : String),
      ∀ p ∈ (wplanFormSubmit w editingPlanId newId nameInput descInput rows).1.state.wplans,
        p ∉ w.state.wplans →
        ∀ ex ∈ p.exercises,
          ¬ (ex.weight.isSome = true ∧ ex.weights.isSome = true) ∧
          (∀ l, ex.weights = some l → l ≠ [] ∧ ∀ y ∈ l, 0 < y)) := by
  have hrows : ∀ ex ∈ rows.filterMap buildExercise,
      ¬ (ex.weight.isSome = true ∧ ex.weights.isSome = true) ∧
      (∀ l, ex.weights = some l → l ≠ [] ∧ ∀ y ∈ l, 0 < y) := by
    intro ex hex
    obtain ⟨r, _, hr⟩ := List.mem_filterMap.mp hex
    exact ⟨(buildExercise_load r ex hr).1, (buildExercise_load r ex hr).2.1⟩
  refine ⟨?_, ?_, ?_⟩
  · intro r ex h
    obtain ⟨h1, h2, h3, h4, _⟩ := buildExercise_load r ex h
    exact ⟨h1, h2, h3, h4⟩
  · intro t newId dateInput nameInput notesInput runDuration runSpeed x hx hnew ex hex
    by_cases hdate : dateInput = ""
    · simp only [workoutFormSubmit, if_pos hdate] at hx
      exact absurd hx hnew
    · cases t with
      | rest =>
        simp only [workoutFormSubmit, if_neg hdate, pushWorkout_workouts, List.mem_append,
          List.mem_singleton] at hx
        rcases hx with hx | rfl
        · exact absurd hx hnew
        · simp at hex
      | run =>
        simp only [workoutFormSubmit, if_neg hdate] at hx
        cases hd : parseFloat runDuration with
        | none =>
          simp only [hd] at hx
          exact absurd hx hnew
        | some d =>
          cases hp : parsePace runSpeed with
          | none =>
            simp only [hd, hp] at hx
            exact absurd hx hnew
          | some pc =>
            simp only [hd, hp] at hx
            by_cases h0 : d = 0 ∨ pc = 0
            · rw [if_pos h0] at hx
              exact absurd hx hnew
            · rw [if_neg h0] at hx
              simp only [pushWorkout_workouts, List.mem_append, List.mem_singleton] at hx
              rcases hx with hx | rfl
              · exact absurd hx hnew
              · simp [runSession] at hex
      | gym =>
        simp only [workoutFormSubmit, if_neg hdate] at hx
        by_cases hrej : jsTrim nameInput = "" ∨ (rows.filterMap buildExercise).length = 0
        · rw [if_pos hrej] at hx
          exact absurd hx hnew
        · rw [if_neg hrej] at hx
          simp only [pushWorkout_workouts, List.mem_append, List.mem_singleton] at hx
          rcases hx with hx | rfl
          · exact absurd hx hnew
          · exact hrows ex hex
  · intro editingPlanId newId nameInput descInput p hp hnew ex hex
    by_cases hrej : jsTrim nameInput = "" ∨ (rows.filterMap buildExercise).length = 0
    · simp only [wplanFormSubmit, if_pos hrej] at hp
      exact absurd hp hnew
    · simp only [wplanFormSubmit, if_neg hrej] at hp
      by_cases hed : truthyStr editingPlanId = true
      · rw [if_pos hed] at hp
        cases editingPlanId with
        | none => exact absurd hp hnew
        | some pid =>
          simp only [save_state] at hp
          rcases mem_updateFirst _ _ _ _ hp with hp | ⟨y, _, rfl⟩
          · exact absurd hp hnew
          · exact hrows ex hex
      · rw [if_neg hed] at hp
        simp only [save_state, List.mem_append, List.mem_singleton] at hp
        rcases hp with hp | rfl
        · exact absurd hp hnew
        · exact hrows ex hex

/-- Witness for C17: a per-set row with the input `32.5, x, 0, 35` gives the list
32.5, 35 and no single weight. -/
theorem exercise_load_invariant_witness :
    ∀ l, (⟨"Panca", some 4, Reps.count 8, none, some [65 / 2, 35], "", "", []⟩ : Exercise).weights
        = some l → l ≠ [] ∧ ∀ x ∈ l, 0 < x :=
  ((exercise_load_invariant
      { state := { weights := [], mealPlans := [], workouts := [], wplans := [] },
        storage := fun _ => none, session := none, sessionTemp := some "u@x.it" } []).1
    ⟨"Panca", "4", "8", "80", "32.5, x, 0, 35", "", "", false, true, []⟩
    ⟨"Panca", some 4, Reps.count 8, none, some [65 / 2, 35], "", "", []⟩ (by decide!)).2.1

/-! ## Plan form -/

/-- C19 (counterexample to the claim as stated). A plan `p1` is being edited
(`editingPlanId` is `p1`) and is deleted before the form is submitted: the submission
with the name `A` and one named exercise is accepted, but the plans collection is empty
afterwards, so it holds no plan with that name. -/
theorem plan_save_missing_id_counterexample :
    (wplanFormSubmit
        (deleteWplan
          { state := { weights := [], mealPlans := [], workouts := [],
                       wplans := [⟨"p1", "Old", "", []⟩] },
            storage := fun _ => none, session := none, sessionTemp := some "u@x.it" } "p1")
        (some "p1") "n1" "A" ""
        [⟨"Squat", "4", "8", "80", "", "", "", false, false, []⟩]).1.state.wplans = [] ∧
    jsTrim "A" ≠ "" ∧
    List.filterMap buildExercise [⟨"Squat", "4", "8", "80", "", "", "", false, false, []⟩] ≠ [] := by
  refine ⟨?_, by decide, by decide!⟩
  decide!

/-- C19 (as amended). When the trimmed name or the list of named exercises is empty, the
plan form rejects the submission and returns the world as it was. Otherwise: with no
`editingPlanId` active, exactly one plan with that name, description and exercise list
is appended; with an `editingPlanId` that a plan carries, the first plan with that id
gets that name, description and exercise list and keeps its id, the collection keeps
its length and order and every other plan is unchanged; with an `editingPlanId` that no
plan carries, the collection is unchanged. -/
theorem plan_save_amended (w : World) (editingPlanId : Option String)
    (newId nameInput descInput : String) (rows : List ExerciseRow) :
    ((jsTrim nameInput = "" ∨ rows.filterMap buildExercise = []) →
      (wplanFormSubmit w editingPlanId newId nameInput descInput rows).1 = w) ∧
    (jsTrim nameInput ≠ "" → rows.filterMap buildExercise ≠ [] →
      (truthyStr editingPlanId = false →
        (wplanFormSubmit w editingPlanId newId nameInput descInput rows).1.state.wplans
          = w.state.wplans ++
            [{ id := newId, name := jsTrim nameInput, desc := jsTrim descInput,
               exercises := rows.filterMap buildExercise }]) ∧
      (∀ pid, editingPlanId = some pid → pid ≠ "" →
        (∀ pre p post, w.state.wplans = pre ++ p :: post → p.id = pid →
          (∀ q ∈ pre, q.id ≠ pid) →
          (wplanFormSubmit w editingPlanId newId nameInput descInput rows).1.state.wplans
            = pre ++ { id := p.id, name := jsTrim nameInput, desc := jsTrim descInput,
                       exercises := rows.filterMap buildExercise } :: post) ∧
        ((∀ q ∈ w.state.wplans, q.id ≠ pid) →
          (wplanFormSubmit w editingPlanId newId nameInput descInput rows).1.state.wplans
            = w.state.wplans))) := by
  constructor
  · intro h
    have h2 : jsTrim nameInput = "" ∨ (rows.filterMap buildExercise).length = 0 := by
      rcases h with h | h
      · exact Or.inl h
      · exact Or.inr (by rw [h]; rfl)
    simp only [wplanFormSubmit, if_pos h2]
  · intro hname hex
    have h2 : ¬ (jsTrim nameInput = "" ∨ (rows.filterMap buildExercise).length = 0) := by
      rintro (h | h)
      · exact hname h
      · exact hex (List.length_eq_zero.mp h)
    constructor
    · intro hed
      have hed2 : ¬ (truthyStr editingPlanId = true) := by simp [hed]
      simp only [wplanFormSubmit, if_neg h2, if_neg hed2, save_state]
    · intro pid hpid hne
      subst hpid
      have hed : truthyStr (some pid) = true := by simp [truthyStr, hne]
      constructor
      · intro pre p post hsplit hp hpre
        simp only [wplanFormSubmit, if_neg h2, if_pos hed, save_state]
        have hfind : w.state.wplans.find? (fun q => q.id == pid) = some p := by
          rw [hsplit, List.find?_append]
          have hnone : pre.find? (fun q => q.id == pid) = none := by
            rw [List.find?_eq_none]
            intro q hq
            simpa using hpre q hq
          rw [hnone]
          simp [hp]
        obtain ⟨pre2, post2, h1, h3, _, h5⟩ :=
          updateFirst_split (fun q => q.id == pid)
            (fun q => { q with name := jsTrim nameInput, desc := jsTrim descInput,
                               exercises := rows.filterMap buildExercise })
            w.state.wplans p hfind
        rw [h5]
        have hpre2 : ∀ q ∈ pre2, q.id ≠ pid := by
          intro q hq e
          have := h3 q hq
          simp [e] at this
        have key : pre2 = pre ∧ post2 = post := by
          have hl := h1.symm.trans hsplit
          have := List.append_eq_append_iff.mp hl
          rcases this with ⟨a, ha, hb⟩ | ⟨a, ha, hb⟩
          · cases a with
            | nil => simp at ha hb; exact ⟨ha.symm, hb⟩
            | cons x xs =>
              simp only [List.cons_append, List.cons.injEq] at hb
              have hx : x = p := hb.1.symm
              have : x ∈ pre := by rw [ha]; simp
              exact absurd (hx ▸ hp) (hx ▸ hpre x this)
          · cases a with
            | nil => simp at ha hb; exact ⟨ha, hb.symm⟩
            | cons x xs =>
              simp only [List.cons_append, List.cons.injEq] at hb
              have hx : x = p := hb.1.symm
              have : x ∈ pre2 := by rw [ha]; simp
              exact absurd (hx ▸ hp) (hx ▸ hpre2 x this)
        rw [key.1, key.2]
      · intro hnone
        simp only [wplanFormSubmit, if_neg h2, if_pos hed, save_state]
        have : ∀ l : List WorkoutPlan, (∀ q ∈ l, q.id ≠ pid) →
            updateFirst (fun q => q.id == pid)
              (fun q => { q with name := jsTrim nameInput, desc := jsTrim descInput,
                                 exercises := rows.filterMap buildExercise }) l = l := by
          intro l hl
          induction l with
          | nil => rfl
          | cons a as ih =>
            have ha : (a.id == pid) = false := by simpa using hl a (by simp)
            simp only [updateFirst, ha, Bool.false_eq_true, if_false]
            rw [ih (fun q hq => hl q (List.mem_cons_of_mem _ hq))]
        exact this _ hnone

/-- Witness for C19: editing the plan `p1`, which exists, rewrites it in place. -/
theorem plan_save_amended_witness :
    (wplanFormSubmit
        { state := { weights := [], mealPlans := [], workouts := [],
                     wplans := [⟨"p1", "Old", "", []⟩] },
          storage := fun _ => none, session := none, sessionTemp := some "u@x.it" }
        (some "p1") "n1" "A" ""
        [⟨"Squat", "4", "8", "80", "", "", "", false, false, []⟩]).1.state.wplans
      = [] ++ { id := "p1", name := jsTrim "A", desc := jsTrim "",
                exercises := List.filterMap buildExercise
                  [⟨"Squat", "4", "8", "80", "", "", "", false, false, []⟩] } :: [] :=
  ((plan_save_amended
      { state := { weights := [], mealPlans := [], workouts := [],
                   wplans := [⟨"p1", "Old", "", []⟩] },
        storage := fun _ => none, session := none, sessionTemp := some "u@x.it" }
      (some "p1") "n1" "A" ""
      [⟨"Squat", "4", "8", "80", "", "", "", false, false, []⟩]).2 (by decide) (by decide!)).2
    "p1" rfl (by decide) |>.1 [] ⟨"p1", "Old", "", []⟩ [] rfl rfl (by simp)

/-! ## Registration -/

theorem toDigitsCore_ne_nil (b fuel n : ℕ) (ds : List Char) (h : ds ≠ []) :
    Nat.toDigitsCore b fuel n ds ≠ [] := by
  induction fuel generalizing n ds with
  | zero => simpa [Nat.toDigitsCore] using h
  | succ f ih =>
    simp only [Nat.toDigitsCore]
    split_ifs
    · simp
    · exact ih _ _ (by simp)

theorem toDigits_ne_nil (b n : ℕ) : Nat.toDigits b n ≠ [] := by
  unfold Nat.toDigits
  simp only [Nat.toDigitsCore]
  split_ifs
  · simp
  · exact toDigitsCore_ne_nil _ _ _ _ (by simp)

theorem hashPw_ne_empty (pw : String) : hashPw pw ≠ "" := by
  unfold hashPw toString16
  split_ifs
  · intro e
    have := congrArg String.data e
    simp at this
  · intro e
    have := congrArg String.data e
    exact toDigits_ne_nil _ _ this

theorem register_taken (accounts : Accounts) (w : World) (emailInput pw : String)
    (remember : Bool) (h6 : 6 ≤ (utf16Units pw).length)
    (hex : truthyStr (accounts (toLowerCase (jsTrim emailInput))) = true) :
    (registerFormSubmit accounts w emailInput pw remember).error
      = some AuthError.emailTaken := by
  have h6n : ¬ ((utf16Units pw).length < 6) := not_lt.mpr h6
  simp [registerFormSubmit, h6n, hex]

/-- C20. With `email` the trimmed, lower-cased e-mail input: the register submission
fails and leaves the account table and the world unchanged if the password has fewer
than 6 UTF-16 code units or if the table already holds an entry for `email`;
otherwise it adds the mapping `email -> hashPw(password)`, leaves the entry of every
other e-mail unchanged and establishes a session for `email` (the durable pointer when
`remember` is set, the tab-scoped one otherwise). After a registration, a second one
whose input differs from the first only in a way that trimming and lower-casing remove
(for instance letter case) fails as already registered. -/
theorem register_contract (accounts : Accounts) (w : World) (emailInput pw : String)
    (remember : Bool) :
    ((utf16Units pw).length < 6 →
      (registerFormSubmit accounts w emailInput pw remember).accounts = accounts ∧
      (registerFormSubmit accounts w emailInput pw remember).world = w ∧
      (registerFormSubmit accounts w emailInput pw remember).error
        = some AuthError.weakPassword) ∧
    (6 ≤ (utf16Units pw).length →
      truthyStr (accounts (toLowerCase (jsTrim emailInput))) = true →
      (registerFormSubmit accounts w emailInput pw remember).accounts = accounts ∧
      (registerFormSubmit accounts w emailInput pw remember).world = w ∧
      (registerFormSubmit accounts w emailInput pw remember).error
        = some AuthError.emailTaken) ∧
    (6 ≤ (utf16Units pw).length →
      truthyStr (accounts (toLowerCase (jsTrim emailInput))) = false →
      (registerFormSubmit accounts w emailInput pw remember).accounts
          (toLowerCase (jsTrim emailInput)) = some (hashPw pw) ∧
      (∀ k, k ≠ toLowerCase (jsTrim emailInput) →
        (registerFormSubmit accounts w emailInput pw remember).accounts k = accounts k) ∧
      (registerFormSubmit accounts w emailInput pw remember).error = none ∧
      (registerFormSubmit accounts w emailInput pw remember).world
        = doLogin w (toLowerCase (jsTrim emailInput)) remember ∧
      (remember = true →
        getCurrentUser (registerFormSubmit accounts w emailInput pw remember).world
          = some (toLowerCase (jsTrim emailInput))) ∧
      (remember = false →
        (registerFormSubmit accounts w emailInput pw remember).world.session = none ∧
        (registerFormSubmit accounts w emailInput pw remember).world.sessionTemp
          = some (toLowerCase (jsTrim emailInput))) ∧
      (∀ (emailInput2 pw2 : String) (remember2 : Bool),
        toLowerCase (jsTrim emailInput2) = toLowerCase (jsTrim emailInput) →
        6 ≤ (utf16Units pw2).length →
        (registerFormSubmit (registerFormSubmit accounts w emailInput pw remember).accounts
          (registerFormSubmit accounts w emailInput pw remember).world emailInput2 pw2
          remember2).error = some AuthError.emailTaken)) := by
  refine ⟨?_, ?_, ?_⟩
  · intro h
    simp [registerFormSubmit, h]
  · intro h6 hex
    have h6n : ¬ ((utf16Units pw).length < 6) := not_lt.mpr h6
    simp [registerFormSubmit, h6n, hex]
  · intro h6 hex
    have h6n : ¬ ((utf16Units pw).length < 6) := not_lt.mpr h6
    have hexn : ¬ (truthyStr (accounts (toLowerCase (jsTrim emailInput))) = true) := by
      simp [hex]
    have hacc : (registerFormSubmit accounts w emailInput pw remember).accounts
        = fun k => if k = toLowerCase (jsTrim emailInput) then some (hashPw pw)
            else accounts k := by
      simp only [registerFormSubmit, if_neg h6n, if_neg hexn]
    have hworld : (registerFormSubmit accounts w emailInput pw remember).world
        = doLogin w (toLowerCase (jsTrim emailInput)) remember := by
      simp only [registerFormSubmit, if_neg h6n, if_neg hexn]
    refine ⟨by rw [hacc]; simp, ?_, ?_, hworld, ?_, ?_, ?_⟩
    · intro k hk
      rw [hacc]
      simp [hk]
    · simp only [registerFormSubmit, if_neg h6n, if_neg hexn]
    · intro hr
      rw [hworld, hr]
      simp [doLogin, loadUserState, getCurrentUser]
    · intro hr
      rw [hworld, hr]
      simp [doLogin, loadUserState]
    · intro emailInput2 pw2 remember2 heq h62
      have h62n : ¬ ((utf16Units pw2).length < 6) := not_lt.mpr h62
      have htaken : truthyStr ((registerFormSubmit accounts w emailInput pw remember).accounts
          (toLowerCase (jsTrim emailInput2))) = true := by
        rw [hacc, heq]
        simp [truthyStr, hashPw_ne_empty]
      exact register_taken _ _ emailInput2 pw2 remember2 h62 htaken

/-- Witness for C20: `John@X.it` registers with a seven-letter password on an empty
table; `  john@x.IT ` then fails as already registered. -/
theorem register_contract_witness :
    (registerFormSubmit
        (registerFormSubmit (fun _ => none)
          { state := { weights := [], mealPlans := [], workouts := [], wplans := [] },
            storage := fun _ => none, session := none, sessionTemp := none }
          "John@X.it" "secret1" false).accounts
        (registerFormSubmit (fun _ => none)
          { state := { weights := [], mealPlans := [], workouts := [], wplans := [] },
            storage := fun _ => none, session := none, sessionTemp := none }
          "John@X.it" "secret1" false).world
        "  john@x.IT " "another" true).error = some AuthError.emailTaken :=
  ((register_contract (fun _ => none)
      { state := { weights := [], mealPlans := [], workouts := [], wplans := [] },
        storage := fun _ => none, session := none, sessionTemp := none }
      "John@X.it" "secret1" false).2.2 (by decide) (by decide)).2.2.2.2.2.2
    "  john@x.IT " "another" true (by decide) (by decide)

/-! ## Login and logout -/

theorem register_success_entry (accounts : Accounts) (w : World) (emailInput pw : String)
    (remember : Bool)
    (h : (registerFormSubmit accounts w emailInput pw remember).error = none) :
    (registerFormSubmit accounts w emailInput pw remember).accounts
      (toLowerCase (jsTrim emailInput)) = some (hashPw pw) := by
  unfold registerFormSubmit at h ⊢
  by_cases h6 : (utf16Units pw).length < 6
  · simp [h6] at h
  · by_cases ht : truthyStr (accounts (toLowerCase (jsTrim emailInput))) = true
    · simp [h6, ht] at h
    · simp [h6, ht]

theorem login_not_found (accounts : Accounts) (w : World) (emailInput pw : String)
    (remember : Bool)
    (ht : truthyStr (accounts (toLowerCase (jsTrim emailInput))) = false) :
    loginFormSubmit accounts w emailInput pw remember
      = { accounts := accounts, world := w, error := some AuthError.emailNotFound } := by
  dsimp only [loginFormSubmit]
  rw [if_pos ht]

theorem login_wrong (accounts : Accounts) (w : World) (emailInput pw : String)
    (remember : Bool)
    (ht : ¬ (truthyStr (accounts (toLowerCase (jsTrim emailInput))) = false))
    (he : accounts (toLowerCase (jsTrim emailInput)) ≠ some (hashPw pw)) :
    loginFormSubmit accounts w emailInput pw remember
      = { accounts := accounts, world := w, error := some AuthError.wrongPassword } := by
  dsimp only [loginFormSubmit]
  rw [if_neg ht, if_pos he]

theorem truthy_hash (accounts : Accounts) (email pw : String)
    (he : accounts email = some (hashPw pw)) : ¬ (truthyStr (accounts email) = false) := by
  rw [he]
  simp [truthyStr, hashPw_ne_empty]

theorem login_ok (accounts : Accounts) (w : World) (emailInput pw : String)
    (remember : Bool)
    (he : accounts (toLowerCase (jsTrim emailInput)) = some (hashPw pw)) :
    loginFormSubmit accounts w emailInput pw remember
      = { accounts := accounts, world := doLogin w (toLowerCase (jsTrim emailInput)) remember,
          error := none } := by
  dsimp only [loginFormSubmit]
  rw [if_neg (truthy_hash accounts _ pw he), if_neg (not_not.mpr he)]

theorem login_error_none_iff (accounts : Accounts) (w : World) (emailInput pw : String)
    (remember : Bool) :
    (loginFormSubmit accounts w emailInput pw remember).error = none ↔
      accounts (toLowerCase (jsTrim emailInput)) = some (hashPw pw) := by
  constructor
  · intro h
    by_cases ht : truthyStr (accounts (toLowerCase (jsTrim emailInput))) = false
    · rw [login_not_found accounts w emailInput pw remember ht] at h
      cases h
    · by_cases he : accounts (toLowerCase (jsTrim emailInput)) = some (hashPw pw)
      · exact he
      · rw [login_wrong accounts w emailInput pw remember ht he] at h
        cases h
  · intro he
    rw [login_ok accounts w emailInput pw remember he]

theorem login_wrong_password (accounts : Accounts) (w : World) (emailInput pw : String)
    (remember : Bool) (h : String)
    (he : accounts (toLowerCase (jsTrim emailInput)) = some h) (hne : h ≠ "")
    (hdiff : h ≠ hashPw pw) :
    (loginFormSubmit accounts w emailInput pw remember).error
      = some AuthError.wrongPassword := by
  have ht : ¬ (truthyStr (accounts (toLowerCase (jsTrim emailInput))) = false) := by
    rw [he]
    simp [truthyStr, hne]
  have he2 : accounts (toLowerCase (jsTrim emailInput)) ≠ some (hashPw pw) := by
    rw [he]
    intro e
    exact hdiff (Option.some.inj e)
  rw [login_wrong accounts w emailInput pw remember ht he2]

/-- C21. With `email` the trimmed, lower-cased e-mail input: the login submission
establishes a session (reaches `doLogin`) if and only if the table maps `email` to
`hashPw(password)`; on a table whose entries are non-empty strings, as every entry
written by the register form is, it reports `email not found` exactly when `email` has
no entry and `wrong password` exactly when the entry differs from `hashPw(password)`;
a failed login leaves the account table and the world (session pointers, in-memory
collections, storage) unchanged; and a login after a successful registration with the
same password and an e-mail input that trims and lower-cases to the same address
succeeds. -/
theorem login_contract (accounts : Accounts) (w : World) (emailInput pw : String)
    (remember : Bool) :
    ((loginFormSubmit accounts w emailInput pw remember).error = none ↔
      accounts (toLowerCase (jsTrim emailInput)) = some (hashPw pw)) ∧
    ((loginFormSubmit accounts w emailInput pw remember).error = none →
      (loginFormSubmit accounts w emailInput pw remember).world
        = doLogin w (toLowerCase (jsTrim emailInput)) remember ∧
      (remember = true →
        getCurrentUser (loginFormSubmit accounts w emailInput pw remember).world
          = some (toLowerCase (jsTrim emailInput))) ∧
      (remember = false →
        (loginFormSubmit accounts w emailInput pw remember).world.session = none ∧
        (loginFormSubmit accounts w emailInput pw remember).world.sessionTemp
          = some (toLowerCase (jsTrim emailInput)))) ∧
    ((∀ h, accounts (toLowerCase (jsTrim emailInput)) = some h → h ≠ "") →
      ((loginFormSubmit accounts w emailInput pw remember).error
          = some AuthError.emailNotFound ↔
        accounts (toLowerCase (jsTrim emailInput)) = none) ∧
      ((loginFormSubmit accounts w emailInput pw remember).error
          = some AuthError.wrongPassword ↔
        ∃ h, accounts (toLowerCase (jsTrim emailInput)) = some h ∧ h ≠ hashPw pw)) ∧
    ((loginFormSubmit accounts w emailInput pw remember).error ≠ none →
      (loginFormSubmit accounts w emailInput pw remember).world = w) ∧
    (loginFormSubmit accounts w emailInput pw remember).accounts = accounts ∧
    (∀ (accounts0 : Accounts) (w0 : World) (emailReg : String) (remember0 : Bool),
      (registerFormSubmit accounts0 w0 emailReg pw remember0).error = none →
      toLowerCase (jsTrim emailInput) = toLowerCase (jsTrim emailReg) →
      (loginFormSubmit (registerFormSubmit accounts0 w0 emailReg pw remember0).accounts
        (registerFormSubmit accounts0 w0 emailReg pw remember0).world emailInput pw
        remember).error = none) := by
  have hw : (loginFormSubmit accounts w emailInput pw remember).error = none →
      (loginFormSubmit accounts w emailInput pw remember).world
        = doLogin w (toLowerCase (jsTrim emailInput)) remember := by
    intro h
    have he := (login_error_none_iff accounts w emailInput pw remember).mp h
    rw [login_ok accounts w emailInput pw remember he]
  refine ⟨login_error_none_iff accounts w emailInput pw remember, ?_, ?_, ?_, ?_, ?_⟩
  · intro h
    refine ⟨hw h, ?_, ?_⟩
    · intro hr
      rw [hw h, hr]
      simp [doLogin, loadUserState, getCurrentUser]
    · intro hr
      rw [hw h, hr]
      simp [doLogin, loadUserState]
  · intro hinv
    constructor
    · constructor
      · intro h
        cases he : accounts (toLowerCase (jsTrim emailInput)) with
        | none => rfl
        | some x =>
          have hx : x ≠ "" := hinv x he
          by_cases hd : x = hashPw pw
          · have := (login_error_none_iff accounts w emailInput pw remember).mpr (by rw [he, hd])
            rw [this] at h
            cases h
          · rw [login_wrong_password accounts w emailInput pw remember x he hx hd] at h
            cases h
      · intro he
        rw [login_not_found accounts w emailInput pw remember (by rw [he]; rfl)]
    · constructor
      · intro h
        cases he : accounts (toLowerCase (jsTrim emailInput)) with
        | none =>
          rw [login_not_found accounts w emailInput pw remember (by rw [he]; rfl)] at h
          cases h
        | some x =>
          refine ⟨x, rfl, ?_⟩
          intro hd
          have := (login_error_none_iff accounts w emailInput pw remember).mpr (by rw [he, hd])
          rw [this] at h
          cases h
      · rintro ⟨x, he, hd⟩
        exact login_wrong_password accounts w emailInput pw remember x he (hinv x he) hd
  · intro h
    by_cases ht : truthyStr (accounts (toLowerCase (jsTrim emailInput))) = false
    · rw [login_not_found accounts w emailInput pw remember ht]
    · by_cases he : accounts (toLowerCase (jsTrim emailInput)) = some (hashPw pw)
      · exact absurd ((login_error_none_iff accounts w emailInput pw remember).mpr he) h
      · rw [login_wrong accounts w emailInput pw remember ht he]
  · by_cases ht : truthyStr (accounts (toLowerCase (jsTrim emailInput))) = false
    · rw [login_not_found accounts w emailInput pw remember ht]
    · by_cases he : accounts (toLowerCase (jsTrim emailInput)) = some (hashPw pw)
      · rw [login_ok accounts w emailInput pw remember he]
      · rw [login_wrong accounts w emailInput pw remember ht he]
  · intro accounts0 w0 emailReg remember0 hreg heq
    rw [login_error_none_iff, heq]
    exact register_success_entry accounts0 w0 emailReg pw remember0 hreg

/-- Witness for C21: `John@X.it` registers with `secret1`; the login with
`  john@x.IT ` and the same password succeeds. -/
theorem login_contract_witness :
    (loginFormSubmit
        (registerFormSubmit (fun _ => none)
          { state := { weights := [], mealPlans := [], workouts := [], wplans := [] },
            storage := fun _ => none, session := none, sessionTemp := none }
          "John@X.it" "secret1" false).accounts
        (registerFormSubmit (fun _ => none)
          { state := { weights := [], mealPlans := [], workouts := [], wplans := [] },
            storage := fun _ => none, session := none, sessionTemp := none }
          "John@X.it" "secret1" false).world
        "  john@x.IT " "secret1" true).error = none :=
  (login_contract (fun _ => none)
      { state := { weights := [], mealPlans := [], workouts := [], wplans := [] },
        storage := fun _ => none, session := none, sessionTemp := none }
      "  john@x.IT " "secret1" true).2.2.2.2.2
    (fun _ => none)
    { state := { weights := [], mealPlans := [], workouts := [], wplans := [] },
      storage := fun _ => none, session := none, sessionTemp := none }
    "John@X.it" false (by decide!) (by decide)

/-- C22. From every state, `doLogout` removes the durable session pointer and the
tab-scoped one and empties the four in-memory collections; the storage, and with it
what `loadUserState` reads for any e-mail, is unchanged, the account table is not
among the things the function touches, and a `save()` after the logout writes
nothing. -/
theorem logout_effect (w : World) :
    (doLogout w).session = none ∧
    (doLogout w).sessionTemp = none ∧
    (doLogout w).state = { weights := [], mealPlans := [], workouts := [], wplans := [] } ∧
    (doLogout w).storage = w.storage ∧
    (∀ email : String,
      (loadUserState (doLogout w) email).state = (loadUserState w email).state) ∧
    save (doLogout w) = doLogout w := by
  refine ⟨rfl, rfl, rfl, rfl, fun _ => rfl, ?_⟩
  simp [save, saveEmail, getCurrentUser, doLogout, truthyStr]

/-- C27 (counterexample to the claim as stated). An account registered with the
six-letter password `AaAaAa` is opened by the different six-letter password `BBBBBB`:
the two have the same `hashPw`. -/
theorem hash_collision_counterexample :
    "AaAaAa" ≠ "BBBBBB" ∧ (utf16Units "AaAaAa").length = 6 ∧
    (utf16Units "BBBBBB").length = 6 ∧ hashPw "AaAaAa" = hashPw "BBBBBB" ∧
    (loginFormSubmit
        (registerFormSubmit (fun _ => none)
          { state := { weights := [], mealPlans := [], workouts := [], wplans := [] },
            storage := fun _ => none, session := none, sessionTemp := none }
          "a@x.it" "AaAaAa" false).accounts
        { state := { weights := [], mealPlans := [], workouts := [], wplans := [] },
          storage := fun _ => none, session := none, sessionTemp := none }
        "a@x.it" "BBBBBB" false).error = none := by
  have hh : hashPw "AaAaAa" = hashPw "BBBBBB" := by decide!
  refine ⟨by decide, by decide, by decide, hh, ?_⟩
  rw [login_error_none_iff, ← hh]
  exact register_success_entry _ _ _ _ _ (by decide!)

/-- C27 (as amended). For every account registered with a password `p` and every
password `q` whose `hashPw` differs from that of `p`, the login submission with `q` is
rejected as a wrong password. -/
theorem wrong_hash_rejected (accounts0 : Accounts) (w0 w : World)
    (emailReg emailInput p q : String) (remember0 remember : Bool)
    (hreg : (registerFormSubmit accounts0 w0 emailReg p remember0).error = none)
    (hmail : toLowerCase (jsTrim emailInput) = toLowerCase (jsTrim emailReg))
    (hq : hashPw q ≠ hashPw p) :
    (loginFormSubmit (registerFormSubmit accounts0 w0 emailReg p remember0).accounts w
      emailInput q remember).error = some AuthError.wrongPassword := by
  have he := register_success_entry accounts0 w0 emailReg p remember0 hreg
  rw [← hmail] at he
  exact login_wrong_password _ w emailInput q remember (hashPw p) he (hashPw_ne_empty p)
    (fun e => hq e.symm)

/-- Witness for C27: registered with `secret1`, the login with `secret2` is rejected. -/
theorem wrong_hash_rejected_witness :
    (loginFormSubmit
        (registerFormSubmit (fun _ => none)
          { state := { weights := [], mealPlans := [], workouts := [], wplans := [] },
            storage := fun _ => none, session := none, sessionTemp := none }
          "a@x.it" "secret1" false).accounts
        { state := { weights := [], mealPlans := [], workouts := [], wplans := [] },
          storage := fun _ => none, session := none, sessionTemp := none }
        "A@x.it" "secret2" false).error = some AuthError.wrongPassword :=
  wrong_hash_rejected (fun _ => none)
    { state := { weights := [], mealPlans := [], workouts := [], wplans := [] },
      storage := fun _ => none, session := none, sessionTemp := none }
    { state := { weights := [], mealPlans := [], workouts := [], wplans := [] },
      storage := fun _ => none, session := none, sessionTemp := none }
    "a@x.it" "A@x.it" "secret1" "secret2" false false (by decide!) (by decide) (by decide!)

/-! ## Weight values -/

/-- C23 (counterexample to the claim as stated). A weight-form submission with the
value -5 is not rejected: it creates an entry whose value is -5. -/
theorem weight_negative_counterexample :
    (weightFormSubmit
        { state := { weights := [], mealPlans := [], workouts := [], wplans := [] },
          storage := fun _ => none, session := none, sessionTemp := some "u@x.it" }
        "id1" "2024-01-01" (some (-5)) "").state.weights
      = [⟨"id1", "2024-01-01", -5, ""⟩] ∧ (-5 : ℚ) ≤ 0 := by
  constructor
  · decide!
  · norm_num

/-- C23 (as amended). A weight-form submission whose value is not a number, or whose
date is empty, is rejected and returns the world as it was; any other submission is
accepted whatever the sign of the value: the collection then holds an entry with the
submitted date and value, and every entry that the submission creates or overwrites
carries the submitted date and value. -/
theorem weight_value_unchecked (w : World) (newId d : String) (value : Option ℚ)
    (n : String) :
    (value = none → weightFormSubmit w newId d value n = w) ∧
    (d = "" → weightFormSubmit w newId d value n = w) ∧
    (∀ v : ℚ, value = some v → d ≠ "" →
      (∃ e ∈ (weightFormSubmit w newId d value n).state.weights, e.date = d ∧ e.value = v) ∧
      (∀ e ∈ (weightFormSubmit w newId d value n).state.weights, e ∉ w.state.weights →
        e.date = d ∧ e.value = v)) := by
  refine ⟨?_, ?_, ?_⟩
  · rintro rfl
    unfold weightFormSubmit
    split_ifs <;> rfl
  · intro hd
    simp [weightFormSubmit, hd]
  · rintro v rfl hd
    rw [weightFormSubmit_weights w newId d v n hd]
    unfold weightUpsert
    cases hf : w.state.weights.find? (fun e => e.date == d) with
    | none =>
      simp only
      constructor
      · exact ⟨⟨newId, d, v, n⟩, by simp, rfl, rfl⟩
      · intro e he hnew
        rcases List.mem_append.mp he with he | he
        · exact absurd he hnew
        · rw [List.mem_singleton] at he
          subst he
          exact ⟨rfl, rfl⟩
    | some x =>
      simp only
      obtain ⟨pre, post, h1, _, h3, h4⟩ :=
        updateFirst_split (fun e => e.date == d)
          (fun dup => { dup with value := v, notes := n }) w.state.weights x hf
      have hxd : x.date = d := by simpa using h3
      constructor
      · refine ⟨{ x with value := v, notes := n }, ?_, hxd, rfl⟩
        rw [h4]
        simp
      · intro e he hnew
        rcases mem_updateFirst _ _ _ _ he with he | ⟨y, hy, rfl⟩
        · exact absurd he hnew
        · refine ⟨?_, rfl⟩
          by_contra hne
          have hyd : y.date ≠ d := hne
          have hsame : updateFirst (fun e => e.date == d)
              (fun dup => { dup with value := v, notes := n }) w.state.weights
              = pre ++ { x with value := v, notes := n } :: post := h4
          rw [hsame] at he
          rcases List.mem_append.mp he with he | he
          · apply hnew
            rw [h1]
            exact List.mem_append_left _ he
          · rcases List.mem_cons.mp he with he | he
            · have : ({ y with value := v, notes := n } : WeightEntry).date = d := by
                rw [he]
                exact hxd
              exact hyd this
            · apply hnew
              rw [h1]
              exact List.mem_append_right _ (List.mem_cons_of_mem _ he)

/-- Witness for C23: the value 0 on 2024-01-01 is stored. -/
theorem weight_value_unchecked_witness :
    ∃ e ∈ (weightFormSubmit
        { state := { weights := [], mealPlans := [], workouts := [], wplans := [] },
          storage := fun _ => none, session := none, sessionTemp := some "u@x.it" }
        "id1" "2024-01-01" (some 0) "").state.weights,
      e.date = "2024-01-01" ∧ e.value = 0 :=
  ((weight_value_unchecked
      { state := { weights := [], mealPlans := [], workouts := [], wplans := [] },
        storage := fun _ => none, session := none, sessionTemp := some "u@x.it" }
      "id1" "2024-01-01" (some 0) "").2.2 0 rfl (by decide)).1

/-! ## Using a plan -/

/-- C24. For every state and plan id, `usePlan` hands the world back exactly as it was:
the plans collection with every plan, exercise and drop set, the workouts collection
(no session is created), the other collections and the storage. With an unknown id it
also leaves the tracker form alone; with a known id the form receives the plan's name
and, in order, equal copies of the plan's exercises. -/
theorem usePlan_read_only (w : World) (planId today : String) :
    (usePlan w planId today).1 = w ∧
    (usePlan w planId today).1.state.wplans = w.state.wplans ∧
    (usePlan w planId today).1.state.workouts = w.state.workouts ∧
    ((∀ p ∈ w.state.wplans, p.id ≠ planId) → usePlan w planId today = (w, none)) ∧
    (∀ plan, w.state.wplans.find? (fun p => p.id == planId) = some plan →
      plan ∈ w.state.wplans ∧ plan.id = planId ∧
      (usePlan w planId today).2
        = some { name := plan.name, date := today, exercises := plan.exercises }) := by
  have h1 : (usePlan w planId today).1 = w := by
    unfold usePlan
    split <;> rfl
  refine ⟨h1, by rw [h1], by rw [h1], ?_, ?_⟩
  · intro h
    have hf : w.state.wplans.find? (fun p => p.id == planId) = none := by
      rw [List.find?_eq_none]
      intro p hp
      simpa using h p hp
    simp [usePlan, hf]
  · intro plan hf
    refine ⟨List.mem_of_find?_eq_some hf, ?_, ?_⟩
    · have := List.find?_some hf
      simpa using this
    · simp [usePlan, hf]

/-- Witness for C24: using the plan `p1` of a one-plan collection. -/
theorem usePlan_read_only_witness :
    (usePlan
        { state := { weights := [], mealPlans := [], workouts := [],
                     wplans := [⟨"p1", "Push", "", []⟩] },
          storage := fun _ => none, session := none, sessionTemp := some "u@x.it" }
        "p1" "2024-01-01").2
      = some { name := "Push", date := "2024-01-01", exercises := [] } :=
  ((usePlan_read_only
      { state := { weights := [], mealPlans := [], workouts := [],
                   wplans := [⟨"p1", "Push", "", []⟩] },
        storage := fun _ => none, session := none, sessionTemp := some "u@x.it" }
      "p1" "2024-01-01").2.2.2.2 ⟨"p1", "Push", "", []⟩ (by decide)).2.2

/-! ## Meal plans -/

theorem parseFloatOr0_eq (s : String) : parseFloatOr0 s = (parseFloat s).getD 0 := by
  unfold parseFloatOr0
  cases parseFloat s with
  | none => rfl
  | some q =>
    by_cases h : q = 0
    · simp [h]
    · simp [h]

theorem buildFood_names (rows : List FoodRow) :
    (rows.filterMap buildFood).map Food.name
      = (rows.map (fun r => jsTrim r.name)).filter (fun n => n != "") := by
  induction rows with
  | nil => rfl
  | cons r rs ih =>
    by_cases h : jsTrim r.name = ""
    · have hb : buildFood r = none := by simp [buildFood, h]
      simp [List.filterMap_cons, hb, h, ih]
    · have hb : ∃ f, buildFood r = some f ∧ f.name = jsTrim r.name := by
        simp [buildFood, h]
      obtain ⟨f, hf, hn⟩ := hb
      simp [List.filterMap_cons, hf, h, hn, ih]

/-- C25. The meal-form submission is rejected and returns the world as it was when the
date or the trimmed name is empty; otherwise it appends exactly one plan whose foods are
built from the named food rows in form order, also when there is no food row; and every
stored food has `cal`, `prot`, `carb` and `fat` equal to the number that `parseFloat`
reads in the input, or to 0 when it reads none. -/
theorem meal_plan_creation (w : World) (newId dateInput nameInput : String)
    (rows : List FoodRow) :
    ((dateInput = "" ∨ jsTrim nameInput = "") →
      mealFormSubmit w newId dateInput nameInput rows = w) ∧
    (dateInput ≠ "" → jsTrim nameInput ≠ "" →
      (mealFormSubmit w newId dateInput nameInput rows).state.mealPlans
        = w.state.mealPlans ++
          [{ id := newId, date := dateInput, name := jsTrim nameInput,
             foods := rows.filterMap buildFood }] ∧
      (mealFormSubmit w newId dateInput nameInput []).state.mealPlans
        = w.state.mealPlans ++
          [{ id := newId, date := dateInput, name := jsTrim nameInput, foods := [] }]) ∧
    (∀ r f, buildFood r = some f →
      f.name = jsTrim r.name ∧ f.cal = (parseFloat r.cal).getD 0 ∧
      f.prot = (parseFloat r.prot).getD 0 ∧ f.carb = (parseFloat r.carb).getD 0 ∧
      f.fat = (parseFloat r.fat).getD 0) ∧
    (rows.filterMap buildFood).map Food.name
      = (rows.map (fun r => jsTrim r.name)).filter (fun n => n != "") := by
  refine ⟨?_, ?_, ?_, buildFood_names rows⟩
  · intro h
    simp only [mealFormSubmit, if_pos h]
  · intro hd hn
    have h : ¬ (dateInput = "" ∨ jsTrim nameInput = "") := by
      rintro (h | h)
      · exact hd h
      · exact hn h
    constructor
    · simp only [mealFormSubmit, if_neg h, save_state]
    · simp only [mealFormSubmit, if_neg h, save_state, List.filterMap_nil]
  · intro r f hf
    unfold buildFood at hf
    by_cases hn : jsTrim r.name = ""
    · simp [hn] at hf
    · rw [if_neg hn] at hf
      simp only [Option.some.injEq] at hf
      subst hf
      exact ⟨rfl, parseFloatOr0_eq _, parseFloatOr0_eq _, parseFloatOr0_eq _,
        parseFloatOr0_eq _⟩

/-- Witness for C25: a plan named `Pranzo` with one named row and one unnamed row. -/
theorem meal_plan_creation_witness :
    (mealFormSubmit
        { state := { weights := [], mealPlans := [], workouts := [], wplans := [] },
          storage := fun _ => none, session := none, sessionTemp := some "u@x.it" }
        "id1" "2024-01-01" " Pranzo "
        [⟨"Pollo", "165", "31", "", "x"⟩, ⟨" ", "1", "1", "1", "1"⟩]).state.mealPlans
      = [] ++
        [{ id := "id1", date := "2024-01-01", name := jsTrim " Pranzo ",
           foods := List.filterMap buildFood
             [⟨"Pollo", "165", "31", "", "x"⟩, ⟨" ", "1", "1", "1", "1"⟩] }] :=
  ((meal_plan_creation
      { state := { weights := [], mealPlans := [], workouts := [], wplans := [] },
        storage := fun _ => none, session := none, sessionTemp := some "u@x.it" }
      "id1" "2024-01-01" " Pranzo "
      [⟨"Pollo", "165", "31", "", "x"⟩, ⟨" ", "1", "1", "1", "1"⟩]).2.1
    (by decide) (by decide)).1

theorem numOr0_eq (x : ℚ) : numOr0 x = x := by
  unfold numOr0
  split_ifs with h
  · exact h.symm
  · rfl

theorem macro_foldl (g : Food → ℚ) (foods : List Food) (a : ℚ) :
    foods.foldl (fun s f => s + numOr0 (g f)) a = a + (foods.map g).sum := by
  induction foods generalizing a with
  | nil => simp
  | cons f fs ih =>
    simp only [List.foldl_cons, List.map_cons, List.sum_cons]
    rw [ih, numOr0_eq]
    ring

theorem mathRound_spec (x : ℚ) : |((mathRound x : ℤ) : ℚ) - x| ≤ 1 / 2 := by
  unfold mathRound
  have h1 := Int.floor_le (x + 1 / 2)
  have h2 := Int.lt_floor_add_one (x + 1 / 2)
  rw [abs_le]
  constructor <;> linarith

/-- C26. For every meal plan, the totals shown by the history view are the sums over its
foods of calories, protein, carbohydrates and fat, the calorie sum rounded to the
nearest integer and the other three to one decimal; for an empty food list all four
are 0; and the calorie figure of the dashboard is the one of the history view. -/
theorem macro_totals (m : MealPlan) :
    (mealTotals m).cal = mathRound ((m.foods.map Food.cal).sum) ∧
    (mealTotals m).prot = toFixed1 ((m.foods.map Food.prot).sum) ∧
    (mealTotals m).carb = toFixed1 ((m.foods.map Food.carb).sum) ∧
    (mealTotals m).fat = toFixed1 ((m.foods.map Food.fat).sum) ∧
    (∀ x : ℚ, |((mathRound x : ℤ) : ℚ) - x| ≤ 1 / 2) ∧
    (∀ x : ℚ, (∃ k : ℤ, toFixed1 x = (k : ℚ) / 10) ∧ |toFixed1 x - x| ≤ 1 / 20) ∧
    (m.foods = [] → mealTotals m = { cal := 0, prot := 0, carb := 0, fat := 0 }) ∧
    dashTotalCal m = (mealTotals m).cal := by
  have hc := macro_foldl Food.cal m.foods 0
  have hp := macro_foldl Food.prot m.foods 0
  have hb := macro_foldl Food.carb m.foods 0
  have hf := macro_foldl Food.fat m.foods 0
  simp only [zero_add] at hc hp hb hf
  refine ⟨?_, ?_, ?_, ?_, mathRound_spec, toFixed1_spec, ?_, rfl⟩
  · simp only [mealTotals, hc]
  · simp only [mealTotals, hp]
  · simp only [mealTotals, hb]
  · simp only [mealTotals, hf]
  · intro he
    have h0 : toFixed1 0 = 0 := by norm_num [toFixed1]
    have h1 : mathRound 0 = 0 := by
      unfold mathRound
      rw [Int.floor_eq_iff]
      norm_num
    simp [mealTotals, he, h0, h1]

/-- Witness for C26: a plan without foods shows four zeros. -/
theorem macro_totals_witness :
    mealTotals ⟨"1", "2024-01-01", "Pranzo", []⟩
      = { cal := 0, prot := 0, carb := 0, fat := 0 } :=
  (macro_totals ⟨"1", "2024-01-01", "Pranzo", []⟩).2.2.2.2.2.2.1 rfl

/-! ## Pace sign, total volume with `failure`, pace formatting -/

/-- C28 (the code at a failing input). For the input `-5:30`, `parsePace` returns -4.5,
a number that is not greater than 0, and with the duration `30` the workout form stores
a run session with that pace and the distance -6.67. -/
theorem negative_pace_stored :
    parsePace "-5:30" = some (-9 / 2) ∧
    (workoutFormSubmit
        { state := { weights := [], mealPlans := [], workouts := [], wplans := [] },
          storage := fun _ => none, session := none, sessionTemp := some "u@x.it" }
        SessionType.run "id1" "2024-01-01" "" "" "30" "-5:30" []).state.workouts
      = [⟨"id1", "2024-01-01", "Corsa", "", some SessionType.run, [], some 30, some (-9 / 2),
          some (-667 / 100)⟩] := by
  constructor <;> decide!

/-- C29 (the code at a failing input). The workout form stores a gym session whose only
exercise has 3 sets, the failure button active and the weight 100; the total volume
computed for the stored session is `NaN`, not a number. -/
theorem failure_volume_nan :
    (workoutFormSubmit
        { state := { weights := [], mealPlans := [], workouts := [], wplans := [] },
          storage := fun _ => none, session := none, sessionTemp := some "u@x.it" }
        SessionType.gym "id1" "2024-01-01" "Legs" "" "" ""
        [⟨"Squat", "3", "", "100", "", "", "", true, false, []⟩]).state.workouts
      = [⟨"id1", "2024-01-01", "Legs", "", some SessionType.gym,
          [⟨"Squat", some 3, Reps.failure, some 100, none, "", "", []⟩], none, none, none⟩] ∧
    totalVolume ⟨"id1", "2024-01-01", "Legs", "", some SessionType.gym,
        [⟨"Squat", some 3, Reps.failure, some 100, none, "", "", []⟩], none, none, none⟩
      = none := by
  constructor <;> decide!

/-- C30 (the code at a failing input). `parsePace` returns 5.999 for the input `5.999`,
and `fmtPace` of that pace is `5:60`: the seconds field is 60. -/
theorem fmtPace_sixty_seconds :
    parsePace "5.999" = some (5999 / 1000) ∧ (0 : ℚ) < 5999 / 1000 ∧
    fmtPace (5999 / 1000) = "5:60" := by
  refine ⟨by decide!, by norm_num, by decide!⟩

/-- The second half of C30 on numerals: for decimal numerals `dm` and `ds` that are not
both zero, with `ds` at most 59, formatting the parsed pace gives the minutes, a colon
and the seconds padded to two digits. -/
theorem fmtPace_inverts_numerals (dm ds : List Char) (hm : dm ≠ []) (hs : ds ≠ [])
    (h1 : ∀ c ∈ dm, '0' ≤ c ∧ c ≤ '9') (h2 : ∀ c ∈ ds, '0' ≤ c ∧ c ≤ '9')
    (h59 : numeralValue ds ≤ 59) (hnz : ¬ (numeralValue dm = 0 ∧ numeralValue ds = 0)) :
    (parsePace (String.mk (dm ++ ':' :: ds))).map fmtPace
      = some (toString ((numeralValue dm : ℕ) : ℤ) ++ ":" ++
          padStart2 ((numeralValue ds : ℕ) : ℤ)) := by
  rw [parsePace_numerals dm ds hm hs h1 h2, if_neg hnz]
  simp only [Option.map_some', Option.some.injEq]
  have hs0 : (0 : ℚ) ≤ (numeralValue ds : ℚ) := Nat.cast_nonneg _
  have hs1 : (numeralValue ds : ℚ) ≤ 59 := by exact_mod_cast h59
  have hfloor : ⌊(numeralValue dm : ℚ) + (numeralValue ds : ℚ) / 60⌋
      = ((numeralValue dm : ℕ) : ℤ) := by
    rw [Int.floor_eq_iff]
    push_cast
    constructor <;> linarith
  have hround : mathRound (((numeralValue dm : ℚ) + (numeralValue ds : ℚ) / 60
      - (((numeralValue dm : ℕ) : ℤ) : ℚ)) * 60) = ((numeralValue ds : ℕ) : ℤ) := by
    unfold mathRound
    rw [Int.floor_eq_iff]
    push_cast
    constructor <;> linarith
  unfold fmtPace
  simp only [hfloor, hround]

end FitTracker
